import Mathlib

/-!
# PhysUnits-CT: the dimension algebra and the quantity operators

A shallow embedding of `phys/units/quantity.hpp`, of the prefix lookup and the
unit symbol of `phys/units/quantity_io.hpp`, of the engineering format of
`phys/units/quantity_io_engineering.hpp`, and of the units of time and the
constants `eV()` and `e()` of `phys/units/other_units.hpp` and
`phys/units/physical_constants.hpp`.

* Compile-time entities become data.  A `dimensions<D1..D7>` instantiation is a
  record of seven integers; a type produced by a type generator
  (`detail::collapse<..>::type`, `detail::product<..>::type`, ...) is a `type_id`;
  a translation unit that the compiler rejects is an `Except.error` carrying the
  diagnostic.
* The exponents are `int` template arguments.  They are embedded as unbounded
  integers: arithmetic on them happens in integral constant expressions, where
  an overflow is not a value.  `/` and `%` on them truncate towards zero
  (`Int.tdiv`, `Int.tmod`) and a zero divisor makes the expression ill-formed.
* `quantity<Dims, T>` keeps `Dims` as an index of the Lean type, so that
  operators which take two operands of one `Dims` are typed exactly as in the
  source.  The scalar payload lives in an arbitrary carrier `α` which is only
  asked for the operations the source applies to it (`*`, `/`, `pow`, ...), so
  every statement below holds for each arithmetic that interprets them; the
  exact-arithmetic statements are instantiated at `ℚ` and `ℝ`, where `pow` is
  the real power.  One carrier stands for all representation types; which of
  them a result is declared with is tracked in its `type_id`.
* A floating scalar type has values that exact arithmetic lacks.  The carrier
  `iec559` has them: finite values with exact arithmetic, the two infinities
  and NaN, with the operators of the floating type on them.  The statements
  that hold in exact arithmetic and fail, or need a condition, at an infinity
  or at NaN are made with it.
* The compound assignments take their operands by reference.  They are
  embedded over a memory that gives the scalar stored at each address, an
  lvalue being the address of the `m_value` of its object, so that two
  parameters may designate one object.  The assignment converts the result of
  the arithmetic operator to the scalar type of the left operand; that
  conversion is a parameter of the embedding.
* A function whose declared return type is a quantity converts the returned
  expression to it; the unit functions therefore evaluate to an accepted
  quantity or to a diagnostic.
* The prefix factors `yotta() .. yocto()` are the exact rationals that their
  literals denote.  An output stream is the string written so far, a thrown
  exception is an `Except.error` carrying its text.
* The units of time and the physical constants are taken at `ℚ`, each literal
  being the exact rational it denotes.
* The constructor of `eng_format` is embedded in two parts, the normalisation
  of the exponent and the choice of the texts; `pow( 10.0, n )` is the exact
  power of ten, and the text that the stream writes for the value is a
  parameter.  The `unit_info` that the constructor consults is a record of the
  three static members, since a header may specialise the template.
* The header is read with `PHYS_UNITS_COMPILER_IS_MSVC6` undefined.
-/

namespace PhysUnits

/-! ## Dimension vectors -/

/-- The `dimensions< D1, D2, D3, D4 = 0, D5 = 0, D6 = 0, D7 = 0 >` template:
the enumerators `dim1 .. dim7`. -/
structure dimensions where
  dim1 : Int
  dim2 : Int
  dim3 : Int
  dim4 : Int := 0
  dim5 : Int := 0
  dim6 : Int := 0
  dim7 : Int := 0
deriving DecidableEq, Repr

namespace dimensions

/-- Enumerator `is_all_zero`. -/
def is_all_zero (D : dimensions) : Bool :=
  D.dim1 == 0 && D.dim2 == 0 && D.dim3 == 0 && D.dim4 == 0 && D.dim5 == 0 && D.dim6 == 0 &&
    D.dim7 == 0

/-- Enumerator `is_base`; a comparison contributes 1 when it holds and 0
otherwise. -/
def is_base (D : dimensions) : Bool :=
  (1 : Int) == (if D.dim1 != 0 then 1 else 0) + (if D.dim2 != 0 then 1 else 0) +
      (if D.dim3 != 0 then 1 else 0) + (if D.dim4 != 0 then 1 else 0) +
      (if D.dim5 != 0 then 1 else 0) + (if D.dim6 != 0 then 1 else 0) +
      (if D.dim7 != 0 then 1 else 0) &&
    (1 : Int) == D.dim1 + D.dim2 + D.dim3 + D.dim4 + D.dim5 + D.dim6 + D.dim7

/-- Member `operator==( dimensions< R1, .., R7 > const & rhs )`. -/
def eq (D R : dimensions) : Bool :=
  D.dim1 == R.dim1 && D.dim2 == R.dim2 && D.dim3 == R.dim3 && D.dim4 == R.dim4 &&
    D.dim5 == R.dim5 && D.dim6 == R.dim6 && D.dim7 == R.dim7

/-- Member `operator!=( dimensions< R1, .., R7 > const & rhs )`. -/
def ne (D R : dimensions) : Bool :=
  !(D.eq R)

end dimensions

/-- The typedef `dimensionless_d`, that is `dimensions< 0, 0, 0 >`. -/
def dimensionless_d : dimensions := { dim1 := 0, dim2 := 0, dim3 := 0 }

/-- The typedef `length_d`. -/
def length_d : dimensions := ⟨1, 0, 0, 0, 0, 0, 0⟩

/-- The typedef `mass_d`. -/
def mass_d : dimensions := ⟨0, 1, 0, 0, 0, 0, 0⟩

/-- The typedef `time_interval_d`. -/
def time_interval_d : dimensions := ⟨0, 0, 1, 0, 0, 0, 0⟩

/-- The typedef `electric_current_d`. -/
def electric_current_d : dimensions := ⟨0, 0, 0, 1, 0, 0, 0⟩

/-- The typedef `thermodynamic_temperature_d`. -/
def thermodynamic_temperature_d : dimensions := ⟨0, 0, 0, 0, 1, 0, 0⟩

/-- The typedef `amount_of_substance_d`. -/
def amount_of_substance_d : dimensions := ⟨0, 0, 0, 0, 0, 1, 0⟩

/-- The typedef `luminous_intensity_d`. -/
def luminous_intensity_d : dimensions := ⟨0, 0, 0, 0, 0, 0, 1⟩

/-! ## Types and diagnostics -/

/-- A type named by one of the type generators: either the bare representation
type `T`, or the class `quantity< Dims, T >`.  `τ` is the collection of
representation types. -/
inductive type_id (τ : Type) where
  | rep (T : τ)
  | quantity (Dims : dimensions) (T : τ)
deriving DecidableEq, Repr

/-- The ways in which the compiler rejects an instantiation of the header. -/
inductive compile_error where
  /-- The typedef `ERROR__root_result_dimensions_must_be_integral` has no type. -/
  | root_result_dimensions_must_be_integral
  /-- An enumerator is initialised by a division or a remainder by zero. -/
  | division_by_zero_in_constant_expression
  /-- No function template accepts the argument of a call. -/
  | no_matching_function
deriving DecidableEq, Repr

/-- The class template `quantity< Dims, T >`: its only data member is `m_value`. -/
structure quantity (Dims : dimensions) (α : Type) where
  m_value : α
deriving DecidableEq, Repr

namespace quantity

variable {α : Type} {Dims : dimensions}

/-- The typedef `dimension_type`. -/
def dimension_type (_ : quantity Dims α) : dimensions := Dims

/-- The private enumerator `ok = ! Dims::is_all_zero`, which
`PHYS_UNITS_STATIC_ASSERT_TYPE( ok, quantity_dimensions_must_not_all_be_zero )`
requires to be non-zero. -/
def ok (_ : quantity Dims α) : Bool := !Dims.is_all_zero

end quantity

/-- An object whose type is a `collapse< Dims, T >::type`: a bare scalar or a
quantity. -/
inductive value (α : Type) where
  | rep (v : α)
  | quan (Dims : dimensions) (q : quantity Dims α)
deriving DecidableEq, Repr

namespace detail

variable {τ α : Type}

/-- The template `collapse< Dims, T >` together with its specialisation for
`dimensionless_d`: the member typedef `type`. -/
def collapse (Dims : dimensions) (T : τ) : type_id τ :=
  if Dims = dimensionless_d then .rep T else .quantity Dims T

/-- The expression `collapse< Dims, T >::type( permit< T >( v ) )`: the
conversion of the permit to `T` for the specialisation, the explicit permit
constructor of `quantity< Dims, T >` otherwise. -/
def collapse.construct (Dims : dimensions) (v : α) : value α :=
  if Dims = dimensionless_d then .rep v else .quan Dims ⟨v⟩

/-- Template `select_< condition, Then, Else >`: the member `result`. -/
def select_ (condition : Bool) (Then Else : τ) : τ :=
  match condition with
  | true => Then
  | false => Else

/-- Template `promote< T, U >`: the member `type`; `sizeof` is the target's. -/
def promote (sizeof : τ → Nat) (T U : τ) : τ :=
  select_ (decide (sizeof T ≥ sizeof U)) T U

/-- The enumerators `d1 .. d7` of `product< LhsDims, RhsDims, T >`. -/
def product.dims (LhsDims RhsDims : dimensions) : dimensions :=
  { dim1 := LhsDims.dim1 + RhsDims.dim1
    dim2 := LhsDims.dim2 + RhsDims.dim2
    dim3 := LhsDims.dim3 + RhsDims.dim3
    dim4 := LhsDims.dim4 + RhsDims.dim4
    dim5 := LhsDims.dim5 + RhsDims.dim5
    dim6 := LhsDims.dim6 + RhsDims.dim6
    dim7 := LhsDims.dim7 + RhsDims.dim7 }

/-- The member typedef `type` of `product< LhsDims, RhsDims, T >`. -/
def product.type (LhsDims RhsDims : dimensions) (T : τ) : type_id τ :=
  collapse (product.dims LhsDims RhsDims) T

/-- The enumerators `d1 .. d7` of `quotient< LhsDims, RhsDims, T >`. -/
def quotient.dims (LhsDims RhsDims : dimensions) : dimensions :=
  { dim1 := LhsDims.dim1 - RhsDims.dim1
    dim2 := LhsDims.dim2 - RhsDims.dim2
    dim3 := LhsDims.dim3 - RhsDims.dim3
    dim4 := LhsDims.dim4 - RhsDims.dim4
    dim5 := LhsDims.dim5 - RhsDims.dim5
    dim6 := LhsDims.dim6 - RhsDims.dim6
    dim7 := LhsDims.dim7 - RhsDims.dim7 }

/-- The member typedef `type` of `quotient< LhsDims, RhsDims, T >`. -/
def quotient.type (LhsDims RhsDims : dimensions) (T : τ) : type_id τ :=
  collapse (quotient.dims LhsDims RhsDims) T

/-- The enumerators `d1 .. d7` of `reciprocal< Dims, T >`. -/
def reciprocal.dims (Dims : dimensions) : dimensions :=
  { dim1 := - Dims.dim1
    dim2 := - Dims.dim2
    dim3 := - Dims.dim3
    dim4 := - Dims.dim4
    dim5 := - Dims.dim5
    dim6 := - Dims.dim6
    dim7 := - Dims.dim7 }

/-- The member typedef `type` of `reciprocal< Dims, T >`. -/
def reciprocal.type (Dims : dimensions) (T : τ) : type_id τ :=
  collapse (reciprocal.dims Dims) T

/-- The enumerators `d1 .. d7` of `power< Dims, N, T >`. -/
def power.dims (Dims : dimensions) (N : Int) : dimensions :=
  { dim1 := N * Dims.dim1
    dim2 := N * Dims.dim2
    dim3 := N * Dims.dim3
    dim4 := N * Dims.dim4
    dim5 := N * Dims.dim5
    dim6 := N * Dims.dim6
    dim7 := N * Dims.dim7 }

/-- The member typedef `type` of `power< Dims, N, T >`. -/
def power.type (Dims : dimensions) (N : Int) (T : τ) : type_id τ :=
  collapse (power.dims Dims N) T

/-- The operator `%` of an integral constant expression: the remainder of the
division that truncates towards zero; no value for a zero divisor. -/
def constant_rem (a b : Int) : Except compile_error Int :=
  if b = 0 then .error .division_by_zero_in_constant_expression else .ok (Int.tmod a b)

/-- The operator `/` of an integral constant expression: the quotient truncated
towards zero; no value for a zero divisor. -/
def constant_quot (a b : Int) : Except compile_error Int :=
  if b = 0 then .error .division_by_zero_in_constant_expression else .ok (Int.tdiv a b)

/-- The enumerator `all_even_multiples` of `root< Dims, N, T >`. -/
def root.all_even_multiples (Dims : dimensions) (N : Int) : Except compile_error Bool :=
  match constant_rem Dims.dim1 N, constant_rem Dims.dim2 N, constant_rem Dims.dim3 N,
    constant_rem Dims.dim4 N, constant_rem Dims.dim5 N, constant_rem Dims.dim6 N,
    constant_rem Dims.dim7 N with
  | .ok r1, .ok r2, .ok r3, .ok r4, .ok r5, .ok r6, .ok r7 =>
    .ok (r1 == 0 && r2 == 0 && r3 == 0 && r4 == 0 && r5 == 0 && r6 == 0 && r7 == 0)
  | _, _, _, _, _, _, _ => .error .division_by_zero_in_constant_expression

/-- The enumerators `d1 .. d7` of `root< Dims, N, T >`. -/
def root.dims (Dims : dimensions) (N : Int) : Except compile_error dimensions :=
  match constant_quot Dims.dim1 N, constant_quot Dims.dim2 N, constant_quot Dims.dim3 N,
    constant_quot Dims.dim4 N, constant_quot Dims.dim5 N, constant_quot Dims.dim6 N,
    constant_quot Dims.dim7 N with
  | .ok d1, .ok d2, .ok d3, .ok d4, .ok d5, .ok d6, .ok d7 =>
    .ok { dim1 := d1, dim2 := d2, dim3 := d3, dim4 := d4, dim5 := d5, dim6 := d6, dim7 := d7 }
  | _, _, _, _, _, _, _ => .error .division_by_zero_in_constant_expression

/-- The member typedef `type` of `root< Dims, N, T >`; the class has it once
both of its enumerations are instantiated. -/
def root.type (Dims : dimensions) (N : Int) (T : τ) : Except compile_error (type_id τ) :=
  match root.all_even_multiples Dims N, root.dims Dims N with
  | .ok _, .ok d => .ok (collapse d T)
  | .error e, _ => .error e
  | _, .error e => .error e

end detail

namespace value

variable {τ α : Type}

/-- The static type of an object, for the representation type `T`. -/
def type_of (T : τ) : value α → type_id τ
  | .rep _ => .rep T
  | .quan Dims _ => .quantity Dims T

/-- The static assertion of every `quantity` class that the type of the object
instantiates: nothing to check for a bare scalar. -/
def ok : value α → Bool
  | .rep _ => true
  | .quan _ q => q.ok

end value

/-- The function `fabs` of `<cmath>` on the scalar type. -/
class has_fabs (α : Type) where
  /-- The absolute value of a scalar. -/
  fabs : α → α

/-- In exact arithmetic `fabs` is the absolute value. -/
instance has_fabs.of_lattice (α : Type) [Lattice α] [AddGroup α] : has_fabs α :=
  ⟨fun x => |x|⟩

namespace quantity

variable {α : Type} {Dims RhsDims : dimensions}

/-- Member `operator*( quantity< RhsDims, Y > const & rhs )`. -/
def mul [Mul α] (lhs : quantity Dims α) (rhs : quantity RhsDims α) : value α :=
  detail.collapse.construct (detail.product.dims Dims RhsDims) (lhs.m_value * rhs.m_value)

/-- Member `operator/( quantity< RhsDims, Y > const & rhs )`. -/
def div [Div α] (lhs : quantity Dims α) (rhs : quantity RhsDims α) : value α :=
  detail.collapse.construct (detail.quotient.dims Dims RhsDims) (lhs.m_value / rhs.m_value)

/-- The `quan += quan` operator on two operands of one scalar type, where the
assignment converts nothing: the object `lhs` after the call, which is also
what the returned reference designates. -/
def add_assign [Add α] (lhs rhs : quantity Dims α) : quantity Dims α :=
  ⟨lhs.m_value + rhs.m_value⟩

/-- The `+ quan` operator. -/
def pos (rhs : quantity Dims α) : quantity Dims α :=
  ⟨rhs.m_value⟩

/-- The `quan + quan` operator. -/
def add [Add α] (lhs rhs : quantity Dims α) : quantity Dims α :=
  ⟨lhs.m_value + rhs.m_value⟩

/-- The `quan -= quan` operator on two operands of one scalar type: the object
`lhs` after the call. -/
def sub_assign [Sub α] (lhs rhs : quantity Dims α) : quantity Dims α :=
  ⟨lhs.m_value - rhs.m_value⟩

/-- The `- quan` operator. -/
def neg [Neg α] (rhs : quantity Dims α) : quantity Dims α :=
  ⟨- rhs.m_value⟩

/-- The `quan - quan` operator. -/
def sub [Sub α] (lhs rhs : quantity Dims α) : quantity Dims α :=
  ⟨lhs.m_value - rhs.m_value⟩

/-- The `quan *= num` operator on a quantity whose scalar type is `Rep`: the
object `lhs` after the call. -/
def mul_assign [Mul α] (lhs : quantity Dims α) (rhs : α) : quantity Dims α :=
  ⟨lhs.m_value * rhs⟩

/-- The `quan * num` operator. -/
def mul_num [Mul α] (lhs : quantity Dims α) (rhs : α) : quantity Dims α :=
  ⟨lhs.m_value * rhs⟩

/-- The `num * quan` operator. -/
def num_mul [Mul α] (lhs : α) (rhs : quantity Dims α) : quantity Dims α :=
  ⟨lhs * rhs.m_value⟩

/-- The `quan /= num` operator on a quantity and a number of one scalar type:
the object `lhs` after the call. -/
def div_assign [Div α] (lhs : quantity Dims α) (rhs : α) : quantity Dims α :=
  ⟨lhs.m_value / rhs⟩

/-- The `quan / num` operator. -/
def div_num [Div α] (lhs : quantity Dims α) (rhs : α) : quantity Dims α :=
  ⟨lhs.m_value / rhs⟩

/-- The `num / quan` operator. -/
def num_div [Div α] (lhs : α) (rhs : quantity Dims α) : value α :=
  detail.collapse.construct (detail.reciprocal.dims Dims) (lhs / rhs.m_value)

/-- Function `abs`, which applies `fabs` to the scalar. -/
def abs [has_fabs α] (x : quantity Dims α) : quantity Dims α :=
  ⟨has_fabs.fabs x.m_value⟩

/-- Function `nth_power< N >`: the scalar is `T( pow( m_value, T( N ) ) )`. -/
def nth_power [Pow α α] [IntCast α] (N : Int) (rhs : quantity Dims α) : value α :=
  detail.collapse.construct (detail.power.dims Dims N) (rhs.m_value ^ (N : α))

/-- Function `square`, returning `arg * arg`; the declared return type is
`detail::power< Dims, 2, T >::type`. -/
def square [Mul α] (arg : quantity Dims α) : value α :=
  arg.mul arg

/-- Function `cube`, returning `arg * arg * arg`: the second `*` is the member
operator when `arg * arg` is a quantity and `num * quan` when it is a scalar;
the declared return type is `detail::power< Dims, 3, T >::type`. -/
def cube [Mul α] (arg : quantity Dims α) : value α :=
  match arg.mul arg with
  | .quan _ q => q.mul arg
  | .rep v => .quan Dims (num_mul v arg)

/-- Function `nth_root< N >`.  The return type `detail::root< Dims, N, T >::type`
is instantiated first, the static assertion on `all_even_multiples` belongs to
the body; the scalar is `T( pow( m_value, T( 1.0 ) / N ) )`. -/
def nth_root [Pow α α] [One α] [Div α] [IntCast α] (N : Int) (rhs : quantity Dims α) :
    Except compile_error (value α) :=
  match detail.root.all_even_multiples Dims N, detail.root.dims Dims N with
  | .ok all_even_multiples, .ok d =>
    if all_even_multiples then
      .ok (detail.collapse.construct d (rhs.m_value ^ ((1 : α) / (N : α))))
    else
      .error .root_result_dimensions_must_be_integral
  | .error e, _ => .error e
  | _, .error e => .error e

/-- Function `sqrt`: the same assertion for `detail::root< Dims, 2, T >`; the
scalar is `T( pow( m_value, T( 1.0 ) / 2 ) )`. -/
def sqrt [Pow α α] [One α] [Div α] [IntCast α] (rhs : quantity Dims α) :
    Except compile_error (value α) :=
  match detail.root.all_even_multiples Dims 2, detail.root.dims Dims 2 with
  | .ok all_even_multiples, .ok d =>
    if all_even_multiples then
      .ok (detail.collapse.construct d (rhs.m_value ^ ((1 : α) / ((2 : Int) : α))))
    else
      .error .root_result_dimensions_must_be_integral
  | .error e, _ => .error e
  | _, .error e => .error e

end quantity

namespace value

variable {α : Type}

/-- The call `nth_root< N >( v )` on an object of a collapsed type: the parameter
`quantity< Dims, T > const &` is deduced from a quantity only. -/
def nth_root [Pow α α] [One α] [Div α] [IntCast α] (N : Int) :
    value α → Except compile_error (value α)
  | .quan _ q => q.nth_root N
  | .rep _ => .error .no_matching_function

end value

/-! ## The additive identity, comparisons, overloads on results -/

namespace quantity

variable {α : Type} {Dims RhsDims : dimensions}

/-- Static member `zero()`, returning `quantity( value_type( 0.0 ) )`. -/
def zero [Zero α] : quantity Dims α :=
  ⟨0⟩

/-- The `==` operator on two quantities of one `Dims`. -/
def eq [BEq α] (lhs rhs : quantity Dims α) : Bool :=
  lhs.m_value == rhs.m_value

/-- The `!=` operator on two quantities of one `Dims`. -/
def ne [BEq α] (lhs rhs : quantity Dims α) : Bool :=
  lhs.m_value != rhs.m_value

/-- The `<=` operator on two quantities of one `Dims`. -/
def le [LE α] [(a b : α) → Decidable (a ≤ b)] (lhs rhs : quantity Dims α) : Bool :=
  decide (lhs.m_value ≤ rhs.m_value)

/-- The `>=` operator on two quantities of one `Dims`. -/
def ge [LE α] [(a b : α) → Decidable (a ≤ b)] (lhs rhs : quantity Dims α) : Bool :=
  decide (lhs.m_value ≥ rhs.m_value)

/-- The `<` operator on two quantities of one `Dims`. -/
def lt [LT α] [(a b : α) → Decidable (a < b)] (lhs rhs : quantity Dims α) : Bool :=
  decide (lhs.m_value < rhs.m_value)

/-- The `>` operator on two quantities of one `Dims`. -/
def gt [LT α] [(a b : α) → Decidable (a < b)] (lhs rhs : quantity Dims α) : Bool :=
  decide (lhs.m_value > rhs.m_value)

end quantity

namespace value

variable {α : Type} {RhsDims : dimensions}

/-- The expression `v / rhs` for an object `v` of a collapsed type and a
quantity `rhs`: the member `operator/` when `v` is a quantity, the `num / quan`
operator when it is a bare scalar. -/
def div_quan [Div α] (v : value α) (rhs : quantity RhsDims α) : value α :=
  match v with
  | .quan _ q => q.div rhs
  | .rep k => quantity.num_div k rhs

end value

/-! ## Compound assignment through references -/

namespace quantity

variable {α : Type} {Dims : dimensions}

/-- An lvalue of type `quantity< Dims, T >`: the address of the object, whose
only member is `m_value`. -/
structure ref (Dims : dimensions) where
  address : Nat
deriving DecidableEq, Repr

/-- The object that an lvalue designates, in a memory that gives the scalar
stored at each address. -/
def ref.read (r : ref Dims) (memory : Nat → α) : quantity Dims α :=
  ⟨memory r.address⟩

/-- The call `operator+=( lhs, rhs )` on the parameters
`quantity< Dims, X > & lhs` and `quantity< Dims, Y > const & rhs`: the memory
after `lhs.get( .. ) += rhs.get( .. )`, and the returned reference.  The sum is
formed in the common type of `X` and `Y` and the assignment converts it to `X`,
the type of the scalar of `lhs`; `to_X` is that conversion. -/
def ref.add_assign [Add α] (to_X : α → α) (memory : Nat → α) (lhs rhs : ref Dims) :
    (Nat → α) × ref Dims :=
  (Function.update memory lhs.address (to_X (memory lhs.address + memory rhs.address)), lhs)

/-- The call `operator-=( lhs, rhs )`: the memory after
`lhs.get( .. ) -= rhs.get( .. )`, and the returned reference; the difference is
converted to `X` by `to_X`. -/
def ref.sub_assign [Sub α] (to_X : α → α) (memory : Nat → α) (lhs rhs : ref Dims) :
    (Nat → α) × ref Dims :=
  (Function.update memory lhs.address (to_X (memory lhs.address - memory rhs.address)), lhs)

/-- The call `operator*=( lhs, rhs )` on the parameters
`quantity< Dims, X > & lhs` and `const Rep & rhs`, the latter an address of a
number: the memory after `lhs.get( .. ) *= rhs`, and the returned reference;
the product is converted to `X` by `to_X`. -/
def ref.mul_assign [Mul α] (to_X : α → α) (memory : Nat → α) (lhs : ref Dims) (rhs : Nat) :
    (Nat → α) × ref Dims :=
  (Function.update memory lhs.address (to_X (memory lhs.address * memory rhs)), lhs)

/-- The call `operator/=( lhs, rhs )` on the parameters
`quantity< Dims, X > & lhs` and `const Y & rhs`, the latter an address of a
number: the memory after `lhs.get( .. ) /= rhs`, and the returned reference;
the quotient is converted to `X` by `to_X`. -/
def ref.div_assign [Div α] (to_X : α → α) (memory : Nat → α) (lhs : ref Dims) (rhs : Nat) :
    (Nat → α) × ref Dims :=
  (Function.update memory lhs.address (to_X (memory lhs.address / memory rhs)), lhs)

end quantity

/-! ## The standard dimensional types and the SI units -/

/-- The typedef `absorbed_dose_d`. -/
def absorbed_dose_d : dimensions := { dim1 := 2, dim2 := 0, dim3 := -2 }

/-- The typedef `activity_of_a_nuclide_d`. -/
def activity_of_a_nuclide_d : dimensions := { dim1 := 0, dim2 := 0, dim3 := -1 }

/-- The typedef `area_d`. -/
def area_d : dimensions := { dim1 := 2, dim2 := 0, dim3 := 0 }

/-- The typedef `capacitance_d`. -/
def capacitance_d : dimensions := { dim1 := -2, dim2 := -1, dim3 := 4, dim4 := 2 }

/-- The typedef `dose_equivalent_d`. -/
def dose_equivalent_d : dimensions := { dim1 := 2, dim2 := 0, dim3 := -2 }

/-- The typedef `electric_charge_d`. -/
def electric_charge_d : dimensions := { dim1 := 0, dim2 := 0, dim3 := 1, dim4 := 1 }

/-- The typedef `electric_conductance_d`. -/
def electric_conductance_d : dimensions := { dim1 := -2, dim2 := -1, dim3 := 3, dim4 := 2 }

/-- The typedef `electric_potential_d`. -/
def electric_potential_d : dimensions := { dim1 := 2, dim2 := 1, dim3 := -3, dim4 := -1 }

/-- The typedef `electric_resistance_d`. -/
def electric_resistance_d : dimensions := { dim1 := 2, dim2 := 1, dim3 := -3, dim4 := -2 }

/-- The typedef `energy_d`. -/
def energy_d : dimensions := { dim1 := 2, dim2 := 1, dim3 := -2 }

/-- The typedef `force_d`. -/
def force_d : dimensions := { dim1 := 1, dim2 := 1, dim3 := -2 }

/-- The typedef `frequency_d`. -/
def frequency_d : dimensions := { dim1 := 0, dim2 := 0, dim3 := -1 }

/-- The typedef `heat_capacity_d`. -/
def heat_capacity_d : dimensions := { dim1 := 2, dim2 := 1, dim3 := -2, dim4 := 0, dim5 := -1 }

/-- The typedef `illuminance_d`. -/
def illuminance_d : dimensions :=
  { dim1 := -2, dim2 := 0, dim3 := 0, dim4 := 0, dim5 := 0, dim6 := 0, dim7 := 1 }

/-- The typedef `inductance_d`. -/
def inductance_d : dimensions := { dim1 := 2, dim2 := 1, dim3 := -2, dim4 := -2 }

/-- The typedef `luminous_flux_d`. -/
def luminous_flux_d : dimensions :=
  { dim1 := 0, dim2 := 0, dim3 := 0, dim4 := 0, dim5 := 0, dim6 := 0, dim7 := 1 }

/-- The typedef `magnetic_flux_d`. -/
def magnetic_flux_d : dimensions := { dim1 := 2, dim2 := 1, dim3 := -2, dim4 := -1 }

/-- The typedef `magnetic_flux_density_d`. -/
def magnetic_flux_density_d : dimensions := { dim1 := 0, dim2 := 1, dim3 := -2, dim4 := -1 }

/-- The typedef `molar_energy_d`. -/
def molar_energy_d : dimensions :=
  { dim1 := 2, dim2 := 1, dim3 := -2, dim4 := 0, dim5 := 0, dim6 := -1 }

/-- The typedef `molar_entropy_d`. -/
def molar_entropy_d : dimensions :=
  { dim1 := 2, dim2 := 1, dim3 := -2, dim4 := -1, dim5 := 0, dim6 := -1 }

/-- The typedef `power_d`. -/
def power_d : dimensions := { dim1 := 2, dim2 := 1, dim3 := -3 }

/-- The typedef `pressure_d`. -/
def pressure_d : dimensions := { dim1 := -1, dim2 := 1, dim3 := -2 }

namespace value

variable {α : Type}

/-- The expression `a * b` on two objects of collapsed types: the member
`operator*` for two quantities, `quan * num`, `num * quan`, or the product of
two numbers. -/
def mul [Mul α] : value α → value α → value α
  | .quan _ a, .quan _ b => a.mul b
  | .quan D a, .rep k => .quan D (a.mul_num k)
  | .rep k, .quan D b => .quan D (quantity.num_mul k b)
  | .rep a, .rep b => .rep (a * b)

/-- The expression `a / b` on two objects of collapsed types: the member
`operator/` for two quantities, `quan / num`, `num / quan`, or the quotient of
two numbers. -/
def div [Div α] : value α → value α → value α
  | .quan _ a, .quan _ b => a.div b
  | .quan D a, .rep k => .quan D (a.div_num k)
  | .rep k, .quan _ b => quantity.num_div k b
  | .rep a, .rep b => .rep (a / b)

/-- The expression `a + b` on two objects of collapsed types: `quan + quan`
deduces one `Dims` from both operands, two numbers are added as numbers, and
no operator takes a quantity and a number. -/
def add [Add α] : value α → value α → Except compile_error (value α)
  | .quan D1 a, .quan D2 b =>
    if D1 = D2 then .ok (.quan D2 (quantity.add ⟨a.m_value⟩ b)) else .error .no_matching_function
  | .rep a, .rep b => .ok (.rep (a + b))
  | .quan _ _, .rep _ => .error .no_matching_function
  | .rep _, .quan _ _ => .error .no_matching_function

/-- The statement `return v;` in a function declared to return
`quantity< Dims >`: the converting constructor takes a quantity of the same
`Dims` only, and no conversion leads from a number to a quantity. -/
def convert (Dims : dimensions) : value α → Except compile_error (quantity Dims α)
  | .quan D q => if D = Dims then .ok ⟨q.m_value⟩ else .error .no_matching_function
  | .rep _ => .error .no_matching_function

end value

section units

variable {α : Type}

/-- Function `meter()`. -/
def meter [One α] : quantity length_d α := ⟨1⟩

/-- Function `kilogram()`. -/
def kilogram [One α] : quantity mass_d α := ⟨1⟩

/-- Function `second()`. -/
def second [One α] : quantity time_interval_d α := ⟨1⟩

/-- Function `ampere()`. -/
def ampere [One α] : quantity electric_current_d α := ⟨1⟩

/-- Function `kelvin()`. -/
def kelvin [One α] : quantity thermodynamic_temperature_d α := ⟨1⟩

/-- Function `mole()`. -/
def mole [One α] : quantity amount_of_substance_d α := ⟨1⟩

/-- Function `candela()`. -/
def candela [One α] : quantity luminous_intensity_d α := ⟨1⟩

/-- Function `radian()`. -/
def radian [One α] : α := 1

/-- Function `steradian()`. -/
def steradian [One α] : α := 1

/-- Function `newton()`, returning `meter() * kilogram() / square( second() )`. -/
def newton [One α] [Mul α] [Div α] : Except compile_error (quantity force_d α) :=
  (((value.quan length_d meter).mul (.quan mass_d kilogram)).div
    (quantity.square (second : quantity time_interval_d α))).convert force_d

/-- Function `pascal()`, returning `newton() / square( meter() )`. -/
def pascal [One α] [Mul α] [Div α] : Except compile_error (quantity pressure_d α) := do
  let n ← newton
  ((value.quan force_d n).div (quantity.square (meter : quantity length_d α))).convert pressure_d

/-- Function `joule()`, returning `newton() * meter()`. -/
def joule [One α] [Mul α] [Div α] : Except compile_error (quantity energy_d α) := do
  let n ← newton
  ((value.quan force_d n).mul (.quan length_d meter)).convert energy_d

/-- Function `watt()`, returning `joule() / second()`. -/
def watt [One α] [Mul α] [Div α] : Except compile_error (quantity power_d α) := do
  let j ← joule
  ((value.quan energy_d j).div (.quan time_interval_d second)).convert power_d

/-- Function `coulomb()`, returning `second() * ampere()`. -/
def coulomb [One α] [Mul α] : Except compile_error (quantity electric_charge_d α) :=
  ((value.quan time_interval_d second).mul (.quan electric_current_d ampere)).convert
    electric_charge_d

/-- Function `volt()`, returning `watt() / ampere()`. -/
def volt [One α] [Mul α] [Div α] : Except compile_error (quantity electric_potential_d α) := do
  let w ← watt
  ((value.quan power_d w).div (.quan electric_current_d ampere)).convert electric_potential_d

/-- Function `farad()`, returning `coulomb() / volt()`. -/
def farad [One α] [Mul α] [Div α] : Except compile_error (quantity capacitance_d α) := do
  let c ← coulomb
  let v ← volt
  ((value.quan electric_charge_d c).div (.quan electric_potential_d v)).convert capacitance_d

/-- Function `ohm()`, returning `volt() / ampere()`. -/
def ohm [One α] [Mul α] [Div α] : Except compile_error (quantity electric_resistance_d α) := do
  let v ← volt
  ((value.quan electric_potential_d v).div (.quan electric_current_d ampere)).convert
    electric_resistance_d

/-- Function `siemens()`, returning `ampere() / volt()`. -/
def siemens [One α] [Mul α] [Div α] :
    Except compile_error (quantity electric_conductance_d α) := do
  let v ← volt
  ((value.quan electric_current_d ampere).div (.quan electric_potential_d v)).convert
    electric_conductance_d

/-- Function `weber()`, returning `volt() * second()`. -/
def weber [One α] [Mul α] [Div α] : Except compile_error (quantity magnetic_flux_d α) := do
  let v ← volt
  ((value.quan electric_potential_d v).mul (.quan time_interval_d second)).convert
    magnetic_flux_d

/-- Function `tesla()`, returning `weber() / square( meter() )`. -/
def tesla [One α] [Mul α] [Div α] :
    Except compile_error (quantity magnetic_flux_density_d α) := do
  let w ← weber
  ((value.quan magnetic_flux_d w).div (quantity.square (meter : quantity length_d α))).convert
    magnetic_flux_density_d

/-- Function `henry()`, returning `weber() / ampere()`. -/
def henry [One α] [Mul α] [Div α] : Except compile_error (quantity inductance_d α) := do
  let w ← weber
  ((value.quan magnetic_flux_d w).div (.quan electric_current_d ampere)).convert inductance_d

/-- Function `degree_celsius()`, returning `kelvin()`. -/
def degree_celsius [One α] : Except compile_error (quantity thermodynamic_temperature_d α) :=
  (value.quan thermodynamic_temperature_d kelvin).convert thermodynamic_temperature_d

/-- Function `lumen()`, returning `candela() * steradian()`. -/
def lumen [One α] [Mul α] : Except compile_error (quantity luminous_flux_d α) :=
  ((value.quan luminous_intensity_d candela).mul (.rep steradian)).convert luminous_flux_d

/-- Function `lux()`, returning `lumen() / meter() / meter()`. -/
def lux [One α] [Mul α] [Div α] : Except compile_error (quantity illuminance_d α) := do
  let l ← lumen
  (((value.quan luminous_flux_d l).div (.quan length_d meter)).div
    (.quan length_d meter)).convert illuminance_d

/-- Function `becquerel()`, returning `1 / second()`. -/
def becquerel [One α] [Div α] : Except compile_error (quantity activity_of_a_nuclide_d α) :=
  ((value.rep 1).div (.quan time_interval_d second)).convert activity_of_a_nuclide_d

/-- Function `gray()`, returning `joule() / kilogram()`. -/
def gray [One α] [Mul α] [Div α] : Except compile_error (quantity absorbed_dose_d α) := do
  let j ← joule
  ((value.quan energy_d j).div (.quan mass_d kilogram)).convert absorbed_dose_d

/-- Function `sievert()`, returning `joule() / kilogram()`. -/
def sievert [One α] [Mul α] [Div α] : Except compile_error (quantity dose_equivalent_d α) := do
  let j ← joule
  ((value.quan energy_d j).div (.quan mass_d kilogram)).convert dose_equivalent_d

/-- Function `hertz()`, returning `1 / second()`. -/
def hertz [One α] [Div α] : Except compile_error (quantity frequency_d α) :=
  ((value.rep 1).div (.quan time_interval_d second)).convert frequency_d

end units

/-! ## Input and output: the prefixes and the unit symbol -/

section prefixes

/-- Function `yotta()`, returning `Rep( 1e+24L )`. -/
def yotta : ℚ := 1e24

/-- Function `zetta()`, returning `Rep( 1e+21L )`. -/
def zetta : ℚ := 1e21

/-- Function `exa()`, returning `Rep( 1e+18L )`. -/
def exa : ℚ := 1e18

/-- Function `peta()`, returning `Rep( 1e+15L )`. -/
def peta : ℚ := 1e15

/-- Function `tera()`, returning `Rep( 1e+12L )`. -/
def tera : ℚ := 1e12

/-- Function `giga()`, returning `Rep( 1e+9L )`. -/
def giga : ℚ := 1e9

/-- Function `mega()`, returning `Rep( 1e+6L )`. -/
def mega : ℚ := 1e6

/-- Function `kilo()`, returning `Rep( 1e+3L )`. -/
def kilo : ℚ := 1e3

/-- Function `hecto()`, returning `Rep( 1e+2L )`. -/
def hecto : ℚ := 1e2

/-- Function `deka()`, returning `Rep( 1e+1L )`. -/
def deka : ℚ := 1e1

/-- Function `deci()`, returning `Rep( 1e-1L )`. -/
def deci : ℚ := 1e-1

/-- Function `centi()`, returning `Rep( 1e-2L )`. -/
def centi : ℚ := 1e-2

/-- Function `milli()`, returning `Rep( 1e-3L )`. -/
def milli : ℚ := 1e-3

/-- Function `micro()`, returning `Rep( 1e-6L )`. -/
def micro : ℚ := 1e-6

/-- Function `nano()`, returning `Rep( 1e-9L )`. -/
def nano : ℚ := 1e-9

/-- Function `pico()`, returning `Rep( 1e-12L )`. -/
def pico : ℚ := 1e-12

/-- Function `femto()`, returning `Rep( 1e-15L )`. -/
def femto : ℚ := 1e-15

/-- Function `atto()`, returning `Rep( 1e-18L )`. -/
def atto : ℚ := 1e-18

/-- Function `zepto()`, returning `Rep( 1e-21L )`. -/
def zepto : ℚ := 1e-21

/-- Function `yocto()`, returning `Rep( 1e-24L )`. -/
def yocto : ℚ := 1e-24

/-- The exception `prefix_error`: the text given to `std::runtime_error`. -/
structure prefix_error where
  text : String
deriving DecidableEq, Repr

/-- The local array `table` of the function `prefix`, without its terminating
entry; each `func` is given by the number it returns. -/
def prefix_.table : List (String × ℚ) :=
  [("m", milli), ("k", kilo), ("u", micro), ("M", mega), ("n", nano), ("G", giga), ("p", pico),
    ("T", tera), ("f", femto), ("P", peta), ("a", atto), ("E", exa), ("z", zepto), ("Z", zetta),
    ("y", yocto), ("Y", yotta), ("h", hecto), ("da", deka), ("d", deci), ("c", centi)]

/-- The loop of the function `prefix` over the entries from `p` on, and the
`throw` that follows it. -/
def prefix_.loop (name : String) : List (String × ℚ) → Except prefix_error ℚ
  | [] => .error ⟨"quantity: unrecognized prefix \x27" ++ name ++ "\x27"⟩
  | p :: rest => if name = p.1 then .ok p.2 else prefix_.loop name rest

/-- Function `prefix( std::string const prefix_ )`. -/
def prefix_ (name : String) : Except prefix_error ℚ :=
  prefix_.loop name prefix_.table

end prefixes

namespace unit_info

/-- Static member `emit_dim( os, label, exp, first )`: the text of `os` and the
value of `first` after the call; `os << exp` writes the decimal digits of `exp`
after a minus sign when it is negative. -/
def emit_dim (os : String) (label : String) (exp : Int) (first : Bool) : String × Bool :=
  if exp == 0 then (os, first)
  else
    let os1 := if first then os else os ++ " "
    let first1 := if first then false else first
    let os2 := os1 ++ label
    let os3 := if exp > 1 then os2 ++ "+" else os2
    let os4 := if exp != 1 then os3 ++ toString exp else os3
    (os4, first1)

/-- Static member `symbol()` of the primary template `unit_info< Dims >`. -/
def symbol (Dims : dimensions) : String :=
  let s0 : String × Bool := ("", true)
  let s1 := emit_dim s0.1 "m" Dims.dim1 s0.2
  let s2 := emit_dim s1.1 "kg" Dims.dim2 s1.2
  let s3 := emit_dim s2.1 "s" Dims.dim3 s2.2
  let s4 := emit_dim s3.1 "A" Dims.dim4 s3.2
  let s5 := emit_dim s4.1 "K" Dims.dim5 s4.2
  let s6 := emit_dim s5.1 "mol" Dims.dim6 s5.2
  let s7 := emit_dim s6.1 "cd" Dims.dim7 s6.2
  s7.1

/-- Static member `single()`. -/
def single (Dims : dimensions) : Bool :=
  Dims.is_base

/-- Static member `name()`. -/
def name (Dims : dimensions) : String :=
  symbol Dims

/-- The entry of one exponent in the unit symbol, as the specification words
it: the label alone for the exponent 1, the label, a plus sign and the exponent
when it is greater than 1, the label and the signed exponent when it is
negative. -/
def entry_spec (label : String) (exp : Int) : String :=
  if exp = 1 then label else if exp > 1 then label ++ "+" ++ toString exp
  else label ++ toString exp

/-- The unit symbol as the specification words it: the entries of the non-zero
exponents in the order m, kg, s, A, K, mol, cd, separated by single spaces. -/
def symbol_spec (D : dimensions) : String :=
  " ".intercalate
    (([("m", D.dim1), ("kg", D.dim2), ("s", D.dim3), ("A", D.dim4), ("K", D.dim5),
      ("mol", D.dim6), ("cd", D.dim7)].filter (fun e => e.2 ≠ 0)).map
        (fun e => entry_spec e.1 e.2))

end unit_info

/-! ## Units of time, physical constants -/

section other_units

/-- Function `day()`, returning `Rep( 86400L ) * second()`; the product is of
the declared return type. -/
def day : quantity time_interval_d ℚ := quantity.num_mul 86400 second

/-- Function `hour()`, returning `Rep( 3600 ) * second()`. -/
def hour : quantity time_interval_d ℚ := quantity.num_mul 3600 second

/-- Function `minute()`, returning `Rep( 60 ) * second()`. -/
def minute : quantity time_interval_d ℚ := quantity.num_mul 60 second

/-- Function `fortnight()`, returning `Rep( 14 ) * day()`. -/
def fortnight : quantity time_interval_d ℚ := quantity.num_mul 14 day

/-- Function `week()`, returning `Rep( 604800L ) * second()`. -/
def week : quantity time_interval_d ℚ := quantity.num_mul 604800 second

/-- Function `year_std()`, returning `Rep( 3.1536e+7L ) * second()`. -/
def year_std : quantity time_interval_d ℚ := quantity.num_mul 3.1536e7 second

/-- Function `eV()`, returning `Rep( 1.60217733e-19L ) * joule()`. -/
def eV : Except compile_error (quantity energy_d ℚ) := do
  let j ← joule
  pure (quantity.num_mul 1.60217733e-19 j)

/-- Function `e()`, returning `Rep( 1.602176462e-19L ) * coulomb()`. -/
def e : Except compile_error (quantity electric_charge_d ℚ) := do
  let c ← coulomb
  pure (quantity.num_mul 1.602176462e-19 c)

end other_units

/-! ## The engineering format -/

namespace unit_info

/-- The static members of the `unit_info< Dims >` that a caller sees: those of
the primary template or those of an explicit specialisation for `Dims`. -/
structure members where
  single : Bool
  name : String
  symbol : String
deriving DecidableEq, Repr

/-- The members of the primary template `unit_info< Dims >`. -/
def primary (Dims : dimensions) : members :=
  { single := single Dims, name := name Dims, symbol := symbol Dims }

end unit_info

namespace eng_format

/-- The static array `prefix` of `construct`, with `PHYS_UNITS_MICRO_GLYPH` as
the header defines it. -/
def construct.prefix_ : List String :=
  ["y", "z", "a", "f", "p", "n", "µ", "m", "", "k", "M", "G", "T", "P", "E", "Z", "Y"]

/-- The constant `prefix_start` of `construct`. -/
def construct.prefix_start : Int := -24

/-- The constant `prefix_end` of `construct`, with
`PHYS_UNITS_DIMENSION_OF( prefix )` the number of elements of the array. -/
def construct.prefix_end : Int :=
  construct.prefix_start + 3 * ((construct.prefix_.length : Int) - 1)

/-- The element `prefix[ i ]` for an `int` index: no value outside the array. -/
def construct.prefix_at (i : Int) : Option String :=
  if 0 ≤ i then construct.prefix_[i.toNat]? else none

/-- Static member `fits_eng_notation( expof10, prefix_start, prefix_end )`. -/
def fits_eng_notation (info : unit_info.members) (Dims : dimensions)
    (expof10 prefix_start prefix_end : Int) : Bool :=
  info.single && Dims.ne mass_d && decide (prefix_start ≤ expof10) &&
    decide (expof10 ≤ prefix_end)

/-- Lines 148 to 171 of `construct`: `value`, `expof10` and `digits` after them,
from their values before; `pow( 10.0, n )` is the exact power of ten. -/
def construct.normalise (value : ℚ) (expof10 digits : Int) : ℚ × Int × Int :=
  let expof10_1 :=
    if expof10 > 0 then (Int.tdiv expof10 3) * 3 else (Int.tdiv (-expof10 + 3) 3) * (-3)
  let value_1 := value * (10 : ℚ) ^ (-expof10_1)
  if value_1 ≥ 1000 then (value_1 / 1000, expof10_1 + 3, digits)
  else if value_1 ≥ 100 then (value_1, expof10_1, digits - 2)
  else if value_1 ≥ 10 then (value_1, expof10_1, digits - 1)
  else (value_1, expof10_1, digits)

/-- Lines 173 to 205 of `construct`: the members `m_magnitude` and `m_unit`
after them; `text` is what `os << sign << value` writes, in the fixed or in the
default format, and `m_unit` is empty before. -/
def construct.output (info : unit_info.members) (Dims : dimensions) (text : String)
    (expof10 : Int) : Option (String × String) :=
  if fits_eng_notation info Dims expof10 construct.prefix_start construct.prefix_end then
    match construct.prefix_at (Int.tdiv (expof10 - construct.prefix_start) 3) with
    | some p => some (text, p ++ info.symbol)
    | none => none
  else some (text ++ "e" ++ toString expof10, "" ++ info.symbol)

end eng_format

/-! ## Floating scalars with their special values -/

/-- The values of a floating type that follows IEC 559, as far as its special
values go: a finite value is the rational number it denotes, the two zeros,
which compare equal, being one value; besides there are the two infinities and
NaN.  Arithmetic on finite values is exact: rounding and overflow are not part
of this carrier, and no statement made with it depends on them. -/
inductive iec559 where
  | fin (q : ℚ)
  | pinf
  | ninf
  | nan

namespace iec559

/-- Unary `-` of the floating type. -/
def neg : iec559 → iec559
  | fin a => fin (-a)
  | pinf => ninf
  | ninf => pinf
  | nan => nan

/-- Operator `+` of the floating type: infinities of opposite sign, and any
operand NaN, give NaN. -/
def add : iec559 → iec559 → iec559
  | fin a, fin b => fin (a + b)
  | fin _, pinf => pinf
  | fin _, ninf => ninf
  | pinf, fin _ => pinf
  | pinf, pinf => pinf
  | ninf, fin _ => ninf
  | ninf, ninf => ninf
  | _, _ => nan

/-- Operator `-` of the floating type: the sum with the negated operand. -/
def sub (x y : iec559) : iec559 :=
  add x (neg y)

/-- Operator `*` of the floating type: zero times an infinity, and any operand
NaN, give NaN. -/
def mul : iec559 → iec559 → iec559
  | fin a, fin b => fin (a * b)
  | fin a, pinf => if a = 0 then nan else if 0 < a then pinf else ninf
  | fin a, ninf => if a = 0 then nan else if 0 < a then ninf else pinf
  | pinf, fin b => if b = 0 then nan else if 0 < b then pinf else ninf
  | ninf, fin b => if b = 0 then nan else if 0 < b then ninf else pinf
  | pinf, pinf => pinf
  | pinf, ninf => ninf
  | ninf, pinf => ninf
  | ninf, ninf => pinf
  | _, _ => nan

/-- Operator `/` of the floating type: zero by zero, an infinity by an
infinity, and any operand NaN, give NaN; a non-zero finite value by zero gives
an infinity, the zero being the positive one. -/
def div : iec559 → iec559 → iec559
  | fin a, fin b =>
    if b = 0 then (if a = 0 then nan else if 0 < a then pinf else ninf) else fin (a / b)
  | fin _, pinf => fin 0
  | fin _, ninf => fin 0
  | pinf, fin b => if 0 ≤ b then pinf else ninf
  | ninf, fin b => if 0 ≤ b then ninf else pinf
  | _, _ => nan

/-- Operator `==` of the floating type: false whenever an operand is NaN. -/
def beq : iec559 → iec559 → Bool
  | fin a, fin b => decide (a = b)
  | pinf, pinf => true
  | ninf, ninf => true
  | _, _ => false

/-- Operator `<` of the floating type: false whenever an operand is NaN. -/
def lt : iec559 → iec559 → Bool
  | fin a, fin b => decide (a < b)
  | fin _, pinf => true
  | ninf, fin _ => true
  | ninf, pinf => true
  | _, _ => false

/-- Operator `<=` of the floating type: less or equal. -/
def le (x y : iec559) : Bool :=
  lt x y || beq x y

/-- Function `fabs` on the floating type. -/
def fabs : iec559 → iec559
  | fin a => fin |a|
  | pinf => pinf
  | ninf => pinf
  | nan => nan

/-- Function `pow` on the floating type, by the cases of the C standard:
`pow( x, 0 )` and `pow( 1, y )` are 1 for every operand, even NaN; a zero base
with a negative exponent gives the positive infinity; a finite non-zero base
with an integral exponent gives the exact power; a negative base with a
non-integral exponent gives NaN.  The power of a positive base with a
non-integral exponent is not a rational number in general: this carrier has no
value for it, NaN stands in its place and no statement is made of it. -/
def pow : iec559 → iec559 → iec559
  | x, fin b =>
    if b = 0 then fin 1
    else
      match x with
      | fin a =>
        if a = 1 then fin 1
        else if a = 0 then (if b < 0 then pinf else fin 0)
        else if b.den = 1 then fin (a ^ b.num)
        else nan
      | pinf => if b < 0 then fin 0 else pinf
      | ninf =>
        if b < 0 then fin 0
        else if b.den = 1 ∧ b.num % 2 = 1 then ninf else pinf
      | nan => nan
  | fin a, pinf =>
    if a = 1 ∨ a = -1 then fin 1 else if |a| < 1 then fin 0 else pinf
  | fin a, ninf =>
    if a = 1 ∨ a = -1 then fin 1 else if |a| < 1 then pinf else fin 0
  | pinf, pinf => pinf
  | pinf, ninf => fin 0
  | ninf, pinf => pinf
  | ninf, ninf => fin 0
  | fin a, nan => if a = 1 then fin 1 else nan
  | _, _ => nan

instance : Zero iec559 := ⟨fin 0⟩

instance : One iec559 := ⟨fin 1⟩

instance : IntCast iec559 := ⟨fun n => fin n⟩

instance : Neg iec559 := ⟨neg⟩

instance : Add iec559 := ⟨add⟩

instance : Sub iec559 := ⟨sub⟩

instance : Mul iec559 := ⟨mul⟩

instance : Div iec559 := ⟨div⟩

instance : Pow iec559 iec559 := ⟨pow⟩

instance : BEq iec559 := ⟨beq⟩

instance : LT iec559 := ⟨fun x y => lt x y = true⟩

instance : LE iec559 := ⟨fun x y => le x y = true⟩

instance (x y : iec559) : Decidable (x < y) :=
  inferInstanceAs (Decidable (lt x y = true))

instance (x y : iec559) : Decidable (x ≤ y) :=
  inferInstanceAs (Decidable (le x y = true))

instance : has_fabs iec559 := ⟨fabs⟩

end iec559

/-! ## Auxiliary facts -/

section auxiliary

variable {τ α : Type}

theorem dimensions.eq_dimensionless_iff (D : dimensions) :
    D = dimensionless_d ↔
      D.dim1 = 0 ∧ D.dim2 = 0 ∧ D.dim3 = 0 ∧ D.dim4 = 0 ∧ D.dim5 = 0 ∧ D.dim6 = 0 ∧ D.dim7 = 0 := by
  cases D
  simp [dimensionless_d]

theorem dimensions.is_all_zero_iff (D : dimensions) :
    D.is_all_zero = true ↔ D = dimensionless_d := by
  rw [dimensions.eq_dimensionless_iff]
  simp [dimensions.is_all_zero, and_assoc]

theorem dimensions.is_all_zero_eq_false_iff (D : dimensions) :
    D.is_all_zero = false ↔ D ≠ dimensionless_d := by
  rw [Ne, ← dimensions.is_all_zero_iff]
  simp

theorem detail.collapse.construct_of_ne {D : dimensions} (h : D ≠ dimensionless_d) (v : α) :
    detail.collapse.construct D v = .quan D ⟨v⟩ := by
  simp [detail.collapse.construct, h]

theorem detail.collapse.construct_of_eq {D : dimensions} (h : D = dimensionless_d) (v : α) :
    detail.collapse.construct D v = .rep v := by
  simp [detail.collapse.construct, h]

theorem detail.collapse.construct_ok (D : dimensions) (v : α) :
    (detail.collapse.construct D v).ok = true := by
  by_cases h : D = dimensionless_d
  · simp [detail.collapse.construct, h, value.ok]
  · simp [detail.collapse.construct, h, value.ok, quantity.ok,
      (dimensions.is_all_zero_eq_false_iff D).mpr h]

theorem detail.collapse.type_of_construct (D : dimensions) (T : τ) (v : α) :
    (detail.collapse.construct D v).type_of T = detail.collapse D T := by
  by_cases h : D = dimensionless_d <;>
    simp [detail.collapse.construct, detail.collapse, h, value.type_of]

theorem detail.constant_rem_of_ne_zero (a : Int) {N : Int} (hN : N ≠ 0) :
    detail.constant_rem a N = .ok (Int.tmod a N) := by
  simp [detail.constant_rem, hN]

theorem detail.constant_quot_of_ne_zero (a : Int) {N : Int} (hN : N ≠ 0) :
    detail.constant_quot a N = .ok (Int.tdiv a N) := by
  simp [detail.constant_quot, hN]

theorem detail.root.all_even_multiples_of_ne_zero (A : dimensions) {N : Int} (hN : N ≠ 0) :
    detail.root.all_even_multiples A N =
      .ok (Int.tmod A.dim1 N == 0 && Int.tmod A.dim2 N == 0 && Int.tmod A.dim3 N == 0 &&
        Int.tmod A.dim4 N == 0 && Int.tmod A.dim5 N == 0 && Int.tmod A.dim6 N == 0 &&
        Int.tmod A.dim7 N == 0) := by
  simp only [detail.root.all_even_multiples, detail.constant_rem_of_ne_zero _ hN]

theorem detail.root.dims_of_ne_zero (A : dimensions) {N : Int} (hN : N ≠ 0) :
    detail.root.dims A N =
      .ok ⟨Int.tdiv A.dim1 N, Int.tdiv A.dim2 N, Int.tdiv A.dim3 N, Int.tdiv A.dim4 N,
        Int.tdiv A.dim5 N, Int.tdiv A.dim6 N, Int.tdiv A.dim7 N⟩ := by
  simp only [detail.root.dims, detail.constant_quot_of_ne_zero _ hN]

theorem detail.root.all_even_multiples_zero (A : dimensions) :
    detail.root.all_even_multiples A 0 = .error .division_by_zero_in_constant_expression := by
  simp [detail.root.all_even_multiples, detail.constant_rem]

theorem detail.root.dims_zero (A : dimensions) :
    detail.root.dims A 0 = .error .division_by_zero_in_constant_expression := by
  simp [detail.root.dims, detail.constant_quot]

/-- For a non-zero `N`, the enumerator `all_even_multiples` is true exactly when
`N` divides every exponent. -/
theorem detail.root.all_even_multiples_iff_dvd (A : dimensions) {N : Int} (hN : N ≠ 0) :
    detail.root.all_even_multiples A N = .ok true ↔
      N ∣ A.dim1 ∧ N ∣ A.dim2 ∧ N ∣ A.dim3 ∧ N ∣ A.dim4 ∧ N ∣ A.dim5 ∧ N ∣ A.dim6 ∧ N ∣ A.dim7 := by
  rw [detail.root.all_even_multiples_of_ne_zero A hN]
  simp only [Except.ok.injEq, Bool.and_eq_true, beq_iff_eq, ← Int.dvd_iff_tmod_eq_zero, and_assoc]

theorem quantity.nth_root_zero [Pow α α] [One α] [Div α] [IntCast α] {D : dimensions}
    (q : quantity D α) :
    q.nth_root 0 = .error .division_by_zero_in_constant_expression := by
  simp only [quantity.nth_root, detail.root.all_even_multiples_zero, detail.root.dims_zero]

theorem quantity.nth_root_of_dvd [Pow α α] [One α] [Div α] [IntCast α] {D : dimensions}
    (q : quantity D α) {N : Int} (hN : N ≠ 0)
    (h : N ∣ D.dim1 ∧ N ∣ D.dim2 ∧ N ∣ D.dim3 ∧ N ∣ D.dim4 ∧ N ∣ D.dim5 ∧ N ∣ D.dim6 ∧
      N ∣ D.dim7) :
    q.nth_root N = .ok (detail.collapse.construct
      ⟨Int.tdiv D.dim1 N, Int.tdiv D.dim2 N, Int.tdiv D.dim3 N, Int.tdiv D.dim4 N,
        Int.tdiv D.dim5 N, Int.tdiv D.dim6 N, Int.tdiv D.dim7 N⟩
      (q.m_value ^ ((1 : α) / (N : α)))) := by
  simp only [quantity.nth_root, (detail.root.all_even_multiples_iff_dvd D hN).mpr h,
    detail.root.dims_of_ne_zero D hN, if_true]

theorem quantity.nth_root_of_not_dvd [Pow α α] [One α] [Div α] [IntCast α] {D : dimensions}
    (q : quantity D α) {N : Int} (hN : N ≠ 0)
    (h : ¬ (N ∣ D.dim1 ∧ N ∣ D.dim2 ∧ N ∣ D.dim3 ∧ N ∣ D.dim4 ∧ N ∣ D.dim5 ∧ N ∣ D.dim6 ∧
      N ∣ D.dim7)) :
    q.nth_root N = .error .root_result_dimensions_must_be_integral := by
  have hb : detail.root.all_even_multiples D N = .ok false := by
    have h2 := detail.root.all_even_multiples_of_ne_zero D hN
    rw [← detail.root.all_even_multiples_iff_dvd D hN, h2] at h
    rw [h2]
    simpa using h
  simp only [quantity.nth_root, hb, detail.root.dims_of_ne_zero D hN]
  rfl

theorem detail.power.dims_ne_dimensionless {A : dimensions} {N : Int}
    (hA : A.is_all_zero = false) (hN : N ≠ 0) : detail.power.dims A N ≠ dimensionless_d := by
  intro h
  rw [dimensions.is_all_zero_eq_false_iff] at hA
  apply hA
  rw [dimensions.eq_dimensionless_iff] at h ⊢
  simpa [detail.power.dims, hN] using h

/-- The root of index `N` of the power of index `N` of a quantity: the
dimension vector is restored, the scalar is `pow( pow( x, N ), 1 / N )`. -/
theorem value.nth_root_nth_power [Pow α α] [One α] [Div α] [IntCast α] {D : dimensions}
    (hD : D.is_all_zero = false) {N : Int} (hN : N ≠ 0) (x : α) :
    value.nth_root N (quantity.nth_power N (⟨x⟩ : quantity D α)) =
      .ok (.quan D ⟨(x ^ (N : α)) ^ ((1 : α) / (N : α))⟩) := by
  rw [quantity.nth_power,
    detail.collapse.construct_of_ne (detail.power.dims_ne_dimensionless hD hN), value.nth_root,
    quantity.nth_root_of_dvd _ hN (by simp [detail.power.dims])]
  have hd : (⟨Int.tdiv (detail.power.dims D N).dim1 N, Int.tdiv (detail.power.dims D N).dim2 N,
      Int.tdiv (detail.power.dims D N).dim3 N, Int.tdiv (detail.power.dims D N).dim4 N,
      Int.tdiv (detail.power.dims D N).dim5 N, Int.tdiv (detail.power.dims D N).dim6 N,
      Int.tdiv (detail.power.dims D N).dim7 N⟩ : dimensions) = D := by
    cases D
    simp [detail.power.dims, Int.mul_tdiv_cancel_left _ hN]
  rw [hd, detail.collapse.construct_of_ne ((dimensions.is_all_zero_eq_false_iff D).mp hD)]

end auxiliary

/-! ## Floating scalars -/

section floating

theorem iec559.zero_def : (0 : iec559) = iec559.fin 0 := rfl

theorem iec559.one_def : (1 : iec559) = iec559.fin 1 := rfl

theorem iec559.intCast_def (n : Int) : ((n : Int) : iec559) = iec559.fin n := rfl

theorem iec559.neg_def (x : iec559) : -x = iec559.neg x := rfl

theorem iec559.add_def (x y : iec559) : x + y = iec559.add x y := rfl

theorem iec559.sub_def (x y : iec559) : x - y = iec559.add x (iec559.neg y) := rfl

theorem iec559.mul_def (x y : iec559) : x * y = iec559.mul x y := rfl

theorem iec559.div_def (x y : iec559) : x / y = iec559.div x y := rfl

theorem iec559.pow_def (x y : iec559) : x ^ y = iec559.pow x y := rfl

theorem iec559.beq_def (x y : iec559) : (x == y) = iec559.beq x y := rfl

theorem iec559.lt_def (x y : iec559) : x < y ↔ iec559.lt x y = true := Iff.rfl

theorem iec559.le_def (x y : iec559) :
    x ≤ y ↔ (iec559.lt x y = true ∨ iec559.beq x y = true) := by
  show iec559.le x y = true ↔ _
  simp [iec559.le]

theorem iec559.fabs_def (x : iec559) : has_fabs.fabs x = iec559.fabs x := rfl

theorem iec559.beq_comm (x y : iec559) : iec559.beq x y = iec559.beq y x := by
  cases x <;> cases y <;> simp [iec559.beq, eq_comm]

theorem iec559.beq_self (x : iec559) (h : x ≠ iec559.nan) : iec559.beq x x = true := by
  cases x <;> simp [iec559.beq] at h ⊢

theorem iec559.beq_nan_left (y : iec559) : iec559.beq iec559.nan y = false := by
  cases y <;> rfl

theorem iec559.beq_nan_right (x : iec559) : iec559.beq x iec559.nan = false := by
  cases x <;> rfl

theorem iec559.lt_nan_left (y : iec559) : iec559.lt iec559.nan y = false := by
  cases y <;> rfl

theorem iec559.lt_nan_right (x : iec559) : iec559.lt x iec559.nan = false := by
  cases x <;> rfl

end floating

/-! ## Multiplication, division and the collapse rule -/

/-- C1: when the componentwise sum of the two dimension vectors is not
all-zero, `a * b` is the quantity whose exponents are the componentwise sums
and whose scalar is the product of the scalars; its type is the wrapped
quantity of that dimension in the promoted representation type. -/
theorem C1_mul_dimension_and_scalar {τ : Type} (α : Type) [Mul α] (D1 D2 : dimensions) (x y : α)
    (sizeof : τ → Nat) (T U : τ)
    (h : ¬ (D1.dim1 + D2.dim1 = 0 ∧ D1.dim2 + D2.dim2 = 0 ∧ D1.dim3 + D2.dim3 = 0 ∧
      D1.dim4 + D2.dim4 = 0 ∧ D1.dim5 + D2.dim5 = 0 ∧ D1.dim6 + D2.dim6 = 0 ∧
      D1.dim7 + D2.dim7 = 0)) :
    quantity.mul (⟨x⟩ : quantity D1 α) (⟨y⟩ : quantity D2 α) =
        .quan ⟨D1.dim1 + D2.dim1, D1.dim2 + D2.dim2, D1.dim3 + D2.dim3, D1.dim4 + D2.dim4,
          D1.dim5 + D2.dim5, D1.dim6 + D2.dim6, D1.dim7 + D2.dim7⟩ ⟨x * y⟩ ∧
      detail.product.type D1 D2 (detail.promote sizeof T U) =
        .quantity ⟨D1.dim1 + D2.dim1, D1.dim2 + D2.dim2, D1.dim3 + D2.dim3, D1.dim4 + D2.dim4,
          D1.dim5 + D2.dim5, D1.dim6 + D2.dim6, D1.dim7 + D2.dim7⟩ (detail.promote sizeof T U) := by
  have hne : detail.product.dims D1 D2 ≠ dimensionless_d := by
    rw [Ne, dimensions.eq_dimensionless_iff]
    exact h
  constructor
  · rw [quantity.mul, detail.collapse.construct_of_ne hne]
    rfl
  · rw [detail.product.type, detail.collapse, if_neg hne]
    rfl

/-- Witness of C1: 16 m/s times 20 m/s is 320 with exponents (2,0,-2,0,0,0,0). -/
theorem C1_mul_witness :
    quantity.mul (⟨16⟩ : quantity ⟨1, 0, -1, 0, 0, 0, 0⟩ ℚ) (⟨20⟩ : quantity ⟨1, 0, -1, 0, 0, 0, 0⟩ ℚ) =
      .quan ⟨2, 0, -2, 0, 0, 0, 0⟩ ⟨320⟩ := by
  have h := (C1_mul_dimension_and_scalar ℚ ⟨1, 0, -1, 0, 0, 0, 0⟩ ⟨1, 0, -1, 0, 0, 0, 0⟩ 16 20
    (fun _ : Unit => 8) () () (by decide)).1
  rw [h]
  norm_num

/-- C2: when the two dimension vectors differ, `a / b` is the quantity whose
exponents are the componentwise differences and whose scalar is the quotient
of the scalars; its type is the wrapped quantity of that dimension in the
promoted representation type. -/
theorem C2_div_dimension_and_scalar {τ : Type} (α : Type) [Div α] (D1 D2 : dimensions) (x y : α)
    (sizeof : τ → Nat) (T U : τ) (h : D1 ≠ D2) :
    quantity.div (⟨x⟩ : quantity D1 α) (⟨y⟩ : quantity D2 α) =
        .quan ⟨D1.dim1 - D2.dim1, D1.dim2 - D2.dim2, D1.dim3 - D2.dim3, D1.dim4 - D2.dim4,
          D1.dim5 - D2.dim5, D1.dim6 - D2.dim6, D1.dim7 - D2.dim7⟩ ⟨x / y⟩ ∧
      detail.quotient.type D1 D2 (detail.promote sizeof T U) =
        .quantity ⟨D1.dim1 - D2.dim1, D1.dim2 - D2.dim2, D1.dim3 - D2.dim3, D1.dim4 - D2.dim4,
          D1.dim5 - D2.dim5, D1.dim6 - D2.dim6, D1.dim7 - D2.dim7⟩ (detail.promote sizeof T U) := by
  have hne : detail.quotient.dims D1 D2 ≠ dimensionless_d := by
    intro h0
    apply h
    rw [dimensions.eq_dimensionless_iff] at h0
    obtain ⟨h1, h2, h3, h4, h5, h6, h7⟩ := h0
    simp only [detail.quotient.dims] at h1 h2 h3 h4 h5 h6 h7
    cases D1
    cases D2
    simp only [dimensions.mk.injEq]
    simp only at h1 h2 h3 h4 h5 h6 h7
    omega
  constructor
  · rw [quantity.div, detail.collapse.construct_of_ne hne]
    rfl
  · rw [detail.quotient.type, detail.collapse, if_neg hne]
    rfl

/-- Witness of C2: 4 m/s divided by 5 s is 0.8 with exponents (1,0,-2,0,0,0,0). -/
theorem C2_div_witness :
    quantity.div (⟨4⟩ : quantity ⟨1, 0, -1, 0, 0, 0, 0⟩ ℚ) (⟨5⟩ : quantity ⟨0, 0, 1, 0, 0, 0, 0⟩ ℚ) =
      .quan ⟨1, 0, -2, 0, 0, 0, 0⟩ ⟨8 / 10⟩ := by
  have h := (C2_div_dimension_and_scalar ℚ ⟨1, 0, -1, 0, 0, 0, 0⟩ ⟨0, 0, 1, 0, 0, 0, 0⟩ 4 5
    (fun _ : Unit => 8) () () (by decide)).1
  rw [h]
  norm_num

/-- C3 (collapse law): for two quantities of one dimension vector, `a / b` is a
bare scalar, the quotient of the two scalars, and the type of the expression is
the representation type itself; so (4 m/s) / (4 m/s) is the number 1 and
`meter() / meter()` is the number 1. -/
theorem C3_div_same_dimension_is_scalar :
    (∀ (α : Type) [Div α] (D : dimensions) (x y : α),
      quantity.div (⟨x⟩ : quantity D α) (⟨y⟩ : quantity D α) = .rep (x / y)) ∧
    (∀ (τ : Type) (D : dimensions) (T : τ), detail.quotient.type D D T = .rep T) ∧
    quantity.div (⟨4⟩ : quantity ⟨1, 0, -1, 0, 0, 0, 0⟩ ℚ) (⟨4⟩ : quantity ⟨1, 0, -1, 0, 0, 0, 0⟩ ℚ) =
      .rep 1 ∧
    quantity.div (⟨1⟩ : quantity length_d ℚ) (⟨1⟩ : quantity length_d ℚ) = .rep 1 := by
  have hz : ∀ D : dimensions, detail.quotient.dims D D = dimensionless_d := by
    intro D
    rw [dimensions.eq_dimensionless_iff]
    simp [detail.quotient.dims]
  have hdiv : ∀ (α : Type) [Div α] (D : dimensions) (x y : α),
      quantity.div (⟨x⟩ : quantity D α) (⟨y⟩ : quantity D α) = .rep (x / y) := by
    intro α _ D x y
    rw [quantity.div, detail.collapse.construct_of_eq (hz D)]
  refine ⟨hdiv, ?_, ?_, ?_⟩
  · intro τ D T
    rw [detail.quotient.type, detail.collapse, if_pos (hz D)]
  · rw [hdiv]
    norm_num
  · rw [hdiv]
    norm_num

/-- C4: `collapse< D, T >::type` is the bare representation type `T` exactly
when all seven exponents of `D` are zero (exactly when `is_all_zero` holds), it
is `quantity< D, T >` exactly when they are not, and an object constructed
through it has that type. -/
theorem C4_collapse_iff_all_zero {τ α : Type} (D : dimensions) (T : τ) (v : α) :
    (detail.collapse D T = .rep T ↔
      D.dim1 = 0 ∧ D.dim2 = 0 ∧ D.dim3 = 0 ∧ D.dim4 = 0 ∧ D.dim5 = 0 ∧ D.dim6 = 0 ∧ D.dim7 = 0) ∧
    (detail.collapse D T = .rep T ↔ D.is_all_zero = true) ∧
    (detail.collapse D T = .quantity D T ↔
      ¬ (D.dim1 = 0 ∧ D.dim2 = 0 ∧ D.dim3 = 0 ∧ D.dim4 = 0 ∧ D.dim5 = 0 ∧ D.dim6 = 0 ∧
        D.dim7 = 0)) ∧
    (detail.collapse.construct D v).type_of T = detail.collapse D T := by
  have key : detail.collapse D T = .rep T ↔ D = dimensionless_d := by
    by_cases h : D = dimensionless_d <;> simp [detail.collapse, h]
  have key2 : detail.collapse D T = .quantity D T ↔ ¬ D = dimensionless_d := by
    by_cases h : D = dimensionless_d <;> simp [detail.collapse, h]
  refine ⟨?_, ?_, ?_, detail.collapse.type_of_construct D T v⟩
  · rw [key, dimensions.eq_dimensionless_iff]
  · rw [key, dimensions.is_all_zero_iff]
  · rw [key2, dimensions.eq_dimensionless_iff]

/-- C5: a result is well-formed when it is a bare scalar or a quantity whose
dimension vector is not all-zero.  For an operand `a` whose dimension vector is
not all-zero (and any second operand `b`), every result of `a * b`, `a / b`,
`k / a`, `nth_power`, `nth_root`, `sqrt`, `square` and `cube` is well-formed,
and `+`, `-`, unary `+` and `-`, `abs`, the scalings by a number and the four
compound assignments return a quantity of the dimension vector of `a`. -/
theorem C5_no_all_zero_quantity (α : Type) [LinearOrderedField α] [Pow α α] (D1 D2 : dimensions)
    (h1 : D1.is_all_zero = false) (a a2 : quantity D1 α) (b : quantity D2 α) (k : α) (N : Int) :
    (∀ r : value α, r.ok = true ↔
      (∃ v, r = .rep v) ∨ ∃ D q, r = .quan D q ∧ D.is_all_zero = false) ∧
    (a.mul b).ok = true ∧ (a.div b).ok = true ∧ (b.mul a).ok = true ∧ (b.div a).ok = true ∧
    (quantity.num_div k a).ok = true ∧ (a.nth_power N).ok = true ∧
    (∀ r, a.nth_root N = .ok r → r.ok = true) ∧ (∀ r, a.sqrt = .ok r → r.ok = true) ∧
    a.square.ok = true ∧ a.cube.ok = true ∧
    ((a.add a2).dimension_type = D1 ∧ (a.add a2).ok = true) ∧
    ((a.sub a2).dimension_type = D1 ∧ (a.sub a2).ok = true) ∧
    (a.pos.dimension_type = D1 ∧ a.pos.ok = true) ∧
    (a.neg.dimension_type = D1 ∧ a.neg.ok = true) ∧
    (a.abs.dimension_type = D1 ∧ a.abs.ok = true) ∧
    ((a.mul_num k).dimension_type = D1 ∧ (a.mul_num k).ok = true) ∧
    ((quantity.num_mul k a).dimension_type = D1 ∧ (quantity.num_mul k a).ok = true) ∧
    ((a.div_num k).dimension_type = D1 ∧ (a.div_num k).ok = true) ∧
    ((a.add_assign a2).dimension_type = D1 ∧ (a.add_assign a2).ok = true) ∧
    ((a.sub_assign a2).dimension_type = D1 ∧ (a.sub_assign a2).ok = true) ∧
    ((a.mul_assign k).dimension_type = D1 ∧ (a.mul_assign k).ok = true) ∧
    ((a.div_assign k).dimension_type = D1 ∧ (a.div_assign k).ok = true) := by
  have hq : ∀ q : quantity D1 α, q.dimension_type = D1 ∧ q.ok = true := by
    intro q
    simp [quantity.dimension_type, quantity.ok, h1]
  have hroot : ∀ (M : Int) (r : value α), a.nth_root M = .ok r → r.ok = true := by
    intro M r hr
    unfold quantity.nth_root at hr
    split at hr
    · split at hr
      · cases hr
        exact detail.collapse.construct_ok _ _
      · cases hr
    · cases hr
    · cases hr
  refine ⟨?_, detail.collapse.construct_ok _ _, detail.collapse.construct_ok _ _,
    detail.collapse.construct_ok _ _, detail.collapse.construct_ok _ _,
    detail.collapse.construct_ok _ _, detail.collapse.construct_ok _ _, hroot N, ?_,
    detail.collapse.construct_ok _ _, ?_, hq _, hq _, hq _, hq _, hq _, hq _, hq _, hq _, hq _,
    hq _, hq _, hq _⟩
  · intro r
    cases r with
    | rep v => simp [value.ok]
    | quan D q =>
      constructor
      · intro h
        exact Or.inr ⟨D, q, rfl, by simpa [value.ok, quantity.ok] using h⟩
      · rintro (⟨v, hv⟩ | ⟨D2, q2, hq2, hz⟩)
        · cases hv
        · cases hq2
          simpa [value.ok, quantity.ok] using hz
  · intro r hr
    exact hroot 2 r hr
  · unfold quantity.cube
    split
    · exact detail.collapse.construct_ok _ _
    · simp [value.ok, quantity.ok, h1]

/-- Witness of C5 at the metre: `meter() / meter()` is a bare scalar and
`meter() * meter()` a quantity, both well-formed. -/
theorem C5_no_all_zero_quantity_witness :
    length_d.is_all_zero = false ∧
    (quantity.div (⟨1⟩ : quantity length_d ℝ) (⟨1⟩ : quantity length_d ℝ)).ok = true ∧
    (quantity.mul (⟨1⟩ : quantity length_d ℝ) (⟨1⟩ : quantity length_d ℝ)).ok = true :=
  have h := C5_no_all_zero_quantity ℝ length_d length_d (by decide) ⟨1⟩ ⟨1⟩ ⟨1⟩ 1 2
  ⟨by decide, h.2.2.1, h.2.1⟩

/-! ## Addition and subtraction -/

/-- C6: for two quantities of one dimension vector `D` with scalars `x` and
`y`, `a + b` and `a - b` are the quantities of dimension `D` with scalars
`x + y` and `x - y`; so 11 m^2 + 6 m^2 is 17 m^2 and 2 m^2 - 7 m^2 is -5 m^2. -/
theorem C6_add_sub_same_dimension :
    (∀ (α : Type) [Add α] [Sub α] (D : dimensions) (x y : α),
      quantity.add (⟨x⟩ : quantity D α) ⟨y⟩ = (⟨x + y⟩ : quantity D α) ∧
      quantity.sub (⟨x⟩ : quantity D α) ⟨y⟩ = (⟨x - y⟩ : quantity D α) ∧
      (quantity.add (⟨x⟩ : quantity D α) ⟨y⟩).dimension_type = D ∧
      (quantity.sub (⟨x⟩ : quantity D α) ⟨y⟩).dimension_type = D) ∧
    quantity.add (⟨11⟩ : quantity ⟨2, 0, 0, 0, 0, 0, 0⟩ ℚ) ⟨6⟩ = ⟨17⟩ ∧
    quantity.sub (⟨2⟩ : quantity ⟨2, 0, 0, 0, 0, 0, 0⟩ ℚ) ⟨7⟩ = ⟨-5⟩ := by
  refine ⟨fun α _ _ D x y => ⟨rfl, rfl, rfl, rfl⟩, ?_, ?_⟩
  · simp only [quantity.add]
    norm_num
  · simp only [quantity.sub]
    norm_num

/-! ## Roots and powers -/

/-- C7: for a non-zero `N` that divides every exponent of `A`, `root< A, N, T >`
is instantiated, its enumerators are the exact quotients `ai / N`, and `N`
times them gives back `A`; `nth_root< N >` of a quantity of dimension `A` with
scalar `x` is accepted and is the collapsed object of that dimension with
scalar `pow( x, 1 / N )`, a quantity whenever `A` is not all-zero. -/
theorem C7_root_of_exact_multiples {τ : Type} (α : Type) [Pow α α] [One α] [Div α] [IntCast α]
    (A : dimensions) (N : Int) (x : α) (T : τ) (hN : N ≠ 0)
    (hdvd : N ∣ A.dim1 ∧ N ∣ A.dim2 ∧ N ∣ A.dim3 ∧ N ∣ A.dim4 ∧ N ∣ A.dim5 ∧ N ∣ A.dim6 ∧
      N ∣ A.dim7) :
    detail.root.dims A N =
        .ok ⟨A.dim1 / N, A.dim2 / N, A.dim3 / N, A.dim4 / N, A.dim5 / N, A.dim6 / N, A.dim7 / N⟩ ∧
      detail.power.dims
        ⟨A.dim1 / N, A.dim2 / N, A.dim3 / N, A.dim4 / N, A.dim5 / N, A.dim6 / N, A.dim7 / N⟩ N = A ∧
      detail.root.type A N T = .ok (detail.collapse
        ⟨A.dim1 / N, A.dim2 / N, A.dim3 / N, A.dim4 / N, A.dim5 / N, A.dim6 / N, A.dim7 / N⟩ T) ∧
      quantity.nth_root N (⟨x⟩ : quantity A α) =
        .ok (if A.is_all_zero then .rep (x ^ ((1 : α) / (N : α))) else
          .quan ⟨A.dim1 / N, A.dim2 / N, A.dim3 / N, A.dim4 / N, A.dim5 / N, A.dim6 / N,
            A.dim7 / N⟩ ⟨x ^ ((1 : α) / (N : α))⟩) := by
  obtain ⟨h1, h2, h3, h4, h5, h6, h7⟩ := hdvd
  have hd : detail.root.dims A N =
      .ok ⟨A.dim1 / N, A.dim2 / N, A.dim3 / N, A.dim4 / N, A.dim5 / N, A.dim6 / N,
        A.dim7 / N⟩ := by
    rw [detail.root.dims_of_ne_zero A hN, Int.tdiv_eq_ediv_of_dvd h1, Int.tdiv_eq_ediv_of_dvd h2,
      Int.tdiv_eq_ediv_of_dvd h3, Int.tdiv_eq_ediv_of_dvd h4, Int.tdiv_eq_ediv_of_dvd h5,
      Int.tdiv_eq_ediv_of_dvd h6, Int.tdiv_eq_ediv_of_dvd h7]
  have hp : detail.power.dims
      ⟨A.dim1 / N, A.dim2 / N, A.dim3 / N, A.dim4 / N, A.dim5 / N, A.dim6 / N, A.dim7 / N⟩ N =
        A := by
    cases A
    simp only [detail.power.dims, dimensions.mk.injEq]
    exact ⟨Int.mul_ediv_cancel' h1, Int.mul_ediv_cancel' h2, Int.mul_ediv_cancel' h3,
      Int.mul_ediv_cancel' h4, Int.mul_ediv_cancel' h5, Int.mul_ediv_cancel' h6,
      Int.mul_ediv_cancel' h7⟩
  have he : detail.root.all_even_multiples A N = .ok true :=
    (detail.root.all_even_multiples_iff_dvd A hN).mpr ⟨h1, h2, h3, h4, h5, h6, h7⟩
  have hz : (⟨A.dim1 / N, A.dim2 / N, A.dim3 / N, A.dim4 / N, A.dim5 / N, A.dim6 / N,
      A.dim7 / N⟩ : dimensions) = dimensionless_d ↔ A.is_all_zero = true := by
    rw [dimensions.is_all_zero_iff]
    constructor
    · intro h
      rw [← hp, h]
      rw [dimensions.eq_dimensionless_iff]
      simp [detail.power.dims, dimensionless_d]
    · intro h
      rw [h, dimensions.eq_dimensionless_iff]
      simp [dimensionless_d]
  refine ⟨hd, hp, ?_, ?_⟩
  · simp only [detail.root.type, he, hd]
  · simp only [quantity.nth_root, he, hd, detail.collapse.construct]
    by_cases hA : A.is_all_zero = true
    · simp [hA, hz.mpr hA]
    · have hne : ¬ (⟨A.dim1 / N, A.dim2 / N, A.dim3 / N, A.dim4 / N, A.dim5 / N, A.dim6 / N,
          A.dim7 / N⟩ : dimensions) = dimensionless_d := fun h => hA (hz.mp h)
      rw [if_neg hne]
      simp [hA]

/-- Witness of C7 for 10000 m^4: the fourth root is 10 m, the square root is
100 m^2 and the root of index -2 is 0.01 m^-2. -/
theorem C7_root_witness :
    quantity.nth_root 4 (⟨10000⟩ : quantity ⟨4, 0, 0, 0, 0, 0, 0⟩ ℝ) =
        .ok (.quan ⟨1, 0, 0, 0, 0, 0, 0⟩ ⟨10⟩) ∧
      quantity.nth_root 2 (⟨10000⟩ : quantity ⟨4, 0, 0, 0, 0, 0, 0⟩ ℝ) =
        .ok (.quan ⟨2, 0, 0, 0, 0, 0, 0⟩ ⟨100⟩) ∧
      quantity.nth_root (-2) (⟨10000⟩ : quantity ⟨4, 0, 0, 0, 0, 0, 0⟩ ℝ) =
        .ok (.quan ⟨-2, 0, 0, 0, 0, 0, 0⟩ ⟨1 / 100⟩) := by
  have e4 : (10000 : ℝ) ^ ((1 : ℝ) / ((4 : Int) : ℝ)) = 10 := by
    have h := Real.pow_rpow_inv_natCast (show (0 : ℝ) ≤ 10 by norm_num) (show (4 : ℕ) ≠ 0 by norm_num)
    norm_num at h ⊢
    exact h
  have e2 : (10000 : ℝ) ^ ((1 : ℝ) / ((2 : Int) : ℝ)) = 100 := by
    have h := Real.pow_rpow_inv_natCast (show (0 : ℝ) ≤ 100 by norm_num) (show (2 : ℕ) ≠ 0 by norm_num)
    norm_num at h ⊢
    exact h
  have e2n : (10000 : ℝ) ^ ((1 : ℝ) / ((-2 : Int) : ℝ)) = 1 / 100 := by
    have h : (1 : ℝ) / ((-2 : Int) : ℝ) = -((1 : ℝ) / ((2 : Int) : ℝ)) := by norm_num
    rw [h, Real.rpow_neg (by norm_num), e2]
    norm_num
  have h4 := (C7_root_of_exact_multiples ℝ ⟨4, 0, 0, 0, 0, 0, 0⟩ 4 10000 () (by decide)
    (by decide)).2.2.2
  have h2 := (C7_root_of_exact_multiples ℝ ⟨4, 0, 0, 0, 0, 0, 0⟩ 2 10000 () (by decide)
    (by decide)).2.2.2
  have h2n := (C7_root_of_exact_multiples ℝ ⟨4, 0, 0, 0, 0, 0, 0⟩ (-2) 10000 () (by decide)
    (by decide)).2.2.2
  rw [e4] at h4
  rw [e2] at h2
  rw [e2n] at h2n
  refine ⟨h4.trans ?_, h2.trans ?_, h2n.trans ?_⟩ <;>
    simp [dimensions.is_all_zero]

/-- C8 as stated fails: `nth_root< 0 >( meter() )` has the exponent 1, which is
not a multiple of 0, but the rejection is not the assertion
`root_result_dimensions_must_be_integral`: the enumerators of
`detail::root< length_d, 0, T >` divide by zero. -/
theorem C8_zero_index_counterexample :
    quantity.nth_root 0 (⟨1⟩ : quantity length_d ℝ) =
        .error .division_by_zero_in_constant_expression ∧
      ¬ (quantity.nth_root 0 (⟨1⟩ : quantity length_d ℝ) =
          .error .root_result_dimensions_must_be_integral ↔
        ¬ ((0 : Int) ∣ length_d.dim1 ∧ (0 : Int) ∣ length_d.dim2 ∧ (0 : Int) ∣ length_d.dim3 ∧
          (0 : Int) ∣ length_d.dim4 ∧ (0 : Int) ∣ length_d.dim5 ∧ (0 : Int) ∣ length_d.dim6 ∧
          (0 : Int) ∣ length_d.dim7)) := by
  have h := quantity.nth_root_zero (⟨1⟩ : quantity length_d ℝ)
  refine ⟨h, ?_⟩
  rw [h]
  simp [length_d]

/-- C8, amended: for a quantity `q` (dimension vector not all-zero),
`nth_root< N >( q )` is rejected if and only if some exponent is not an exact
multiple of `N`; the rejection is the assertion
`root_result_dimensions_must_be_integral` exactly when moreover `N` is not
zero, and it is the division by zero in the enumerators of `detail::root`
exactly when `N` is zero. -/
theorem C8_root_rejected_iff_not_multiple (α : Type) [Pow α α] [One α] [Div α] [IntCast α]
    (D : dimensions) (N : Int) (q : quantity D α) (hD : D.is_all_zero = false) :
    ((∃ e, q.nth_root N = .error e) ↔
      ¬ (N ∣ D.dim1 ∧ N ∣ D.dim2 ∧ N ∣ D.dim3 ∧ N ∣ D.dim4 ∧ N ∣ D.dim5 ∧ N ∣ D.dim6 ∧
        N ∣ D.dim7)) ∧
    (q.nth_root N = .error .root_result_dimensions_must_be_integral ↔
      N ≠ 0 ∧ ¬ (N ∣ D.dim1 ∧ N ∣ D.dim2 ∧ N ∣ D.dim3 ∧ N ∣ D.dim4 ∧ N ∣ D.dim5 ∧ N ∣ D.dim6 ∧
        N ∣ D.dim7)) ∧
    (q.nth_root N = .error .division_by_zero_in_constant_expression ↔ N = 0) := by
  by_cases hN : N = 0
  · subst hN
    have hnd : ¬ ((0 : Int) ∣ D.dim1 ∧ (0 : Int) ∣ D.dim2 ∧ (0 : Int) ∣ D.dim3 ∧
        (0 : Int) ∣ D.dim4 ∧ (0 : Int) ∣ D.dim5 ∧ (0 : Int) ∣ D.dim6 ∧ (0 : Int) ∣ D.dim7) := by
      intro h
      simp only [zero_dvd_iff] at h
      have h0 := (dimensions.eq_dimensionless_iff D).mpr h
      rw [← dimensions.is_all_zero_iff, hD] at h0
      cases h0
    rw [quantity.nth_root_zero]
    refine ⟨⟨fun _ => hnd, fun _ => ⟨_, rfl⟩⟩, ⟨fun h => ?_, fun h => absurd rfl h.1⟩,
      ⟨fun _ => rfl, fun _ => rfl⟩⟩
    cases h
  · by_cases hd : N ∣ D.dim1 ∧ N ∣ D.dim2 ∧ N ∣ D.dim3 ∧ N ∣ D.dim4 ∧ N ∣ D.dim5 ∧ N ∣ D.dim6 ∧
        N ∣ D.dim7
    · rw [quantity.nth_root_of_dvd q hN hd]
      simp [hN, hd]
    · rw [quantity.nth_root_of_not_dvd q hN hd]
      simp [hN, hd]

/-- Witness of C8: `nth_root< 2 >` is rejected with
`root_result_dimensions_must_be_integral` for the exponents (1,0,1,0,0,0,0) and
for `meter() * meter() / second()`, exponents (2,0,-1,0,0,0,0), where the
offending exponent is negative. -/
theorem C8_root_rejected_witness :
    quantity.nth_root 2 (⟨1⟩ : quantity ⟨1, 0, 1, 0, 0, 0, 0⟩ ℝ) =
        .error .root_result_dimensions_must_be_integral ∧
      (match quantity.mul (⟨1⟩ : quantity length_d ℝ) (⟨1⟩ : quantity length_d ℝ) with
        | .quan _ q => quantity.div q (⟨1⟩ : quantity time_interval_d ℝ)
        | .rep v => quantity.num_div v (⟨1⟩ : quantity time_interval_d ℝ)) =
        .quan ⟨2, 0, -1, 0, 0, 0, 0⟩ ⟨1⟩ ∧
      quantity.nth_root 2 (⟨1⟩ : quantity ⟨2, 0, -1, 0, 0, 0, 0⟩ ℝ) =
        .error .root_result_dimensions_must_be_integral :=
  ⟨(C8_root_rejected_iff_not_multiple ℝ ⟨1, 0, 1, 0, 0, 0, 0⟩ 2 ⟨1⟩ (by decide)).2.1.mpr
      ⟨by decide, by decide⟩,
    by simp [quantity.div, quantity.mul, detail.collapse.construct, detail.quotient.dims,
      detail.product.dims, dimensionless_d, length_d, time_interval_d],
    (C8_root_rejected_iff_not_multiple ℝ ⟨2, 0, -1, 0, 0, 0, 0⟩ 2 ⟨1⟩ (by decide)).2.1.mpr
      ⟨by decide, by decide⟩⟩

/-- C10 as stated fails for a negative scalar: the square root of the square of
-2 m is 2 m, not -2 m. -/
theorem C10_negative_scalar_counterexample :
    value.nth_root 2 (quantity.nth_power 2 (⟨-2⟩ : quantity length_d ℝ)) =
        .ok (.quan length_d ⟨2⟩) ∧
      value.nth_root 2 (quantity.nth_power 2 (⟨-2⟩ : quantity length_d ℝ)) ≠
        .ok (.quan length_d ⟨-2⟩) := by
  have e : ((-2 : ℝ) ^ (((2 : Int) : ℝ))) ^ ((1 : ℝ) / ((2 : Int) : ℝ)) = 2 := by
    have h := Real.pow_rpow_inv_natCast (show (0 : ℝ) ≤ 2 by norm_num) (show (2 : ℕ) ≠ 0 by norm_num)
    rw [Real.rpow_intCast]
    norm_num at h ⊢
    exact h
  have h := value.nth_root_nth_power (show length_d.is_all_zero = false by decide)
    (show (2 : Int) ≠ 0 by decide) (-2 : ℝ)
  rw [e] at h
  refine ⟨h, ?_⟩
  rw [h]
  intro hc
  injection hc with hc
  injection hc with _ hc
  have h2 : (2 : ℝ) = -2 := by
    have := congrArg quantity.m_value hc
    exact this
  norm_num at h2

/-- C10, amended: for every quantity `q` (dimension vector not all-zero) and
every integer `N > 0`, `nth_root< N >( nth_power< N >( q ) )` is accepted and has
the dimension vector of `q`, with scalar `pow( pow( x, N ), 1 / N )`; it equals
`q` whenever the scalar of `q` is not negative.  Scalars are real numbers and
`pow` is the real power. -/
theorem C10_root_of_power_nonneg (D : dimensions) (N : Int) (x : ℝ)
    (hD : D.is_all_zero = false) (hN : 0 < N) :
    value.nth_root N (quantity.nth_power N (⟨x⟩ : quantity D ℝ)) =
        .ok (.quan D ⟨(x ^ (N : ℝ)) ^ ((1 : ℝ) / (N : ℝ))⟩) ∧
      (0 ≤ x → value.nth_root N (quantity.nth_power N (⟨x⟩ : quantity D ℝ)) =
        .ok (.quan D ⟨x⟩)) := by
  have h := value.nth_root_nth_power hD (ne_of_gt hN) x
  refine ⟨h, fun hx => ?_⟩
  rw [h, ← Real.rpow_mul hx]
  have hN0 : (N : ℝ) ≠ 0 := by
    exact_mod_cast ne_of_gt hN
  rw [mul_one_div_cancel hN0, Real.rpow_one]

/-- Witness of C10: the cube root of the cube of 5 m is 5 m. -/
theorem C10_root_of_power_witness :
    value.nth_root 3 (quantity.nth_power 3 (⟨5⟩ : quantity length_d ℝ)) =
      .ok (.quan length_d ⟨5⟩) :=
  (C10_root_of_power_nonneg length_d 3 5 (by decide) (by decide)).2 (by norm_num)

/-! ## Round trip, additive identity, ordering -/

/-- C11 as stated fails for a scalar of `b` that is not finite: with `a` =
`meter()` and `b` = `meter() / 0.0`, whose scalar is the positive infinity and
so not zero, `( a * b ) / b` has the scalar NaN, which is not the scalar of
`a`. -/
theorem C11_infinite_scalar_counterexample :
    quantity.div_num (meter : quantity length_d iec559) 0 = ⟨iec559.pinf⟩ ∧
      iec559.pinf ≠ iec559.fin 0 ∧
      value.div_quan
          (quantity.mul (meter : quantity length_d iec559)
            (quantity.div_num (meter : quantity length_d iec559) 0))
          (quantity.div_num (meter : quantity length_d iec559) 0) =
        .quan length_d ⟨iec559.nan⟩ ∧
      iec559.nan ≠ (meter : quantity length_d iec559).m_value := by
  have hm : quantity.div_num (meter : quantity length_d iec559) 0 = ⟨iec559.pinf⟩ := by
    simp [quantity.div_num, meter, iec559.div_def, iec559.zero_def, iec559.one_def, iec559.div]
  rw [hm]
  refine ⟨rfl, (fun h => by cases h), ?_, (fun h => by cases h)⟩
  have hp : detail.product.dims length_d length_d ≠ dimensionless_d := by decide
  have hq : detail.quotient.dims (detail.product.dims length_d length_d) length_d = length_d := by
    decide
  rw [quantity.mul, detail.collapse.construct_of_ne hp, value.div_quan, quantity.div, hq,
    detail.collapse.construct_of_ne (by decide)]
  simp [meter, iec559.mul_def, iec559.div_def, iec559.one_def, iec559.mul, iec559.div]

/-- C11, amended: for a quantity `a` (dimension vector `D1`, not all-zero,
scalar `x`) and a quantity `b` (dimension vector `D2`, scalar `y`),
`( a * b ) / b` is the quantity of dimension `D1` with the scalar
`( x * y ) / y`, for every scalar type; when `D1 + D2` is all-zero, `a * b` is
the bare scalar `x * y` and the division is `num / quan`, with the same result;
in exact arithmetic, for `y` not zero, that scalar is `x`, the scalar of `a`. -/
theorem C11_mul_then_div_round_trip :
    (∀ (α : Type) [Mul α] [Div α] (D1 D2 : dimensions) (x y : α), D1.is_all_zero = false →
      value.div_quan (quantity.mul (⟨x⟩ : quantity D1 α) (⟨y⟩ : quantity D2 α))
          (⟨y⟩ : quantity D2 α) = .quan D1 ⟨x * y / y⟩ ∧
        ((detail.product.dims D1 D2).is_all_zero = true →
          quantity.mul (⟨x⟩ : quantity D1 α) (⟨y⟩ : quantity D2 α) = .rep (x * y) ∧
          quantity.num_div (x * y) (⟨y⟩ : quantity D2 α) = .quan D1 ⟨x * y / y⟩)) ∧
    (∀ (α : Type) [Field α] (D1 D2 : dimensions) (x y : α), D1.is_all_zero = false → y ≠ 0 →
      value.div_quan (quantity.mul (⟨x⟩ : quantity D1 α) (⟨y⟩ : quantity D2 α))
          (⟨y⟩ : quantity D2 α) = .quan D1 ⟨x⟩ ∧
        ((detail.product.dims D1 D2).is_all_zero = true →
          quantity.mul (⟨x⟩ : quantity D1 α) (⟨y⟩ : quantity D2 α) = .rep (x * y) ∧
          quantity.num_div (x * y) (⟨y⟩ : quantity D2 α) = .quan D1 ⟨x⟩)) := by
  have hgen : ∀ (α : Type) [Mul α] [Div α] (D1 D2 : dimensions) (x y : α),
      D1.is_all_zero = false →
      value.div_quan (quantity.mul (⟨x⟩ : quantity D1 α) (⟨y⟩ : quantity D2 α))
          (⟨y⟩ : quantity D2 α) = .quan D1 ⟨x * y / y⟩ ∧
        ((detail.product.dims D1 D2).is_all_zero = true →
          quantity.mul (⟨x⟩ : quantity D1 α) (⟨y⟩ : quantity D2 α) = .rep (x * y) ∧
          quantity.num_div (x * y) (⟨y⟩ : quantity D2 α) = .quan D1 ⟨x * y / y⟩) := by
    intro α _ _ D1 D2 x y hD1
    have hne : D1 ≠ dimensionless_d := (dimensions.is_all_zero_eq_false_iff D1).mp hD1
    have hq : detail.quotient.dims (detail.product.dims D1 D2) D2 = D1 := by
      cases D1
      cases D2
      simp [detail.quotient.dims, detail.product.dims]
    have hr : detail.product.dims D1 D2 = dimensionless_d → detail.reciprocal.dims D2 = D1 := by
      intro h
      rw [dimensions.eq_dimensionless_iff] at h
      obtain ⟨h1, h2, h3, h4, h5, h6, h7⟩ := h
      cases D1
      cases D2
      simp only [detail.product.dims] at h1 h2 h3 h4 h5 h6 h7
      simp only [detail.reciprocal.dims, dimensions.mk.injEq]
      omega
    have hnum : detail.product.dims D1 D2 = dimensionless_d →
        quantity.num_div (x * y) (⟨y⟩ : quantity D2 α) = .quan D1 ⟨x * y / y⟩ := by
      intro h
      rw [quantity.num_div, hr h, detail.collapse.construct_of_ne hne]
    constructor
    · by_cases h : detail.product.dims D1 D2 = dimensionless_d
      · rw [quantity.mul, detail.collapse.construct_of_eq h, value.div_quan]
        exact hnum h
      · rw [quantity.mul, detail.collapse.construct_of_ne h, value.div_quan, quantity.div, hq,
          detail.collapse.construct_of_ne hne]
    · intro h
      rw [dimensions.is_all_zero_iff] at h
      exact ⟨by rw [quantity.mul, detail.collapse.construct_of_eq h], hnum h⟩
  refine ⟨hgen, ?_⟩
  intro α _ D1 D2 x y hD1 hy
  have h := hgen α D1 D2 x y hD1
  rw [mul_div_cancel_right₀ x hy] at h
  exact h

/-- Witness of C11: 3 m times 2 m divided by 2 m is 3 m, and 5 s^-1 times 2 s,
the number 10, divided by 2 s is 5 s^-1. -/
theorem C11_round_trip_witness :
    value.div_quan (quantity.mul (⟨3⟩ : quantity length_d ℚ) (⟨2⟩ : quantity length_d ℚ))
        (⟨2⟩ : quantity length_d ℚ) = .quan length_d ⟨3⟩ ∧
      quantity.mul (⟨5⟩ : quantity ⟨0, 0, -1, 0, 0, 0, 0⟩ ℚ) (⟨2⟩ : quantity time_interval_d ℚ) =
        .rep (5 * 2) ∧
      value.div_quan
          (quantity.mul (⟨5⟩ : quantity ⟨0, 0, -1, 0, 0, 0, 0⟩ ℚ)
            (⟨2⟩ : quantity time_interval_d ℚ))
          (⟨2⟩ : quantity time_interval_d ℚ) = .quan ⟨0, 0, -1, 0, 0, 0, 0⟩ ⟨5⟩ :=
  ⟨(C11_mul_then_div_round_trip.2 ℚ length_d length_d 3 2 (by decide) (by norm_num)).1,
    ((C11_mul_then_div_round_trip.2 ℚ ⟨0, 0, -1, 0, 0, 0, 0⟩ time_interval_d 5 2 (by decide)
      (by norm_num)).2 (by decide)).1,
    (C11_mul_then_div_round_trip.2 ℚ ⟨0, 0, -1, 0, 0, 0, 0⟩ time_interval_d 5 2 (by decide)
      (by norm_num)).1⟩

/-- C12 as stated fails for a NaN scalar: `zero() / 0.0` is a quantity whose
scalar is NaN, and for this `q` both `q + zero() == q` and `q - zero() == q`
are false. -/
theorem C12_nan_scalar_counterexample :
    quantity.div_num (quantity.zero : quantity length_d iec559) 0 = ⟨iec559.nan⟩ ∧
      ((quantity.div_num (quantity.zero : quantity length_d iec559) 0).add quantity.zero).eq
        (quantity.div_num (quantity.zero : quantity length_d iec559) 0) = false ∧
      ((quantity.div_num (quantity.zero : quantity length_d iec559) 0).sub quantity.zero).eq
        (quantity.div_num (quantity.zero : quantity length_d iec559) 0) = false := by
  have hq : quantity.div_num (quantity.zero : quantity length_d iec559) 0 = ⟨iec559.nan⟩ := by
    simp [quantity.div_num, quantity.zero, iec559.div_def, iec559.zero_def, iec559.div]
  rw [hq]
  exact ⟨rfl, rfl, rfl⟩

/-- C12, amended: `zero()` is the quantity of the same dimension with scalar 0;
in exact arithmetic `q + zero() == q` and `q - zero() == q` hold for every
quantity `q`; with a floating scalar type they hold for every `q` whose scalar
is not NaN, and both are false for a `q` whose scalar is NaN. -/
theorem C12_additive_identity :
    (∀ (α : Type) [AddGroup α] [DecidableEq α] (D : dimensions) (q : quantity D α),
      (quantity.zero : quantity D α) = ⟨0⟩ ∧
      (quantity.zero : quantity D α).dimension_type = D ∧
      (q.add quantity.zero).eq q = true ∧
      (q.sub quantity.zero).eq q = true ∧
      q.add quantity.zero = q ∧ q.sub quantity.zero = q) ∧
    (∀ (D : dimensions) (q : quantity D iec559),
      (quantity.zero : quantity D iec559) = ⟨iec559.fin 0⟩ ∧
      (q.m_value ≠ iec559.nan →
        (q.add quantity.zero).eq q = true ∧ (q.sub quantity.zero).eq q = true) ∧
      (q.m_value = iec559.nan →
        (q.add quantity.zero).eq q = false ∧ (q.sub quantity.zero).eq q = false)) := by
  constructor
  · intro α _ _ D q
    cases q with
    | mk x =>
      simp [quantity.zero, quantity.add, quantity.sub, quantity.eq, quantity.dimension_type]
  · intro D q
    cases q with
    | mk x =>
      refine ⟨rfl, ?_, ?_⟩
      · intro hx
        cases x <;>
          simp [quantity.zero, quantity.add, quantity.sub, quantity.eq, iec559.add_def,
            iec559.sub_def, iec559.beq_def, iec559.zero_def, iec559.add, iec559.neg,
            iec559.beq] at hx ⊢
      · intro hx
        simp only at hx
        subst hx
        exact ⟨rfl, rfl⟩

/-- Witness of C12: 5 m plus and minus `zero()` equals 5 m, in exact arithmetic
and with a floating scalar. -/
theorem C12_additive_identity_witness :
    iec559.fin 5 ≠ iec559.nan ∧
      ((⟨iec559.fin 5⟩ : quantity length_d iec559).add quantity.zero).eq ⟨iec559.fin 5⟩ = true ∧
      ((⟨iec559.fin 5⟩ : quantity length_d iec559).sub quantity.zero).eq ⟨iec559.fin 5⟩ = true ∧
      ((⟨5⟩ : quantity length_d ℚ).add quantity.zero).eq ⟨5⟩ = true :=
  ⟨by simp,
    ((C12_additive_identity.2 length_d ⟨iec559.fin 5⟩).2.1 (by simp)).1,
    ((C12_additive_identity.2 length_d ⟨iec559.fin 5⟩).2.1 (by simp)).2,
    (C12_additive_identity.1 ℚ length_d ⟨5⟩).2.2.1⟩

/-- C13 as stated fails for a NaN scalar: with `a` = `zero() / 0.0`, whose
scalar is NaN, and `b` = `zero()`, none of `a < b`, `a == b`, `a > b` holds. -/
theorem C13_nan_scalar_counterexample :
    quantity.div_num (quantity.zero : quantity length_d iec559) 0 = ⟨iec559.nan⟩ ∧
      (quantity.div_num (quantity.zero : quantity length_d iec559) 0).lt quantity.zero = false ∧
      (quantity.div_num (quantity.zero : quantity length_d iec559) 0).eq quantity.zero = false ∧
      (quantity.div_num (quantity.zero : quantity length_d iec559) 0).gt quantity.zero = false := by
  have hq : quantity.div_num (quantity.zero : quantity length_d iec559) 0 = ⟨iec559.nan⟩ := by
    simp [quantity.div_num, quantity.zero, iec559.div_def, iec559.zero_def, iec559.div]
  rw [hq]
  exact ⟨rfl, rfl, rfl, rfl⟩

/-- C13, amended: each of the six comparison operators on two quantities of one
dimension is the same comparison of the two scalars; where the scalars are
linearly ordered, as in exact arithmetic, and with a floating scalar type
whenever neither scalar is NaN, exactly one of `a < b`, `a == b`, `a > b` holds;
when a scalar is NaN none of the three holds; in either case `a <= b` holds iff
`a < b` or `a == b`, `a >= b` holds iff `a > b` or `a == b`, and `a != b` is the
negation of `a == b`; so for 0 W and -1 W the six operators give false, true,
false, true, false, true in the order `==`, `!=`, `<=`, `>=`, `<`, `>`. -/
theorem C13_ordering_consistency :
    (∀ (α : Type) [BEq α] [LT α] [LE α] [(a b : α) → Decidable (a < b)]
        [(a b : α) → Decidable (a ≤ b)] (D : dimensions) (x y : α),
      quantity.eq (⟨x⟩ : quantity D α) ⟨y⟩ = (x == y) ∧
      quantity.ne (⟨x⟩ : quantity D α) ⟨y⟩ = (x != y) ∧
      quantity.le (⟨x⟩ : quantity D α) ⟨y⟩ = decide (x ≤ y) ∧
      quantity.ge (⟨x⟩ : quantity D α) ⟨y⟩ = decide (x ≥ y) ∧
      quantity.lt (⟨x⟩ : quantity D α) ⟨y⟩ = decide (x < y) ∧
      quantity.gt (⟨x⟩ : quantity D α) ⟨y⟩ = decide (x > y)) ∧
    (∀ (α : Type) [LinearOrder α] (D : dimensions) (a b : quantity D α),
      ((a.lt b = true ∧ a.eq b = false ∧ a.gt b = false) ∨
        (a.lt b = false ∧ a.eq b = true ∧ a.gt b = false) ∨
        (a.lt b = false ∧ a.eq b = false ∧ a.gt b = true)) ∧
      (a.le b = true ↔ (a.lt b = true ∨ a.eq b = true)) ∧
      (a.ge b = true ↔ (a.gt b = true ∨ a.eq b = true)) ∧
      a.ne b = !(a.eq b)) ∧
    (∀ (D : dimensions) (a b : quantity D iec559),
      (a.m_value ≠ iec559.nan → b.m_value ≠ iec559.nan →
        ((a.lt b = true ∧ a.eq b = false ∧ a.gt b = false) ∨
          (a.lt b = false ∧ a.eq b = true ∧ a.gt b = false) ∨
          (a.lt b = false ∧ a.eq b = false ∧ a.gt b = true))) ∧
      (a.m_value = iec559.nan ∨ b.m_value = iec559.nan →
        a.lt b = false ∧ a.eq b = false ∧ a.gt b = false) ∧
      (a.le b = true ↔ (a.lt b = true ∨ a.eq b = true)) ∧
      (a.ge b = true ↔ (a.gt b = true ∨ a.eq b = true)) ∧
      a.ne b = !(a.eq b)) ∧
    (quantity.eq (⟨0⟩ : quantity ⟨2, 1, -3, 0, 0, 0, 0⟩ ℚ) ⟨-1⟩ = false ∧
      quantity.ne (⟨0⟩ : quantity ⟨2, 1, -3, 0, 0, 0, 0⟩ ℚ) ⟨-1⟩ = true ∧
      quantity.le (⟨0⟩ : quantity ⟨2, 1, -3, 0, 0, 0, 0⟩ ℚ) ⟨-1⟩ = false ∧
      quantity.ge (⟨0⟩ : quantity ⟨2, 1, -3, 0, 0, 0, 0⟩ ℚ) ⟨-1⟩ = true ∧
      quantity.lt (⟨0⟩ : quantity ⟨2, 1, -3, 0, 0, 0, 0⟩ ℚ) ⟨-1⟩ = false ∧
      quantity.gt (⟨0⟩ : quantity ⟨2, 1, -3, 0, 0, 0, 0⟩ ℚ) ⟨-1⟩ = true) := by
  refine ⟨?_, ?_, ?_, ?_⟩
  · intro α _ _ _ _ _ D x y
    exact ⟨rfl, rfl, rfl, rfl, rfl, rfl⟩
  · intro α _ D a b
    cases a with
    | mk x =>
      cases b with
      | mk y =>
        simp only [quantity.lt, quantity.eq, quantity.gt, quantity.le, quantity.ge, quantity.ne,
          decide_eq_true_eq, decide_eq_false_iff_not, beq_iff_eq, beq_eq_false_iff_ne, ne_eq,
          gt_iff_lt, ge_iff_le, not_lt]
        refine ⟨?_, ?_, ?_, ?_⟩
        · rcases lt_trichotomy x y with h | h | h
          · exact Or.inl ⟨h, ne_of_lt h, le_of_lt h⟩
          · exact Or.inr (Or.inl ⟨le_of_eq h.symm, h, le_of_eq h⟩)
          · exact Or.inr (Or.inr ⟨le_of_lt h, ne_of_gt h, h⟩)
        · exact le_iff_lt_or_eq
        · rw [le_iff_lt_or_eq]
          constructor
          · rintro (h | h)
            · exact Or.inl h
            · exact Or.inr h.symm
          · rintro (h | h)
            · exact Or.inl h
            · exact Or.inr h.symm
        · rfl
  · intro D a b
    cases a with
    | mk x =>
      cases b with
      | mk y =>
        have hlt : ∀ u v : iec559, decide (u < v) = iec559.lt u v := by
          intro u v
          cases h : iec559.lt u v
          · exact decide_eq_false (by rw [iec559.lt_def, h]; simp)
          · exact decide_eq_true (by rw [iec559.lt_def, h])
        have hle : ∀ u v : iec559, decide (u ≤ v) = (iec559.lt u v || iec559.beq u v) := by
          intro u v
          cases h : (iec559.lt u v || iec559.beq u v)
          · refine decide_eq_false ?_
            rw [iec559.le_def, ← Bool.or_eq_true, h]
            simp
          · refine decide_eq_true ?_
            rw [iec559.le_def, ← Bool.or_eq_true, h]
        simp only [quantity.lt, quantity.eq, quantity.gt, quantity.le, quantity.ge, quantity.ne,
          gt_iff_lt, ge_iff_le, hlt, hle, iec559.beq_def, iec559.beq_comm y x]
        refine ⟨?_, ?_, ?_, ?_, rfl⟩
        · intro hx hy
          cases x <;> cases y <;> simp [iec559.lt, iec559.beq] at hx hy ⊢
          rename_i p q
          rcases lt_trichotomy p q with h | h | h
          · exact Or.inl ⟨h, ne_of_lt h, le_of_lt h⟩
          · exact Or.inr (Or.inl ⟨le_of_eq h.symm, h, le_of_eq h⟩)
          · exact Or.inr (Or.inr ⟨le_of_lt h, ne_of_gt h, h⟩)
        · rintro (h | h)
          · subst h
            exact ⟨iec559.lt_nan_left y, iec559.beq_nan_left y, iec559.lt_nan_right y⟩
          · subst h
            exact ⟨iec559.lt_nan_right x, iec559.beq_nan_right x, iec559.lt_nan_left x⟩
        · simp
        · simp
  · simp only [quantity.lt, quantity.eq, quantity.gt, quantity.le, quantity.ge, quantity.ne]
    norm_num

/-- Witness of C13: with a floating scalar, 1 W is less than the quantity
`watt / 0.0`, whose scalar is the positive infinity, and neither equal to it
nor greater. -/
theorem C13_ordering_witness :
    iec559.fin 1 ≠ iec559.nan ∧ iec559.pinf ≠ iec559.nan ∧
      ((quantity.lt (⟨iec559.fin 1⟩ : quantity power_d iec559) ⟨iec559.pinf⟩ = true ∧
          quantity.eq (⟨iec559.fin 1⟩ : quantity power_d iec559) ⟨iec559.pinf⟩ = false ∧
          quantity.gt (⟨iec559.fin 1⟩ : quantity power_d iec559) ⟨iec559.pinf⟩ = false) ∨
        (quantity.lt (⟨iec559.fin 1⟩ : quantity power_d iec559) ⟨iec559.pinf⟩ = false ∧
          quantity.eq (⟨iec559.fin 1⟩ : quantity power_d iec559) ⟨iec559.pinf⟩ = true ∧
          quantity.gt (⟨iec559.fin 1⟩ : quantity power_d iec559) ⟨iec559.pinf⟩ = false) ∨
        (quantity.lt (⟨iec559.fin 1⟩ : quantity power_d iec559) ⟨iec559.pinf⟩ = false ∧
          quantity.eq (⟨iec559.fin 1⟩ : quantity power_d iec559) ⟨iec559.pinf⟩ = false ∧
          quantity.gt (⟨iec559.fin 1⟩ : quantity power_d iec559) ⟨iec559.pinf⟩ = true)) :=
  ⟨by simp, by simp,
    (C13_ordering_consistency.2.2.1 power_d ⟨iec559.fin 1⟩ ⟨iec559.pinf⟩).1 (by simp) (by simp)⟩

/-! ## Promotion, operations with a number -/

/-- C14: `promote< T, U >::type` is `T` when `sizeof( T ) >= sizeof( U )` and `U`
otherwise; it is one of the two operands, its width is the maximum of the two
widths, and on equal widths it is the left operand `T`. -/
theorem C14_promote_selects_wider (τ : Type) (sizeof : τ → Nat) (T U : τ) :
    detail.promote sizeof T U = (if sizeof T ≥ sizeof U then T else U) ∧
      (detail.promote sizeof T U = T ∨ detail.promote sizeof T U = U) ∧
      sizeof (detail.promote sizeof T U) = max (sizeof T) (sizeof U) ∧
      (sizeof T = sizeof U → detail.promote sizeof T U = T) := by
  by_cases h : sizeof T ≥ sizeof U
  · have hp : detail.promote sizeof T U = T := by
      simp [detail.promote, detail.select_, h]
    rw [hp]
    exact ⟨by simp [h], Or.inl rfl, (max_eq_left h).symm, fun _ => rfl⟩
  · have hp : detail.promote sizeof T U = U := by
      simp [detail.promote, detail.select_, h]
    rw [hp]
    refine ⟨by simp [h], Or.inr rfl, (max_eq_right (le_of_lt (not_le.mp h))).symm, fun he => ?_⟩
    exact absurd (le_of_eq he.symm) h

/-- Witness of C14 with two representation types of one width 8, named `false`
and `true`, and with widths 4 and 8: a tie gives the left operand, otherwise
the wider one. -/
theorem C14_promote_witness :
    detail.promote (fun _ : Bool => 8) false true = false ∧
      detail.promote (fun _ : Bool => 8) true false = true ∧
      detail.promote (fun b : Bool => if b then 8 else 4) false true = true ∧
      detail.promote (fun b : Bool => if b then 8 else 4) true false = true :=
  ⟨(C14_promote_selects_wider Bool (fun _ => 8) false true).2.2.2 rfl,
    (C14_promote_selects_wider Bool (fun _ => 8) true false).2.2.2 rfl,
    (C14_promote_selects_wider Bool (fun b => if b then 8 else 4) false true).1.trans
      (by decide),
    (C14_promote_selects_wider Bool (fun b => if b then 8 else 4) true false).1.trans
      (by decide)⟩

/-- C15: for a number `k` and a quantity `q` (dimension vector `D` not
all-zero, scalar `x`), `k / q` is the quantity whose exponents are the negated
exponents of `D` and whose scalar is `k / x`, of type `quantity` of that
dimension in the promoted representation type. -/
theorem C15_num_div_quan {τ : Type} (α : Type) [Div α] (D : dimensions) (k x : α)
    (sizeof : τ → Nat) (Rep Y : τ) (hD : D.is_all_zero = false) :
    quantity.num_div k (⟨x⟩ : quantity D α) =
        .quan ⟨-D.dim1, -D.dim2, -D.dim3, -D.dim4, -D.dim5, -D.dim6, -D.dim7⟩ ⟨k / x⟩ ∧
      detail.reciprocal.type D (detail.promote sizeof Rep Y) =
        .quantity ⟨-D.dim1, -D.dim2, -D.dim3, -D.dim4, -D.dim5, -D.dim6, -D.dim7⟩
          (detail.promote sizeof Rep Y) := by
  have hne : detail.reciprocal.dims D ≠ dimensionless_d := by
    intro h
    rw [dimensions.is_all_zero_eq_false_iff] at hD
    apply hD
    rw [dimensions.eq_dimensionless_iff] at h ⊢
    simpa [detail.reciprocal.dims] using h
  constructor
  · rw [quantity.num_div, detail.collapse.construct_of_ne hne]
    rfl
  · rw [detail.reciprocal.type, detail.collapse, if_neg hne]
    rfl

/-- Witness of C15: 8 divided by 4 m/s is 2 with exponents (-1,0,1,0,0,0,0). -/
theorem C15_num_div_quan_witness :
    quantity.num_div 8 (⟨4⟩ : quantity ⟨1, 0, -1, 0, 0, 0, 0⟩ ℚ) =
      .quan ⟨-1, 0, 1, 0, 0, 0, 0⟩ ⟨2⟩ := by
  have h := (C15_num_div_quan ℚ ⟨1, 0, -1, 0, 0, 0, 0⟩ 8 4 (fun _ : Unit => 8) () ()
    (by decide)).1
  rw [h]
  norm_num

/-- C16: `q * k` has scalar `x * k`, `k * q` has scalar `k * x` and `q / k` has
scalar `x / k`, each a quantity of the dimension of `q`; where the
multiplication of scalars commutes, `q * k` and `k * q` are equal; so
(16 m/s) * 3 is 48 m/s, 5 * (16 m/s) is 80 m/s and (4 m/s) / 8 is 0.5 m/s. -/
theorem C16_scaling_by_number :
    (∀ (α : Type) [Mul α] [Div α] (D : dimensions) (x k : α),
      quantity.mul_num (⟨x⟩ : quantity D α) k = ⟨x * k⟩ ∧
      quantity.num_mul k (⟨x⟩ : quantity D α) = ⟨k * x⟩ ∧
      quantity.div_num (⟨x⟩ : quantity D α) k = ⟨x / k⟩ ∧
      (quantity.mul_num (⟨x⟩ : quantity D α) k).dimension_type = D ∧
      (quantity.num_mul k (⟨x⟩ : quantity D α)).dimension_type = D ∧
      (quantity.div_num (⟨x⟩ : quantity D α) k).dimension_type = D) ∧
    (∀ (α : Type) [CommMagma α] (D : dimensions) (x k : α),
      quantity.num_mul k (⟨x⟩ : quantity D α) = quantity.mul_num ⟨x⟩ k ∧
      quantity.num_mul k (⟨x⟩ : quantity D α) = ⟨x * k⟩) ∧
    quantity.mul_num (⟨16⟩ : quantity ⟨1, 0, -1, 0, 0, 0, 0⟩ ℚ) 3 = ⟨48⟩ ∧
    quantity.num_mul 5 (⟨16⟩ : quantity ⟨1, 0, -1, 0, 0, 0, 0⟩ ℚ) = ⟨80⟩ ∧
    quantity.div_num (⟨4⟩ : quantity ⟨1, 0, -1, 0, 0, 0, 0⟩ ℚ) 8 = ⟨1 / 2⟩ := by
  refine ⟨fun α _ _ D x k => ⟨rfl, rfl, rfl, rfl, rfl, rfl⟩, ?_, ?_, ?_, ?_⟩
  · intro α _ D x k
    simp only [quantity.num_mul, quantity.mul_num, mul_comm k x, and_self]
  · simp only [quantity.mul_num]
    norm_num
  · simp only [quantity.num_mul]
    norm_num
  · simp only [quantity.div_num]
    norm_num

/-! ## Compound assignment -/

/-- C17 as stated fails when the right operand is the left operand itself:
after `a += a` with `a` = 5 m^2, both operands of one scalar type so that the
assignment converts nothing, the object `a`, which is also the right operand,
holds 10 m^2. -/
theorem C17_aliased_operand_counterexample :
    (quantity.ref.mk 0 : quantity.ref ⟨2, 0, 0, 0, 0, 0, 0⟩).read
        (quantity.ref.add_assign id (fun _ => (5 : ℚ))
          (quantity.ref.mk 0 : quantity.ref ⟨2, 0, 0, 0, 0, 0, 0⟩) (quantity.ref.mk 0)).1 =
        ⟨10⟩ ∧
      ¬ ((quantity.ref.mk 0 : quantity.ref ⟨2, 0, 0, 0, 0, 0, 0⟩).read
          (quantity.ref.add_assign id (fun _ => (5 : ℚ))
            (quantity.ref.mk 0 : quantity.ref ⟨2, 0, 0, 0, 0, 0, 0⟩) (quantity.ref.mk 0)).1 =
        (quantity.ref.mk 0 : quantity.ref ⟨2, 0, 0, 0, 0, 0, 0⟩).read (fun _ => (5 : ℚ))) := by
  constructor
  · simp only [quantity.ref.read, quantity.ref.add_assign, Function.update_same, id]
    norm_num
  · simp only [quantity.ref.read, quantity.ref.add_assign, Function.update_same,
      quantity.mk.injEq, id]
    norm_num

/-- C17, amended: each of `a += b`, `a -= b`, `a *= k`, `a /= k`, with `k` a
number of type `Rep`, returns a reference to the left operand, which afterwards
is the quantity of the same dimension whose scalar is the scalar of `a + b`,
`a - b`, `a * k`, `a / k`, computed from the operands before the call and
converted to the scalar type of `a`; it is that scalar itself whenever the
conversion does not change it, as when the operands have one scalar type; no
other address of the memory is written, so the right operand is unchanged
whenever it is not the left operand itself. -/
theorem C17_compound_assignment (α : Type) [Add α] [Sub α] [Mul α] [Div α] (D : dimensions)
    (to_X : α → α) (memory : Nat → α) (lhs rhs : quantity.ref D) (k : Nat) :
    ((quantity.ref.add_assign to_X memory lhs rhs).2 = lhs ∧
      lhs.read (quantity.ref.add_assign to_X memory lhs rhs).1 =
        ⟨to_X ((lhs.read memory).add (rhs.read memory)).m_value⟩ ∧
      (to_X ((lhs.read memory).add (rhs.read memory)).m_value =
          ((lhs.read memory).add (rhs.read memory)).m_value →
        lhs.read (quantity.ref.add_assign to_X memory lhs rhs).1 =
          (lhs.read memory).add (rhs.read memory)) ∧
      (lhs.read (quantity.ref.add_assign to_X memory lhs rhs).1).dimension_type = D ∧
      (∀ p, p ≠ lhs.address → (quantity.ref.add_assign to_X memory lhs rhs).1 p = memory p) ∧
      (rhs ≠ lhs →
        rhs.read (quantity.ref.add_assign to_X memory lhs rhs).1 = rhs.read memory)) ∧
    ((quantity.ref.sub_assign to_X memory lhs rhs).2 = lhs ∧
      lhs.read (quantity.ref.sub_assign to_X memory lhs rhs).1 =
        ⟨to_X ((lhs.read memory).sub (rhs.read memory)).m_value⟩ ∧
      (to_X ((lhs.read memory).sub (rhs.read memory)).m_value =
          ((lhs.read memory).sub (rhs.read memory)).m_value →
        lhs.read (quantity.ref.sub_assign to_X memory lhs rhs).1 =
          (lhs.read memory).sub (rhs.read memory)) ∧
      (lhs.read (quantity.ref.sub_assign to_X memory lhs rhs).1).dimension_type = D ∧
      (∀ p, p ≠ lhs.address → (quantity.ref.sub_assign to_X memory lhs rhs).1 p = memory p) ∧
      (rhs ≠ lhs →
        rhs.read (quantity.ref.sub_assign to_X memory lhs rhs).1 = rhs.read memory)) ∧
    ((quantity.ref.mul_assign to_X memory lhs k).2 = lhs ∧
      lhs.read (quantity.ref.mul_assign to_X memory lhs k).1 =
        ⟨to_X ((lhs.read memory).mul_num (memory k)).m_value⟩ ∧
      (to_X ((lhs.read memory).mul_num (memory k)).m_value =
          ((lhs.read memory).mul_num (memory k)).m_value →
        lhs.read (quantity.ref.mul_assign to_X memory lhs k).1 =
          (lhs.read memory).mul_num (memory k)) ∧
      (lhs.read (quantity.ref.mul_assign to_X memory lhs k).1).dimension_type = D ∧
      (∀ p, p ≠ lhs.address → (quantity.ref.mul_assign to_X memory lhs k).1 p = memory p) ∧
      (k ≠ lhs.address → (quantity.ref.mul_assign to_X memory lhs k).1 k = memory k)) ∧
    ((quantity.ref.div_assign to_X memory lhs k).2 = lhs ∧
      lhs.read (quantity.ref.div_assign to_X memory lhs k).1 =
        ⟨to_X ((lhs.read memory).div_num (memory k)).m_value⟩ ∧
      (to_X ((lhs.read memory).div_num (memory k)).m_value =
          ((lhs.read memory).div_num (memory k)).m_value →
        lhs.read (quantity.ref.div_assign to_X memory lhs k).1 =
          (lhs.read memory).div_num (memory k)) ∧
      (lhs.read (quantity.ref.div_assign to_X memory lhs k).1).dimension_type = D ∧
      (∀ p, p ≠ lhs.address → (quantity.ref.div_assign to_X memory lhs k).1 p = memory p) ∧
      (k ≠ lhs.address → (quantity.ref.div_assign to_X memory lhs k).1 k = memory k)) := by
  have hr : rhs ≠ lhs → rhs.address ≠ lhs.address := by
    intro h he
    apply h
    cases rhs
    cases lhs
    simpa using he
  have ha : lhs.read (quantity.ref.add_assign to_X memory lhs rhs).1 =
      ⟨to_X ((lhs.read memory).add (rhs.read memory)).m_value⟩ := by
    simp [quantity.ref.add_assign, quantity.ref.read, quantity.add]
  have hs : lhs.read (quantity.ref.sub_assign to_X memory lhs rhs).1 =
      ⟨to_X ((lhs.read memory).sub (rhs.read memory)).m_value⟩ := by
    simp [quantity.ref.sub_assign, quantity.ref.read, quantity.sub]
  have hm : lhs.read (quantity.ref.mul_assign to_X memory lhs k).1 =
      ⟨to_X ((lhs.read memory).mul_num (memory k)).m_value⟩ := by
    simp [quantity.ref.mul_assign, quantity.ref.read, quantity.mul_num]
  have hd : lhs.read (quantity.ref.div_assign to_X memory lhs k).1 =
      ⟨to_X ((lhs.read memory).div_num (memory k)).m_value⟩ := by
    simp [quantity.ref.div_assign, quantity.ref.read, quantity.div_num]
  refine ⟨⟨rfl, ha, ?_, rfl, ?_, ?_⟩, ⟨rfl, hs, ?_, rfl, ?_, ?_⟩, ⟨rfl, hm, ?_, rfl, ?_, ?_⟩,
    ⟨rfl, hd, ?_, rfl, ?_, ?_⟩⟩
  · intro h
    rw [ha, h]
  · intro p hp
    simp [quantity.ref.add_assign, Function.update_noteq hp]
  · intro h
    simp [quantity.ref.add_assign, quantity.ref.read, Function.update_noteq (hr h)]
  · intro h
    rw [hs, h]
  · intro p hp
    simp [quantity.ref.sub_assign, Function.update_noteq hp]
  · intro h
    simp [quantity.ref.sub_assign, quantity.ref.read, Function.update_noteq (hr h)]
  · intro h
    rw [hm, h]
  · intro p hp
    simp [quantity.ref.mul_assign, Function.update_noteq hp]
  · intro h
    simp [quantity.ref.mul_assign, Function.update_noteq h]
  · intro h
    rw [hd, h]
  · intro p hp
    simp [quantity.ref.div_assign, Function.update_noteq hp]
  · intro h
    simp [quantity.ref.div_assign, Function.update_noteq h]

/-- Witness of C17, with operands of one scalar type, the left operand at
address 0 and the right operand at address 1: 5 m^2 += 6 m^2 gives 11 m^2 and
leaves 6 m^2; 9 m^2 -= 7 m^2 gives 2 m^2; 8 m/s *= 2 gives 16 m/s; 20 m/s /= 5
gives 4 m/s. -/
theorem C17_compound_assignment_witness :
    (quantity.ref.mk 0 : quantity.ref ⟨2, 0, 0, 0, 0, 0, 0⟩).read
        (quantity.ref.add_assign id (fun p => if p = 0 then (5 : ℚ) else 6)
          (quantity.ref.mk 0 : quantity.ref ⟨2, 0, 0, 0, 0, 0, 0⟩) (quantity.ref.mk 1)).1 =
        ⟨11⟩ ∧
      (quantity.ref.mk 1 : quantity.ref ⟨2, 0, 0, 0, 0, 0, 0⟩).read
        (quantity.ref.add_assign id (fun p => if p = 0 then (5 : ℚ) else 6)
          (quantity.ref.mk 0 : quantity.ref ⟨2, 0, 0, 0, 0, 0, 0⟩) (quantity.ref.mk 1)).1 =
        ⟨6⟩ ∧
      (quantity.ref.mk 0 : quantity.ref ⟨2, 0, 0, 0, 0, 0, 0⟩).read
        (quantity.ref.sub_assign id (fun p => if p = 0 then (9 : ℚ) else 7)
          (quantity.ref.mk 0 : quantity.ref ⟨2, 0, 0, 0, 0, 0, 0⟩) (quantity.ref.mk 1)).1 =
        ⟨2⟩ ∧
      (quantity.ref.mk 0 : quantity.ref ⟨1, 0, -1, 0, 0, 0, 0⟩).read
        (quantity.ref.mul_assign id (fun p => if p = 0 then (8 : ℚ) else 2)
          (quantity.ref.mk 0 : quantity.ref ⟨1, 0, -1, 0, 0, 0, 0⟩) 1).1 = ⟨16⟩ ∧
      (quantity.ref.mk 0 : quantity.ref ⟨1, 0, -1, 0, 0, 0, 0⟩).read
        (quantity.ref.div_assign id (fun p => if p = 0 then (20 : ℚ) else 5)
          (quantity.ref.mk 0 : quantity.ref ⟨1, 0, -1, 0, 0, 0, 0⟩) 1).1 = ⟨4⟩ := by
  have ha := (C17_compound_assignment ℚ ⟨2, 0, 0, 0, 0, 0, 0⟩ id
    (fun p => if p = 0 then 5 else 6) ⟨0⟩ ⟨1⟩ 1).1
  have hs := (C17_compound_assignment ℚ ⟨2, 0, 0, 0, 0, 0, 0⟩ id
    (fun p => if p = 0 then 9 else 7) ⟨0⟩ ⟨1⟩ 1).2.1
  have hm := (C17_compound_assignment ℚ ⟨1, 0, -1, 0, 0, 0, 0⟩ id
    (fun p => if p = 0 then 8 else 2) ⟨0⟩ ⟨1⟩ 1).2.2.1
  have hd := (C17_compound_assignment ℚ ⟨1, 0, -1, 0, 0, 0, 0⟩ id
    (fun p => if p = 0 then 20 else 5) ⟨0⟩ ⟨1⟩ 1).2.2.2
  refine ⟨(ha.2.2.1 rfl).trans ?_, (ha.2.2.2.2.2 (by decide)).trans ?_,
    (hs.2.2.1 rfl).trans ?_, (hm.2.2.1 rfl).trans ?_, (hd.2.2.1 rfl).trans ?_⟩
  · simp only [quantity.ref.read, quantity.add]
    norm_num
  · simp only [quantity.ref.read]
    norm_num
  · simp only [quantity.ref.read, quantity.sub]
    norm_num
  · simp only [quantity.ref.read, quantity.mul_num]
    norm_num
  · simp only [quantity.ref.read, quantity.div_num]
    norm_num

/-! ## Unary operators, absolute value -/

/-- C18 as stated fails for floating scalars: for `q` = `zero() / 0.0`, whose
scalar is NaN, `-( -q ) == q` is false; and for `a` = `b` = `meter() / 0.0`,
whose scalar is the positive infinity, `a - b` is NaN and
`a - b == -( b - a )` is false. -/
theorem C18_nan_scalar_counterexample :
    quantity.div_num (quantity.zero : quantity length_d iec559) 0 = ⟨iec559.nan⟩ ∧
      (quantity.div_num (quantity.zero : quantity length_d iec559) 0).neg.neg.eq
        (quantity.div_num (quantity.zero : quantity length_d iec559) 0) = false ∧
      quantity.div_num (meter : quantity length_d iec559) 0 = ⟨iec559.pinf⟩ ∧
      ((quantity.div_num (meter : quantity length_d iec559) 0).sub
          (quantity.div_num (meter : quantity length_d iec559) 0)).eq
        ((quantity.div_num (meter : quantity length_d iec559) 0).sub
          (quantity.div_num (meter : quantity length_d iec559) 0)).neg = false := by
  have hq : quantity.div_num (quantity.zero : quantity length_d iec559) 0 = ⟨iec559.nan⟩ := by
    simp [quantity.div_num, quantity.zero, iec559.div_def, iec559.zero_def, iec559.div]
  have hm : quantity.div_num (meter : quantity length_d iec559) 0 = ⟨iec559.pinf⟩ := by
    simp [quantity.div_num, meter, iec559.div_def, iec559.zero_def, iec559.one_def, iec559.div]
  rw [hq, hm]
  exact ⟨rfl, rfl, rfl, rfl⟩

/-- C18, amended: unary `+` returns its operand and unary `-` the quantity of the
same dimension with the negated scalar; in exact arithmetic `-( -q ) == q` and
`a - b == -( b - a )` hold; with a floating scalar type `-( -q ) == q` holds
whenever the scalar of `q` is not NaN and `a - b == -( b - a )` holds whenever
the scalar of `a - b` is not NaN; so with `a1` = 2 m^2 and `a2` = 7 m^2, `-a1`
is -2 m^2, `a1 - a2` is -5 m^2 and `a2 - a1` is 5 m^2. -/
theorem C18_unary_plus_minus :
    (∀ (α : Type) [Neg α] (D : dimensions) (x : α),
      quantity.pos (⟨x⟩ : quantity D α) = ⟨x⟩ ∧
      quantity.neg (⟨x⟩ : quantity D α) = ⟨-x⟩ ∧
      (quantity.pos (⟨x⟩ : quantity D α)).dimension_type = D ∧
      (quantity.neg (⟨x⟩ : quantity D α)).dimension_type = D) ∧
    (∀ (α : Type) [AddGroup α] [DecidableEq α] (D : dimensions) (q a b : quantity D α),
      q.neg.neg.eq q = true ∧ (a.sub b).eq (b.sub a).neg = true ∧
      q.neg.neg = q ∧ a.sub b = (b.sub a).neg) ∧
    (∀ (D : dimensions) (q a b : quantity D iec559),
      (q.m_value ≠ iec559.nan → q.neg.neg.eq q = true) ∧
      ((a.sub b).m_value ≠ iec559.nan → (a.sub b).eq (b.sub a).neg = true)) ∧
    quantity.neg (⟨2⟩ : quantity ⟨2, 0, 0, 0, 0, 0, 0⟩ ℚ) = ⟨-2⟩ ∧
    quantity.sub (⟨2⟩ : quantity ⟨2, 0, 0, 0, 0, 0, 0⟩ ℚ) ⟨7⟩ = ⟨-5⟩ ∧
    quantity.sub (⟨7⟩ : quantity ⟨2, 0, 0, 0, 0, 0, 0⟩ ℚ) ⟨2⟩ = ⟨5⟩ := by
  refine ⟨fun α _ D x => ⟨rfl, rfl, rfl, rfl⟩, ?_, ?_, rfl, ?_, ?_⟩
  · intro α _ _ D q a b
    cases q
    cases a
    cases b
    simp [quantity.neg, quantity.sub, quantity.eq]
  · intro D q a b
    cases q with
    | mk x =>
      cases a with
      | mk u =>
        cases b with
        | mk v =>
          constructor
          · intro hx
            cases x <;>
              simp [quantity.neg, quantity.eq, iec559.neg_def, iec559.beq_def, iec559.neg,
                iec559.beq] at hx ⊢
          · intro hs
            cases u <;> cases v <;>
              simp [quantity.neg, quantity.sub, quantity.eq, iec559.neg_def, iec559.sub_def,
                iec559.beq_def, iec559.neg, iec559.add, iec559.beq] at hs ⊢
  · simp only [quantity.sub]
    norm_num
  · simp only [quantity.sub]
    norm_num

/-- Witness of C18: with a floating scalar, the double negation of 2 m^2 equals
2 m^2, and 2 m^2 - 7 m^2, which is not NaN, equals -( 7 m^2 - 2 m^2 ). -/
theorem C18_unary_plus_minus_witness :
    iec559.fin 2 ≠ iec559.nan ∧
      (quantity.neg (quantity.neg (⟨iec559.fin 2⟩ : quantity area_d iec559))).eq
        ⟨iec559.fin 2⟩ = true ∧
      (quantity.sub (⟨iec559.fin 2⟩ : quantity area_d iec559) ⟨iec559.fin 7⟩).m_value ≠
        iec559.nan ∧
      (quantity.sub (⟨iec559.fin 2⟩ : quantity area_d iec559) ⟨iec559.fin 7⟩).eq
        (quantity.neg (quantity.sub (⟨iec559.fin 7⟩ : quantity area_d iec559)
          ⟨iec559.fin 2⟩)) = true :=
  ⟨by simp,
    (C18_unary_plus_minus.2.2.1 area_d ⟨iec559.fin 2⟩ ⟨iec559.fin 2⟩ ⟨iec559.fin 7⟩).1 (by simp),
    by simp [quantity.sub, iec559.sub_def, iec559.add, iec559.neg],
    (C18_unary_plus_minus.2.2.1 area_d ⟨iec559.fin 2⟩ ⟨iec559.fin 2⟩ ⟨iec559.fin 7⟩).2
      (by simp [quantity.sub, iec559.sub_def, iec559.add, iec559.neg])⟩

/-- C19 as stated fails for a NaN scalar: for `q` = `zero() / 0.0` each of
`abs( -q ) == abs( q )`, `abs( +q ) == abs( q )`, `abs( q ) >= zero()` and
`abs( abs( q ) ) == abs( q )` is false. -/
theorem C19_nan_scalar_counterexample :
    quantity.div_num (quantity.zero : quantity length_d iec559) 0 = ⟨iec559.nan⟩ ∧
      (quantity.div_num (quantity.zero : quantity length_d iec559) 0).neg.abs.eq
        (quantity.div_num (quantity.zero : quantity length_d iec559) 0).abs = false ∧
      (quantity.div_num (quantity.zero : quantity length_d iec559) 0).pos.abs.eq
        (quantity.div_num (quantity.zero : quantity length_d iec559) 0).abs = false ∧
      (quantity.div_num (quantity.zero : quantity length_d iec559) 0).abs.ge quantity.zero =
        false ∧
      (quantity.div_num (quantity.zero : quantity length_d iec559) 0).abs.abs.eq
        (quantity.div_num (quantity.zero : quantity length_d iec559) 0).abs = false := by
  have hq : quantity.div_num (quantity.zero : quantity length_d iec559) 0 = ⟨iec559.nan⟩ := by
    simp [quantity.div_num, quantity.zero, iec559.div_def, iec559.zero_def, iec559.div]
  rw [hq]
  exact ⟨rfl, rfl, rfl, rfl, rfl⟩

/-- C19, amended: `abs( q )` is the quantity of the dimension of `q` whose scalar
is `fabs` of the scalar of `q`, in exact arithmetic `|x|`; in exact arithmetic,
and with a floating scalar type whenever the scalar of `q` is not NaN,
`abs( -q ) == abs( q )`, `abs( +q ) == abs( q )`, `abs( q ) >= zero()` and
`abs( abs( q ) ) == abs( q )` hold; so `abs` of 1 m, of +(1 m) and of -(1 m) is
1 m. -/
theorem C19_abs :
    (∀ (α : Type) [has_fabs α] (D : dimensions) (x : α),
      quantity.abs (⟨x⟩ : quantity D α) = ⟨has_fabs.fabs x⟩ ∧
      (quantity.abs (⟨x⟩ : quantity D α)).dimension_type = D) ∧
    (∀ (α : Type) [LinearOrderedAddCommGroup α] (D : dimensions) (x : α),
      quantity.abs (⟨x⟩ : quantity D α) = ⟨|x|⟩) ∧
    (∀ (α : Type) [LinearOrderedAddCommGroup α] (D : dimensions) (q : quantity D α),
      q.neg.abs.eq q.abs = true ∧ q.pos.abs.eq q.abs = true ∧
      q.abs.ge quantity.zero = true ∧ q.abs.abs.eq q.abs = true) ∧
    (∀ (D : dimensions) (q : quantity D iec559), q.m_value ≠ iec559.nan →
      q.neg.abs.eq q.abs = true ∧ q.pos.abs.eq q.abs = true ∧
      q.abs.ge quantity.zero = true ∧ q.abs.abs.eq q.abs = true) ∧
    quantity.abs (⟨1⟩ : quantity length_d ℚ) = ⟨1⟩ ∧
    quantity.abs (quantity.pos (⟨1⟩ : quantity length_d ℚ)) = ⟨1⟩ ∧
    quantity.abs (quantity.neg (⟨1⟩ : quantity length_d ℚ)) = ⟨1⟩ := by
  have hf : ∀ (α : Type) [LinearOrderedAddCommGroup α] (x : α), has_fabs.fabs x = |x| :=
    fun α _ x => rfl
  refine ⟨fun α _ D x => ⟨rfl, rfl⟩, fun α _ D x => rfl, ?_, ?_, ?_, ?_, ?_⟩
  · intro α _ D q
    cases q
    simp [quantity.neg, quantity.pos, quantity.abs, quantity.eq, quantity.ge, quantity.zero, hf]
  · intro D q hq
    cases q with
    | mk x =>
      have hge : ∀ u : iec559, decide (u ≥ (0 : iec559)) =
          (iec559.lt (iec559.fin 0) u || iec559.beq (iec559.fin 0) u) := by
        intro u
        cases h : (iec559.lt (iec559.fin 0) u || iec559.beq (iec559.fin 0) u)
        · refine decide_eq_false ?_
          rw [ge_iff_le, iec559.le_def, iec559.zero_def, ← Bool.or_eq_true, h]
          simp
        · refine decide_eq_true ?_
          rw [ge_iff_le, iec559.le_def, iec559.zero_def, ← Bool.or_eq_true, h]
      simp only [quantity.neg, quantity.pos, quantity.abs, quantity.eq, quantity.ge,
        quantity.zero, iec559.fabs_def, iec559.neg_def, iec559.beq_def, hge]
      cases x <;> simp [iec559.fabs, iec559.neg, iec559.beq, iec559.lt] at hq ⊢
      rename_i p
      by_cases hp : p = 0
      · right
        simp [hp]
      · left
        exact hp
  · simp [quantity.abs, hf]
  · simp [quantity.abs, quantity.pos, hf]
  · simp [quantity.abs, quantity.neg, hf]

/-- Witness of C19: with a floating scalar, `abs` of -(1 m) equals `abs` of 1 m
and is not less than `zero()`. -/
theorem C19_abs_witness :
    iec559.fin 1 ≠ iec559.nan ∧
      (quantity.abs (quantity.neg (⟨iec559.fin 1⟩ : quantity length_d iec559))).eq
        (quantity.abs ⟨iec559.fin 1⟩) = true ∧
      (quantity.abs (⟨iec559.fin 1⟩ : quantity length_d iec559)).ge quantity.zero = true :=
  ⟨by simp, ((C19_abs.2.2.2.1 length_d ⟨iec559.fin 1⟩) (by simp)).1,
    ((C19_abs.2.2.2.1 length_d ⟨iec559.fin 1⟩) (by simp)).2.2.1⟩

/-! ## The fast paths for the second and the third power -/

/-- C20 as stated fails for a NaN scalar: for `q` = `zero() / 0.0`, a force
whose scalar is NaN, `square( q )` and `nth_power< 2 >( q )` are both the
quantity of exponents (2,2,-4) with the scalar NaN, `cube( q )` and
`nth_power< 3 >( q )` both that of exponents (3,3,-6) with the scalar NaN, and
`==` of two such quantities is false. -/
theorem C20_nan_scalar_counterexample :
    quantity.div_num (quantity.zero : quantity force_d iec559) 0 = ⟨iec559.nan⟩ ∧
      quantity.square (quantity.div_num (quantity.zero : quantity force_d iec559) 0) =
        .quan ⟨2, 2, -4, 0, 0, 0, 0⟩ ⟨iec559.nan⟩ ∧
      quantity.nth_power 2 (quantity.div_num (quantity.zero : quantity force_d iec559) 0) =
        .quan ⟨2, 2, -4, 0, 0, 0, 0⟩ ⟨iec559.nan⟩ ∧
      quantity.eq (⟨iec559.nan⟩ : quantity ⟨2, 2, -4, 0, 0, 0, 0⟩ iec559) ⟨iec559.nan⟩ = false ∧
      quantity.cube (quantity.div_num (quantity.zero : quantity force_d iec559) 0) =
        .quan ⟨3, 3, -6, 0, 0, 0, 0⟩ ⟨iec559.nan⟩ ∧
      quantity.nth_power 3 (quantity.div_num (quantity.zero : quantity force_d iec559) 0) =
        .quan ⟨3, 3, -6, 0, 0, 0, 0⟩ ⟨iec559.nan⟩ ∧
      quantity.eq (⟨iec559.nan⟩ : quantity ⟨3, 3, -6, 0, 0, 0, 0⟩ iec559) ⟨iec559.nan⟩ = false := by
  have hq : quantity.div_num (quantity.zero : quantity force_d iec559) 0 = ⟨iec559.nan⟩ := by
    simp [quantity.div_num, quantity.zero, iec559.div_def, iec559.zero_def, iec559.div]
  have h2 : detail.product.dims force_d force_d = ⟨2, 2, -4, 0, 0, 0, 0⟩ := by decide
  have h3 : detail.product.dims ⟨2, 2, -4, 0, 0, 0, 0⟩ force_d = ⟨3, 3, -6, 0, 0, 0, 0⟩ := by
    decide
  have hp2 : detail.power.dims force_d 2 = ⟨2, 2, -4, 0, 0, 0, 0⟩ := by decide
  have hp3 : detail.power.dims force_d 3 = ⟨3, 3, -6, 0, 0, 0, 0⟩ := by decide
  have hm : quantity.mul (⟨iec559.nan⟩ : quantity force_d iec559)
      (⟨iec559.nan⟩ : quantity force_d iec559) = .quan ⟨2, 2, -4, 0, 0, 0, 0⟩ ⟨iec559.nan⟩ := by
    rw [quantity.mul, h2, detail.collapse.construct_of_ne (by decide)]
    rfl
  rw [hq]
  refine ⟨rfl, hm, ?_, rfl, ?_, ?_, rfl⟩
  · rw [quantity.nth_power, hp2, detail.collapse.construct_of_ne (by decide)]
    simp [iec559.pow_def, iec559.intCast_def, iec559.pow]
  · rw [quantity.cube, hm]
    simp only []
    rw [quantity.mul, h3, detail.collapse.construct_of_ne (by decide)]
    rfl
  · rw [quantity.nth_power, hp3, detail.collapse.construct_of_ne (by decide)]
    simp [iec559.pow_def, iec559.intCast_def, iec559.pow]

/-- C20, amended: `square( q )` is `q * q` and, for a quantity `q` (dimension vector not
all-zero), `cube( q )` is `( q * q ) * q`; the enumerators of
`product< D, D >` are those of `power< D, 2 >` and the enumerators of
`product< product< D, D >, D >` those of `power< D, 3 >`, so that the types of
the returned expressions are the declared return types; the scalar of
`square( q )` is `x * x` and that of `cube( q )` is `x * x * x`, for every
scalar type; in exact arithmetic, over the real numbers, `square( q )` is
`nth_power< 2 >( q )` and `cube( q )` is `nth_power< 3 >( q )`, dimension and
scalar. -/
theorem C20_square_cube_fast_paths :
    (∀ D : dimensions,
      detail.product.dims D D = detail.power.dims D 2 ∧
      detail.product.dims (detail.product.dims D D) D = detail.power.dims D 3) ∧
    (∀ (τ : Type) (D : dimensions) (T : τ),
      detail.product.type D D T = detail.power.type D 2 T ∧
      detail.product.type (detail.product.dims D D) D T = detail.power.type D 3 T) ∧
    (∀ (α : Type) [Mul α] (D : dimensions) (x : α),
      quantity.square (⟨x⟩ : quantity D α) =
        quantity.mul (⟨x⟩ : quantity D α) (⟨x⟩ : quantity D α) ∧
      (D.is_all_zero = false →
        quantity.mul (⟨x⟩ : quantity D α) (⟨x⟩ : quantity D α) =
          .quan (detail.product.dims D D) ⟨x * x⟩ ∧
        quantity.cube (⟨x⟩ : quantity D α) =
          quantity.mul (⟨x * x⟩ : quantity (detail.product.dims D D) α) (⟨x⟩ : quantity D α) ∧
        quantity.cube (⟨x⟩ : quantity D α) = .quan (detail.power.dims D 3) ⟨x * x * x⟩)) ∧
    (∀ (D : dimensions) (x : ℝ),
      quantity.square (⟨x⟩ : quantity D ℝ) = quantity.nth_power 2 (⟨x⟩ : quantity D ℝ) ∧
      (D.is_all_zero = false →
        quantity.cube (⟨x⟩ : quantity D ℝ) = quantity.nth_power 3 (⟨x⟩ : quantity D ℝ))) := by
  have h2 : ∀ D : dimensions, detail.product.dims D D = detail.power.dims D 2 := by
    intro D
    cases D
    simp only [detail.product.dims, detail.power.dims, dimensions.mk.injEq]
    omega
  have h3 : ∀ D : dimensions,
      detail.product.dims (detail.product.dims D D) D = detail.power.dims D 3 := by
    intro D
    cases D
    simp only [detail.product.dims, detail.power.dims, dimensions.mk.injEq]
    omega
  have hcube : ∀ (α : Type) [Mul α] (D : dimensions) (x : α), D.is_all_zero = false →
      quantity.mul (⟨x⟩ : quantity D α) (⟨x⟩ : quantity D α) =
          .quan (detail.product.dims D D) ⟨x * x⟩ ∧
        quantity.cube (⟨x⟩ : quantity D α) =
          quantity.mul (⟨x * x⟩ : quantity (detail.product.dims D D) α) (⟨x⟩ : quantity D α) ∧
        quantity.cube (⟨x⟩ : quantity D α) = .quan (detail.power.dims D 3) ⟨x * x * x⟩ := by
    intro α _ D x hD
    have hne2 : detail.product.dims D D ≠ dimensionless_d := by
      rw [h2]
      exact detail.power.dims_ne_dimensionless hD (by decide)
    have hne3 : detail.product.dims (detail.product.dims D D) D ≠ dimensionless_d := by
      rw [h3]
      exact detail.power.dims_ne_dimensionless hD (by decide)
    have hm : quantity.mul (⟨x⟩ : quantity D α) (⟨x⟩ : quantity D α) =
        .quan (detail.product.dims D D) ⟨x * x⟩ := by
      rw [quantity.mul, detail.collapse.construct_of_ne hne2]
    have hc : quantity.cube (⟨x⟩ : quantity D α) =
        quantity.mul (⟨x * x⟩ : quantity (detail.product.dims D D) α) (⟨x⟩ : quantity D α) := by
      rw [quantity.cube, hm]
    refine ⟨hm, hc, ?_⟩
    rw [hc, quantity.mul, detail.collapse.construct_of_ne hne3, h3]
  refine ⟨fun D => ⟨h2 D, h3 D⟩, ?_, ?_, ?_⟩
  · intro τ D T
    exact ⟨by rw [detail.product.type, detail.power.type, h2],
      by rw [detail.product.type, detail.power.type, h3]⟩
  · intro α _ D x
    exact ⟨rfl, hcube α D x⟩
  · intro D x
    constructor
    · rw [quantity.square, quantity.mul, quantity.nth_power, h2, Real.rpow_intCast]
      norm_num [zpow_ofNat, pow_two]
    · intro hD
      rw [(hcube ℝ D x hD).2.2, quantity.nth_power,
        detail.collapse.construct_of_ne (detail.power.dims_ne_dimensionless hD (by decide)),
        Real.rpow_intCast]
      norm_num [zpow_ofNat, pow_succ]

/-- Witness of C20 for 2 newton, exponents (1,1,-2): both paths give 4 with
exponents (2,2,-4) and 8 with exponents (3,3,-6). -/
theorem C20_square_cube_witness :
    quantity.square (⟨2⟩ : quantity ⟨1, 1, -2, 0, 0, 0, 0⟩ ℝ) = .quan ⟨2, 2, -4, 0, 0, 0, 0⟩ ⟨4⟩ ∧
      quantity.nth_power 2 (⟨2⟩ : quantity ⟨1, 1, -2, 0, 0, 0, 0⟩ ℝ) =
        .quan ⟨2, 2, -4, 0, 0, 0, 0⟩ ⟨4⟩ ∧
      quantity.cube (⟨2⟩ : quantity ⟨1, 1, -2, 0, 0, 0, 0⟩ ℝ) = .quan ⟨3, 3, -6, 0, 0, 0, 0⟩ ⟨8⟩ ∧
      quantity.nth_power 3 (⟨2⟩ : quantity ⟨1, 1, -2, 0, 0, 0, 0⟩ ℝ) =
        .quan ⟨3, 3, -6, 0, 0, 0, 0⟩ ⟨8⟩ := by
  have hs : quantity.square (⟨2⟩ : quantity ⟨1, 1, -2, 0, 0, 0, 0⟩ ℝ) =
      .quan ⟨2, 2, -4, 0, 0, 0, 0⟩ ⟨4⟩ := by
    rw [(C20_square_cube_fast_paths.2.2.1 ℝ ⟨1, 1, -2, 0, 0, 0, 0⟩ 2).1,
      ((C20_square_cube_fast_paths.2.2.1 ℝ ⟨1, 1, -2, 0, 0, 0, 0⟩ 2).2 (by decide)).1]
    norm_num [detail.product.dims]
  have hc : quantity.cube (⟨2⟩ : quantity ⟨1, 1, -2, 0, 0, 0, 0⟩ ℝ) =
      .quan ⟨3, 3, -6, 0, 0, 0, 0⟩ ⟨8⟩ := by
    rw [((C20_square_cube_fast_paths.2.2.1 ℝ ⟨1, 1, -2, 0, 0, 0, 0⟩ 2).2 (by decide)).2.2]
    norm_num [detail.power.dims]
  refine ⟨hs, ?_, hc, ?_⟩
  · rw [← (C20_square_cube_fast_paths.2.2.2 ⟨1, 1, -2, 0, 0, 0, 0⟩ 2).1]
    exact hs
  · rw [← (C20_square_cube_fast_paths.2.2.2 ⟨1, 1, -2, 0, 0, 0, 0⟩ 2).2 (by decide)]
    exact hc

/-! ## The square root, the zero of a dimension -/

/-- C21: `sqrt( q )` is `nth_root< 2 >( q )`: the two calls are accepted or
rejected together, with the same diagnostic, and when accepted return the same
object; they are accepted exactly when every exponent of a quantity is even,
and then the result has the halved exponents and the scalar `pow( x, 1 / 2 )`. -/
theorem C21_sqrt_is_second_root (α : Type) [Pow α α] [One α] [Div α] [IntCast α]
    (D : dimensions) (x : α) :
    quantity.sqrt (⟨x⟩ : quantity D α) = quantity.nth_root 2 (⟨x⟩ : quantity D α) ∧
      ((∃ r, quantity.sqrt (⟨x⟩ : quantity D α) = .ok r) ↔
        (∃ r, quantity.nth_root 2 (⟨x⟩ : quantity D α) = .ok r)) ∧
      ((∃ r, quantity.sqrt (⟨x⟩ : quantity D α) = .ok r) ↔
        (2 ∣ D.dim1 ∧ 2 ∣ D.dim2 ∧ 2 ∣ D.dim3 ∧ 2 ∣ D.dim4 ∧ 2 ∣ D.dim5 ∧ 2 ∣ D.dim6 ∧
          2 ∣ D.dim7)) ∧
      ((2 ∣ D.dim1 ∧ 2 ∣ D.dim2 ∧ 2 ∣ D.dim3 ∧ 2 ∣ D.dim4 ∧ 2 ∣ D.dim5 ∧ 2 ∣ D.dim6 ∧
          2 ∣ D.dim7) →
        quantity.sqrt (⟨x⟩ : quantity D α) =
          .ok (detail.collapse.construct
            ⟨D.dim1 / 2, D.dim2 / 2, D.dim3 / 2, D.dim4 / 2, D.dim5 / 2, D.dim6 / 2, D.dim7 / 2⟩
            (x ^ ((1 : α) / ((2 : Int) : α))))) := by
  have h : quantity.sqrt (⟨x⟩ : quantity D α) = quantity.nth_root 2 (⟨x⟩ : quantity D α) := rfl
  have h2 : (2 : Int) ≠ 0 := by decide
  refine ⟨h, by rw [h], ?_, ?_⟩
  · rw [h]
    by_cases hd : (2 : Int) ∣ D.dim1 ∧ 2 ∣ D.dim2 ∧ 2 ∣ D.dim3 ∧ 2 ∣ D.dim4 ∧ 2 ∣ D.dim5 ∧
        2 ∣ D.dim6 ∧ 2 ∣ D.dim7
    · rw [quantity.nth_root_of_dvd _ h2 hd]
      exact ⟨fun _ => hd, fun _ => ⟨_, rfl⟩⟩
    · rw [quantity.nth_root_of_not_dvd _ h2 hd]
      constructor
      · rintro ⟨r, hr⟩
        cases hr
      · intro h'
        exact absurd h' hd
  · intro hd
    obtain ⟨h1, h2', h3, h4, h5, h6, h7⟩ := hd
    rw [h, quantity.nth_root_of_dvd _ h2 ⟨h1, h2', h3, h4, h5, h6, h7⟩,
      Int.tdiv_eq_ediv_of_dvd h1, Int.tdiv_eq_ediv_of_dvd h2', Int.tdiv_eq_ediv_of_dvd h3,
      Int.tdiv_eq_ediv_of_dvd h4, Int.tdiv_eq_ediv_of_dvd h5, Int.tdiv_eq_ediv_of_dvd h6,
      Int.tdiv_eq_ediv_of_dvd h7]

/-- Witness of C21: `sqrt` and `nth_root< 2 >` of 10000 m^4 are both 100 m^2. -/
theorem C21_sqrt_witness :
    quantity.sqrt (⟨10000⟩ : quantity ⟨4, 0, 0, 0, 0, 0, 0⟩ ℝ) =
        .ok (.quan ⟨2, 0, 0, 0, 0, 0, 0⟩ ⟨100⟩) ∧
      quantity.nth_root 2 (⟨10000⟩ : quantity ⟨4, 0, 0, 0, 0, 0, 0⟩ ℝ) =
        .ok (.quan ⟨2, 0, 0, 0, 0, 0, 0⟩ ⟨100⟩) := by
  have e2 : (10000 : ℝ) ^ ((1 : ℝ) / ((2 : Int) : ℝ)) = 100 := by
    have h := Real.pow_rpow_inv_natCast (show (0 : ℝ) ≤ 100 by norm_num)
      (show (2 : ℕ) ≠ 0 by norm_num)
    norm_num at h ⊢
    exact h
  have hs := (C21_sqrt_is_second_root ℝ ⟨4, 0, 0, 0, 0, 0, 0⟩ 10000).2.2.2 (by decide)
  have he := (C21_sqrt_is_second_root ℝ ⟨4, 0, 0, 0, 0, 0, 0⟩ 10000).1
  rw [e2] at hs
  have hs2 : quantity.sqrt (⟨10000⟩ : quantity ⟨4, 0, 0, 0, 0, 0, 0⟩ ℝ) =
      .ok (.quan ⟨2, 0, 0, 0, 0, 0, 0⟩ ⟨100⟩) := by
    rw [hs]
    simp [detail.collapse.construct, dimensionless_d]
  exact ⟨hs2, he ▸ hs2⟩

/-- C25 as stated fails for a quantity whose scalar is not finite: for `q` =
`meter() / 0.0`, whose scalar is the positive infinity, `0 * q` has the scalar
NaN and `zero() == 0 * q` is false. -/
theorem C25_infinite_scalar_counterexample :
    quantity.div_num (meter : quantity length_d iec559) 0 = ⟨iec559.pinf⟩ ∧
      quantity.num_mul 0 (quantity.div_num (meter : quantity length_d iec559) 0) =
        ⟨iec559.nan⟩ ∧
      (quantity.zero : quantity length_d iec559).eq
        (quantity.num_mul 0 (quantity.div_num (meter : quantity length_d iec559) 0)) = false := by
  have hm : quantity.div_num (meter : quantity length_d iec559) 0 = ⟨iec559.pinf⟩ := by
    simp [quantity.div_num, meter, iec559.div_def, iec559.zero_def, iec559.one_def, iec559.div]
  have hn : quantity.num_mul 0 (⟨iec559.pinf⟩ : quantity length_d iec559) = ⟨iec559.nan⟩ := by
    simp [quantity.num_mul, iec559.mul_def, iec559.zero_def, iec559.mul]
  rw [hm, hn]
  exact ⟨rfl, rfl, rfl⟩

/-- C25, amended: in exact arithmetic, and with a floating scalar type whenever
the scalar of `q` is finite, `zero()` equals `0 * q` for every quantity `q` of
its dimension; in particular `quantity< D >::zero()` equals `0 * u` for each of
the seven base units `u`, such as `0 * meter()`. -/
theorem C25_zero_is_zero_times_unit :
    (∀ (α : Type) [MulZeroOneClass α] [DecidableEq α],
      (∀ (D : dimensions) (q : quantity D α),
        (quantity.zero : quantity D α).eq (quantity.num_mul 0 q) = true ∧
        (quantity.zero : quantity D α) = quantity.num_mul 0 q) ∧
      (quantity.zero : quantity length_d α).eq (quantity.num_mul 0 meter) = true ∧
      (quantity.zero : quantity mass_d α).eq (quantity.num_mul 0 kilogram) = true ∧
      (quantity.zero : quantity time_interval_d α).eq (quantity.num_mul 0 second) = true ∧
      (quantity.zero : quantity electric_current_d α).eq (quantity.num_mul 0 ampere) = true ∧
      (quantity.zero : quantity thermodynamic_temperature_d α).eq (quantity.num_mul 0 kelvin) =
        true ∧
      (quantity.zero : quantity amount_of_substance_d α).eq (quantity.num_mul 0 mole) = true ∧
      (quantity.zero : quantity luminous_intensity_d α).eq (quantity.num_mul 0 candela) = true) ∧
    (∀ (D : dimensions) (r : ℚ),
      (quantity.zero : quantity D iec559).eq (quantity.num_mul 0 ⟨iec559.fin r⟩) = true) ∧
    (quantity.zero : quantity length_d iec559).eq (quantity.num_mul 0 meter) = true ∧
    (quantity.zero : quantity mass_d iec559).eq (quantity.num_mul 0 kilogram) = true ∧
    (quantity.zero : quantity time_interval_d iec559).eq (quantity.num_mul 0 second) = true ∧
    (quantity.zero : quantity electric_current_d iec559).eq (quantity.num_mul 0 ampere) = true ∧
    (quantity.zero : quantity thermodynamic_temperature_d iec559).eq
      (quantity.num_mul 0 kelvin) = true ∧
    (quantity.zero : quantity amount_of_substance_d iec559).eq (quantity.num_mul 0 mole) = true ∧
    (quantity.zero : quantity luminous_intensity_d iec559).eq (quantity.num_mul 0 candela) =
      true := by
  have hf : ∀ (D : dimensions) (r : ℚ),
      (quantity.zero : quantity D iec559).eq (quantity.num_mul 0 ⟨iec559.fin r⟩) = true := by
    intro D r
    simp [quantity.zero, quantity.num_mul, quantity.eq, iec559.mul_def, iec559.beq_def,
      iec559.zero_def, iec559.mul, iec559.beq]
  refine ⟨?_, hf, hf _ 1, hf _ 1, hf _ 1, hf _ 1, hf _ 1, hf _ 1, hf _ 1⟩
  intro α _ _
  have h : ∀ (D : dimensions) (q : quantity D α),
      (quantity.zero : quantity D α).eq (quantity.num_mul 0 q) = true ∧
      (quantity.zero : quantity D α) = quantity.num_mul 0 q := by
    intro D q
    simp [quantity.zero, quantity.num_mul, quantity.eq]
  exact ⟨h, (h _ _).1, (h _ _).1, (h _ _).1, (h _ _).1, (h _ _).1, (h _ _).1, (h _ _).1⟩

/-! ## Powers against roots, classification, typedefs -/

/-- C27: for a non-zero `N` every exponent of `power< D, N >` is a multiple of
`N`, so `root` of it with index `N` is accepted and has the exponents of `D`;
and whenever `root< D, N >` is accepted (its enumerators have values and
`all_even_multiples` is true), `power` of it with index `N` has the exponents
of `D`. -/
theorem C27_power_root_inverse (D : dimensions) (N : Int) :
    (N ≠ 0 →
      (N ∣ (detail.power.dims D N).dim1 ∧ N ∣ (detail.power.dims D N).dim2 ∧
        N ∣ (detail.power.dims D N).dim3 ∧ N ∣ (detail.power.dims D N).dim4 ∧
        N ∣ (detail.power.dims D N).dim5 ∧ N ∣ (detail.power.dims D N).dim6 ∧
        N ∣ (detail.power.dims D N).dim7) ∧
      detail.root.all_even_multiples (detail.power.dims D N) N = .ok true ∧
      detail.root.dims (detail.power.dims D N) N = .ok D) ∧
    (∀ R : dimensions, detail.root.all_even_multiples D N = .ok true →
      detail.root.dims D N = .ok R → detail.power.dims R N = D) := by
  constructor
  · intro hN
    have hd : N ∣ (detail.power.dims D N).dim1 ∧ N ∣ (detail.power.dims D N).dim2 ∧
        N ∣ (detail.power.dims D N).dim3 ∧ N ∣ (detail.power.dims D N).dim4 ∧
        N ∣ (detail.power.dims D N).dim5 ∧ N ∣ (detail.power.dims D N).dim6 ∧
        N ∣ (detail.power.dims D N).dim7 := by
      simp [detail.power.dims]
    refine ⟨hd, (detail.root.all_even_multiples_iff_dvd _ hN).mpr hd, ?_⟩
    rw [detail.root.dims_of_ne_zero _ hN]
    cases D
    simp [detail.power.dims, Int.mul_tdiv_cancel_left _ hN]
  · intro R he hr
    have hN : N ≠ 0 := by
      intro h0
      rw [h0, detail.root.dims_zero] at hr
      cases hr
    obtain ⟨h1, h2, h3, h4, h5, h6, h7⟩ := (detail.root.all_even_multiples_iff_dvd D hN).mp he
    rw [detail.root.dims_of_ne_zero D hN] at hr
    injection hr with hr
    rw [← hr]
    cases D
    simp only [detail.power.dims, dimensions.mk.injEq]
    exact ⟨Int.mul_tdiv_cancel' h1, Int.mul_tdiv_cancel' h2, Int.mul_tdiv_cancel' h3,
      Int.mul_tdiv_cancel' h4, Int.mul_tdiv_cancel' h5, Int.mul_tdiv_cancel' h6,
      Int.mul_tdiv_cancel' h7⟩

/-- Witness of C27: the second root of the second power of the dimension of the
watt is accepted and is the dimension of the watt, exponents (2,1,-3); and
`sqrt( square( 3 W ) + square( 4 W ) )` is 5 W. -/
theorem C27_power_root_witness :
    detail.root.dims (detail.power.dims power_d 2) 2 = .ok ⟨2, 1, -3, 0, 0, 0, 0⟩ ∧
      detail.power.dims ⟨2, 1, -3, 0, 0, 0, 0⟩ 2 = ⟨4, 2, -6, 0, 0, 0, 0⟩ ∧
      value.add (quantity.square (⟨3⟩ : quantity power_d ℝ))
          (quantity.square (⟨4⟩ : quantity power_d ℝ)) =
        .ok (.quan ⟨4, 2, -6, 0, 0, 0, 0⟩ ⟨25⟩) ∧
      quantity.sqrt (⟨25⟩ : quantity ⟨4, 2, -6, 0, 0, 0, 0⟩ ℝ) = .ok (.quan power_d ⟨5⟩) := by
  have e : (25 : ℝ) ^ ((1 : ℝ) / ((2 : Int) : ℝ)) = 5 := by
    have h := Real.pow_rpow_inv_natCast (show (0 : ℝ) ≤ 5 by norm_num)
      (show (2 : ℕ) ≠ 0 by norm_num)
    norm_num at h ⊢
    exact h
  refine ⟨((C27_power_root_inverse power_d 2).1 (by decide)).2.2, ?_, ?_, ?_⟩
  · exact (C27_power_root_inverse ⟨4, 2, -6, 0, 0, 0, 0⟩ 2).2 ⟨2, 1, -3, 0, 0, 0, 0⟩ rfl rfl
  · simp only [quantity.square, quantity.mul, detail.collapse.construct, detail.product.dims,
      power_d, dimensionless_d, value.add, quantity.add]
    norm_num
  · have hs : quantity.sqrt (⟨25⟩ : quantity ⟨4, 2, -6, 0, 0, 0, 0⟩ ℝ) =
        quantity.nth_root 2 (⟨25⟩ : quantity ⟨4, 2, -6, 0, 0, 0, 0⟩ ℝ) := rfl
    rw [hs, quantity.nth_root_of_dvd _ (by decide) (by decide), e]
    simp [detail.collapse.construct, dimensionless_d, power_d]
    decide

/-- C29: `is_all_zero` holds iff the seven exponents are 0; `is_base` holds iff
one exponent is 1 and the other six are 0, that is iff the vector is one of the
seven base dimensions; `operator==` holds iff the seven exponents agree and
`operator!=` is its negation.  So (1,0,0,0,0,0,0) is a base dimension and
(2,0,0,..), (0,0,-1,..), (2,-1,0,..) and the all-zero vector are not. -/
theorem C29_classification_predicates (D R : dimensions) :
    (D.is_all_zero = true ↔
      D.dim1 = 0 ∧ D.dim2 = 0 ∧ D.dim3 = 0 ∧ D.dim4 = 0 ∧ D.dim5 = 0 ∧ D.dim6 = 0 ∧ D.dim7 = 0) ∧
    (D.is_base = true ↔
      D = ⟨1, 0, 0, 0, 0, 0, 0⟩ ∨ D = ⟨0, 1, 0, 0, 0, 0, 0⟩ ∨ D = ⟨0, 0, 1, 0, 0, 0, 0⟩ ∨
      D = ⟨0, 0, 0, 1, 0, 0, 0⟩ ∨ D = ⟨0, 0, 0, 0, 1, 0, 0⟩ ∨ D = ⟨0, 0, 0, 0, 0, 1, 0⟩ ∨
      D = ⟨0, 0, 0, 0, 0, 0, 1⟩) ∧
    (D.eq R = true ↔
      D.dim1 = R.dim1 ∧ D.dim2 = R.dim2 ∧ D.dim3 = R.dim3 ∧ D.dim4 = R.dim4 ∧
      D.dim5 = R.dim5 ∧ D.dim6 = R.dim6 ∧ D.dim7 = R.dim7) ∧
    (D.eq R = true ↔ D = R) ∧
    D.ne R = !(D.eq R) ∧
    (dimensions.is_base ⟨1, 0, 0, 0, 0, 0, 0⟩ = true ∧
      dimensions.is_base ⟨2, 0, 0, 0, 0, 0, 0⟩ = false ∧
      dimensions.is_base ⟨0, 0, -1, 0, 0, 0, 0⟩ = false ∧
      dimensions.is_base ⟨2, -1, 0, 0, 0, 0, 0⟩ = false ∧
      dimensions.is_base ⟨0, 0, 0, 0, 0, 0, 0⟩ = false) := by
  refine ⟨?_, ?_, ?_, ?_, rfl, by decide⟩
  · rw [dimensions.is_all_zero_iff, dimensions.eq_dimensionless_iff]
  · cases D with
    | mk d1 d2 d3 d4 d5 d6 d7 =>
      simp only [dimensions.is_base, bne_iff_ne, ne_eq, ite_not, Bool.and_eq_true, beq_iff_eq,
        dimensions.mk.injEq]
      split_ifs <;> omega
  · simp only [dimensions.eq, Bool.and_eq_true, beq_iff_eq, and_assoc]
  · cases D
    cases R
    simp only [dimensions.eq, Bool.and_eq_true, beq_iff_eq, and_assoc, dimensions.mk.injEq]

/-- C30 fails on the typedef: `molar_entropy_d` carries the exponent -1 of the
fourth dimension, electric current, and 0 of the fifth, thermodynamic
temperature, whereas joule per mole kelvin, `energy_d` divided by
`amount_of_substance_d` and by `thermodynamic_temperature_d`, is
(2,1,-2,0,-1,-1,0), `heat_capacity_d` with the sixth exponent lowered by one. -/
theorem C30_molar_entropy_typedef :
    molar_entropy_d = ⟨2, 1, -2, -1, 0, -1, 0⟩ ∧
      detail.quotient.dims (detail.quotient.dims energy_d amount_of_substance_d)
        thermodynamic_temperature_d = ⟨2, 1, -2, 0, -1, -1, 0⟩ ∧
      ({ heat_capacity_d with dim6 := heat_capacity_d.dim6 - 1 } : dimensions) =
        ⟨2, 1, -2, 0, -1, -1, 0⟩ ∧
      molar_entropy_d ≠
        detail.quotient.dims (detail.quotient.dims energy_d amount_of_substance_d)
          thermodynamic_temperature_d ∧
      molar_entropy_d =
        detail.quotient.dims (detail.quotient.dims energy_d amount_of_substance_d)
          electric_current_d := by
  decide

/-! ## The SI units -/

section units_auxiliary

variable {α : Type} [Field α]

theorem newton_eq : (newton : Except compile_error (quantity force_d α)) = .ok ⟨1⟩ := by
  simp [newton, value.mul, value.div, value.convert, quantity.square, quantity.mul, quantity.div,
    detail.collapse.construct, detail.product.dims, detail.quotient.dims, dimensionless_d,
    length_d, mass_d, time_interval_d, force_d, meter, kilogram, second]

theorem joule_eq : (joule : Except compile_error (quantity energy_d α)) = .ok ⟨1⟩ := by
  simp [joule, newton_eq, bind, Except.bind, value.mul, value.convert, quantity.mul,
    detail.collapse.construct, detail.product.dims, dimensionless_d, length_d, force_d, energy_d,
    meter]

theorem watt_eq : (watt : Except compile_error (quantity power_d α)) = .ok ⟨1⟩ := by
  simp [watt, joule_eq, bind, Except.bind, value.div, value.convert, quantity.div,
    detail.collapse.construct, detail.quotient.dims, dimensionless_d, time_interval_d, energy_d,
    power_d, second]

theorem coulomb_eq :
    (coulomb : Except compile_error (quantity electric_charge_d α)) = .ok ⟨1⟩ := by
  simp [coulomb, value.mul, value.convert, quantity.mul, detail.collapse.construct,
    detail.product.dims, dimensionless_d, time_interval_d, electric_current_d,
    electric_charge_d, second, ampere]

theorem volt_eq : (volt : Except compile_error (quantity electric_potential_d α)) = .ok ⟨1⟩ := by
  simp [volt, watt_eq, bind, Except.bind, value.div, value.convert, quantity.div,
    detail.collapse.construct, detail.quotient.dims, dimensionless_d, electric_current_d,
    power_d, electric_potential_d, ampere]

theorem weber_eq : (weber : Except compile_error (quantity magnetic_flux_d α)) = .ok ⟨1⟩ := by
  simp [weber, volt_eq, bind, Except.bind, value.mul, value.convert, quantity.mul,
    detail.collapse.construct, detail.product.dims, dimensionless_d, time_interval_d,
    electric_potential_d, magnetic_flux_d, second]

theorem lumen_eq : (lumen : Except compile_error (quantity luminous_flux_d α)) = .ok ⟨1⟩ := by
  simp [lumen, value.mul, value.convert, quantity.mul_num, luminous_intensity_d,
    luminous_flux_d, candela, steradian]

end units_auxiliary

/-- C26: over a field, each of the seven base units is the quantity of its
base dimension with scalar 1, and each derived SI unit function returns, with
the conversion to its declared return type accepted (the dimension computed by
the returned expression is the declared one), the quantity with scalar 1; the
declared dimensions of newton, volt, farad, henry and lux are (1,1,-2,0,0,0,0),
(2,1,-3,-1,0,0,0), (-2,-1,4,2,0,0,0), (2,1,-2,-2,0,0,0) and (-2,0,0,0,0,0,1). -/
theorem C26_coherent_si_units (α : Type) [Field α] :
    ((meter : quantity length_d α) = ⟨1⟩ ∧ (kilogram : quantity mass_d α) = ⟨1⟩ ∧
      (second : quantity time_interval_d α) = ⟨1⟩ ∧
      (ampere : quantity electric_current_d α) = ⟨1⟩ ∧
      (kelvin : quantity thermodynamic_temperature_d α) = ⟨1⟩ ∧
      (mole : quantity amount_of_substance_d α) = ⟨1⟩ ∧
      (candela : quantity luminous_intensity_d α) = ⟨1⟩) ∧
    ((newton : Except compile_error (quantity force_d α)) = .ok ⟨1⟩ ∧
      (pascal : Except compile_error (quantity pressure_d α)) = .ok ⟨1⟩ ∧
      (joule : Except compile_error (quantity energy_d α)) = .ok ⟨1⟩ ∧
      (watt : Except compile_error (quantity power_d α)) = .ok ⟨1⟩ ∧
      (coulomb : Except compile_error (quantity electric_charge_d α)) = .ok ⟨1⟩ ∧
      (volt : Except compile_error (quantity electric_potential_d α)) = .ok ⟨1⟩ ∧
      (farad : Except compile_error (quantity capacitance_d α)) = .ok ⟨1⟩ ∧
      (ohm : Except compile_error (quantity electric_resistance_d α)) = .ok ⟨1⟩ ∧
      (siemens : Except compile_error (quantity electric_conductance_d α)) = .ok ⟨1⟩ ∧
      (weber : Except compile_error (quantity magnetic_flux_d α)) = .ok ⟨1⟩ ∧
      (tesla : Except compile_error (quantity magnetic_flux_density_d α)) = .ok ⟨1⟩ ∧
      (henry : Except compile_error (quantity inductance_d α)) = .ok ⟨1⟩ ∧
      (degree_celsius : Except compile_error (quantity thermodynamic_temperature_d α)) =
        .ok ⟨1⟩ ∧
      (lumen : Except compile_error (quantity luminous_flux_d α)) = .ok ⟨1⟩ ∧
      (lux : Except compile_error (quantity illuminance_d α)) = .ok ⟨1⟩ ∧
      (becquerel : Except compile_error (quantity activity_of_a_nuclide_d α)) = .ok ⟨1⟩ ∧
      (gray : Except compile_error (quantity absorbed_dose_d α)) = .ok ⟨1⟩ ∧
      (sievert : Except compile_error (quantity dose_equivalent_d α)) = .ok ⟨1⟩ ∧
      (hertz : Except compile_error (quantity frequency_d α)) = .ok ⟨1⟩) ∧
    (force_d = ⟨1, 1, -2, 0, 0, 0, 0⟩ ∧ electric_potential_d = ⟨2, 1, -3, -1, 0, 0, 0⟩ ∧
      capacitance_d = ⟨-2, -1, 4, 2, 0, 0, 0⟩ ∧ inductance_d = ⟨2, 1, -2, -2, 0, 0, 0⟩ ∧
      illuminance_d = ⟨-2, 0, 0, 0, 0, 0, 1⟩) := by
  refine ⟨⟨rfl, rfl, rfl, rfl, rfl, rfl, rfl⟩,
    ⟨newton_eq, ?_, joule_eq, watt_eq, coulomb_eq, volt_eq, ?_, ?_, ?_, weber_eq, ?_, ?_, ?_,
      lumen_eq, ?_, ?_, ?_, ?_, ?_⟩,
    ⟨rfl, rfl, rfl, rfl, rfl⟩⟩
  · simp [pascal, newton_eq, bind, Except.bind, value.div, value.convert, quantity.square,
      quantity.mul, quantity.div, detail.collapse.construct, detail.product.dims,
      detail.quotient.dims, dimensionless_d, length_d, force_d, pressure_d, meter]
  · simp [farad, coulomb_eq, volt_eq, bind, Except.bind, value.div, value.convert,
      quantity.div, detail.collapse.construct, detail.quotient.dims, dimensionless_d,
      electric_charge_d, electric_potential_d, capacitance_d]
  · simp [ohm, volt_eq, bind, Except.bind, value.div, value.convert, quantity.div,
      detail.collapse.construct, detail.quotient.dims, dimensionless_d, electric_current_d,
      electric_potential_d, electric_resistance_d, ampere]
  · simp [siemens, volt_eq, bind, Except.bind, value.div, value.convert, quantity.div,
      detail.collapse.construct, detail.quotient.dims, dimensionless_d, electric_current_d,
      electric_potential_d, electric_conductance_d, ampere]
  · simp [tesla, weber_eq, bind, Except.bind, value.div, value.convert, quantity.square,
      quantity.mul, quantity.div, detail.collapse.construct, detail.product.dims,
      detail.quotient.dims, dimensionless_d, length_d, magnetic_flux_d,
      magnetic_flux_density_d, meter]
  · simp [henry, weber_eq, bind, Except.bind, value.div, value.convert, quantity.div,
      detail.collapse.construct, detail.quotient.dims, dimensionless_d, electric_current_d,
      magnetic_flux_d, inductance_d, ampere]
  · simp [degree_celsius, value.convert, kelvin]
  · simp [lux, lumen_eq, bind, Except.bind, value.div, value.convert, quantity.div,
      detail.collapse.construct, detail.quotient.dims, dimensionless_d, length_d,
      luminous_flux_d, illuminance_d, meter]
  · simp [becquerel, value.div, value.convert, quantity.num_div, detail.collapse.construct,
      detail.reciprocal.dims, dimensionless_d, time_interval_d, activity_of_a_nuclide_d, second]
  · simp [gray, joule_eq, bind, Except.bind, value.div, value.convert, quantity.div,
      detail.collapse.construct, detail.quotient.dims, dimensionless_d, mass_d, energy_d,
      absorbed_dose_d, kilogram]
  · simp [sievert, joule_eq, bind, Except.bind, value.div, value.convert, quantity.div,
      detail.collapse.construct, detail.quotient.dims, dimensionless_d, mass_d, energy_d,
      dose_equivalent_d, kilogram]
  · simp [hertz, value.div, value.convert, quantity.num_div, detail.collapse.construct,
      detail.reciprocal.dims, dimensionless_d, time_interval_d, frequency_d, second]

/-! ## The prefixes -/

/-- C22: `prefix( name )` returns the factor `10 ^ e` for each of the twenty
names of its table, which are case-sensitive: "k" gives 1000, "m" gives 0.001,
and the exponents are m:-3, k:3, u:-6, M:6, n:-9, G:9, p:-12, T:12, f:-15, P:15,
a:-18, E:18, z:-21, Z:21, y:-24, Y:24, h:2, da:1, d:-1, c:-2. -/
theorem C22_prefix_factors :
    (prefix_ "k" = .ok 1000 ∧ prefix_ "m" = .ok (1 / 1000)) ∧
    prefix_ "m" = .ok ((10 : ℚ) ^ (-3 : Int)) ∧ prefix_ "k" = .ok ((10 : ℚ) ^ (3 : Int)) ∧
    prefix_ "u" = .ok ((10 : ℚ) ^ (-6 : Int)) ∧ prefix_ "M" = .ok ((10 : ℚ) ^ (6 : Int)) ∧
    prefix_ "n" = .ok ((10 : ℚ) ^ (-9 : Int)) ∧ prefix_ "G" = .ok ((10 : ℚ) ^ (9 : Int)) ∧
    prefix_ "p" = .ok ((10 : ℚ) ^ (-12 : Int)) ∧ prefix_ "T" = .ok ((10 : ℚ) ^ (12 : Int)) ∧
    prefix_ "f" = .ok ((10 : ℚ) ^ (-15 : Int)) ∧ prefix_ "P" = .ok ((10 : ℚ) ^ (15 : Int)) ∧
    prefix_ "a" = .ok ((10 : ℚ) ^ (-18 : Int)) ∧ prefix_ "E" = .ok ((10 : ℚ) ^ (18 : Int)) ∧
    prefix_ "z" = .ok ((10 : ℚ) ^ (-21 : Int)) ∧ prefix_ "Z" = .ok ((10 : ℚ) ^ (21 : Int)) ∧
    prefix_ "y" = .ok ((10 : ℚ) ^ (-24 : Int)) ∧ prefix_ "Y" = .ok ((10 : ℚ) ^ (24 : Int)) ∧
    prefix_ "h" = .ok ((10 : ℚ) ^ (2 : Int)) ∧ prefix_ "da" = .ok ((10 : ℚ) ^ (1 : Int)) ∧
    prefix_ "d" = .ok ((10 : ℚ) ^ (-1 : Int)) ∧ prefix_ "c" = .ok ((10 : ℚ) ^ (-2 : Int)) := by
  refine ⟨⟨?_, ?_⟩, ?_, ?_, ?_, ?_, ?_, ?_, ?_, ?_, ?_, ?_, ?_, ?_, ?_, ?_, ?_, ?_, ?_, ?_, ?_,
    ?_⟩ <;>
  · simp only [prefix_, prefix_.loop, prefix_.table, String.reduceEq, if_true, if_false, milli,
      kilo, micro, mega, nano, giga, pico, tera, femto, peta, atto, exa, zepto, zetta, yocto,
      yotta, hecto, deka, deci, centi]
    norm_num

theorem prefix_.loop_of_not_mem (name : String) (t : List (String × ℚ))
    (h : name ∉ t.map Prod.fst) :
    prefix_.loop name t = .error ⟨"quantity: unrecognized prefix \x27" ++ name ++ "\x27"⟩ := by
  induction t with
  | nil => rfl
  | cons p rest ih =>
    simp only [List.map_cons, List.mem_cons, not_or] at h
    rw [prefix_.loop, if_neg h.1]
    exact ih h.2

theorem prefix_.loop_of_mem (name : String) (t : List (String × ℚ))
    (h : name ∈ t.map Prod.fst) : ∃ v, prefix_.loop name t = .ok v := by
  induction t with
  | nil => simp at h
  | cons p rest ih =>
    by_cases hp : name = p.1
    · exact ⟨p.2, by rw [prefix_.loop, if_pos hp]⟩
    · simp only [List.map_cons, List.mem_cons, hp, false_or] at h
      obtain ⟨v, hv⟩ := ih h
      exact ⟨v, by rw [prefix_.loop, if_neg hp]; exact hv⟩

/-- C23: `prefix( name )` throws `prefix_error` if and only if `name` is not one
of the twenty names of the table; the text of the exception is
`quantity: unrecognized prefix '`, the offending name and a closing quote; for
each of the twenty names a factor is returned and nothing is thrown. -/
theorem C23_prefix_error_iff_unknown (name : String) :
    ((∃ e, prefix_ name = .error e) ↔
      name ∉ ["m", "k", "u", "M", "n", "G", "p", "T", "f", "P", "a", "E", "z", "Z", "y", "Y",
        "h", "da", "d", "c"]) ∧
    ((∃ e, prefix_ name = .error e) →
      prefix_ name = .error ⟨"quantity: unrecognized prefix \x27" ++ name ++ "\x27"⟩) ∧
    (name ∈ ["m", "k", "u", "M", "n", "G", "p", "T", "f", "P", "a", "E", "z", "Z", "y", "Y",
        "h", "da", "d", "c"] → ∃ v, prefix_ name = .ok v) := by
  have ht : prefix_.table.map Prod.fst =
      ["m", "k", "u", "M", "n", "G", "p", "T", "f", "P", "a", "E", "z", "Z", "y", "Y", "h", "da",
        "d", "c"] := rfl
  rw [← ht]
  by_cases h : name ∈ prefix_.table.map Prod.fst
  · obtain ⟨v, hv⟩ := prefix_.loop_of_mem name prefix_.table h
    have hv2 : prefix_ name = .ok v := hv
    refine ⟨⟨?_, fun hn => absurd h hn⟩, ?_, fun _ => ⟨v, hv2⟩⟩
    · rintro ⟨e, he⟩
      rw [hv2] at he
      cases he
    · rintro ⟨e, he⟩
      rw [hv2] at he
      cases he
  · have he : prefix_ name =
        .error ⟨"quantity: unrecognized prefix \x27" ++ name ++ "\x27"⟩ :=
      prefix_.loop_of_not_mem name prefix_.table h
    exact ⟨⟨fun _ => h, fun _ => ⟨_, he⟩⟩, fun _ => he, fun hm => absurd hm h⟩

/-- Witness of C23: the names "x", "K" and the empty name are rejected, with
the texts `quantity: unrecognized prefix 'x'`, `quantity: unrecognized prefix 'K'`
and `quantity: unrecognized prefix ''`, and "k" is accepted. -/
theorem C23_prefix_error_witness :
    prefix_ "x" = .error ⟨"quantity: unrecognized prefix \x27x\x27"⟩ ∧
      prefix_ "K" = .error ⟨"quantity: unrecognized prefix \x27K\x27"⟩ ∧
      prefix_ "" = .error ⟨"quantity: unrecognized prefix \x27\x27"⟩ ∧
      (∃ v, prefix_ "k" = .ok v) :=
  ⟨((C23_prefix_error_iff_unknown "x").2.1
      ((C23_prefix_error_iff_unknown "x").1.mpr (by decide))).trans (congrArg Except.error (congrArg prefix_error.mk (by decide))),
    ((C23_prefix_error_iff_unknown "K").2.1
      ((C23_prefix_error_iff_unknown "K").1.mpr (by decide))).trans (congrArg Except.error (congrArg prefix_error.mk (by decide))),
    ((C23_prefix_error_iff_unknown "").2.1
      ((C23_prefix_error_iff_unknown "").1.mpr (by decide))).trans (congrArg Except.error (congrArg prefix_error.mk (by decide))),
    (C23_prefix_error_iff_unknown "k").2.2 (by decide)⟩

/-! ## The unit symbol -/

theorem String.intercalate_go_append_singleton (s acc e : String) (L : List String) :
    String.intercalate.go acc s (L ++ [e]) = String.intercalate.go acc s L ++ s ++ e := by
  induction L generalizing acc with
  | nil => rfl
  | cons a as ih =>
    simp only [List.cons_append, String.intercalate.go]
    exact ih _

theorem String.intercalate_append_singleton (s e : String) (L : List String) :
    s.intercalate (L ++ [e]) = if L = [] then e else s.intercalate L ++ s ++ e := by
  cases L with
  | nil => rfl
  | cons a as =>
    simp only [List.cons_append, String.intercalate, reduceCtorEq, if_false]
    exact String.intercalate_go_append_singleton s a e as

/-- One call of `emit_dim` on a stream that holds the entries `L` separated by
spaces, with `first` set iff there is none yet: the entry of a non-zero
exponent is added. -/
theorem unit_info.emit_dim_entries (L : List String) (label : String) (exp : Int) :
    unit_info.emit_dim (" ".intercalate L) label exp L.isEmpty =
      (" ".intercalate (if exp = 0 then L else L ++ [unit_info.entry_spec label exp]),
        (if exp = 0 then L else L ++ [unit_info.entry_spec label exp]).isEmpty) := by
  by_cases h0 : exp = 0
  · simp [unit_info.emit_dim, h0]
  · have hb : (exp == 0) = false := by simpa using h0
    simp only [unit_info.emit_dim, hb, if_neg h0, Bool.false_eq_true, if_false,
      String.intercalate_append_singleton, List.isEmpty_cons,
      Bool.and_false]
    cases L with
    | nil =>
      simp only [List.isEmpty_nil, if_true, String.intercalate, String.empty_append,
        unit_info.entry_spec]
      by_cases h1 : exp = 1
      · simp [h1]
      · by_cases hg : exp > 1
        · simp [h1, hg, String.append_assoc]
        · simp [h1, hg]
    | cons a as =>
      simp only [List.isEmpty_cons, Bool.false_eq_true, if_false, reduceCtorEq,
        unit_info.entry_spec]
      by_cases h1 : exp = 1
      · simp [h1, String.append_assoc]
      · by_cases hg : exp > 1
        · simp [h1, hg, String.append_assoc]
        · simp [h1, hg, String.append_assoc]

/-- Adding the entries of the non-zero exponents one after the other gives the
entries of the list without its zero exponents. -/
theorem unit_info.entries_foldl (ps : List (String × Int)) (L : List String) :
    ps.foldl (fun L e => if e.2 = 0 then L else L ++ [unit_info.entry_spec e.1 e.2]) L =
      L ++ (ps.filter (fun e => e.2 ≠ 0)).map (fun e => unit_info.entry_spec e.1 e.2) := by
  induction ps generalizing L with
  | nil => simp
  | cons p rest ih =>
    rw [List.foldl_cons, ih]
    by_cases h : p.2 = 0
    · simp [h]
    · simp [h]

/-- The symbol that `symbol()` builds call by call is the text of the
specification. -/
theorem unit_info.symbol_eq_symbol_spec (D : dimensions) :
    unit_info.symbol D = unit_info.symbol_spec D := by
  cases D with
  | mk d1 d2 d3 d4 d5 d6 d7 =>
    obtain ⟨L1, hL1⟩ : ∃ L1 : List String,
        L1 = if d1 = 0 then ([] : List String) else ([] : List String) ++ [unit_info.entry_spec "m" d1] :=
      ⟨_, rfl⟩
    have h1 : unit_info.emit_dim "" "m" d1 true =
        (" ".intercalate L1, L1.isEmpty) := by
      rw [hL1]
      exact unit_info.emit_dim_entries ([] : List String) "m" d1
    obtain ⟨L2, hL2⟩ : ∃ L2 : List String,
        L2 = if d2 = 0 then L1 else L1 ++ [unit_info.entry_spec "kg" d2] :=
      ⟨_, rfl⟩
    have h2 : unit_info.emit_dim (" ".intercalate L1) "kg" d2 L1.isEmpty =
        (" ".intercalate L2, L2.isEmpty) := by
      rw [hL2]
      exact unit_info.emit_dim_entries L1 "kg" d2
    obtain ⟨L3, hL3⟩ : ∃ L3 : List String,
        L3 = if d3 = 0 then L2 else L2 ++ [unit_info.entry_spec "s" d3] :=
      ⟨_, rfl⟩
    have h3 : unit_info.emit_dim (" ".intercalate L2) "s" d3 L2.isEmpty =
        (" ".intercalate L3, L3.isEmpty) := by
      rw [hL3]
      exact unit_info.emit_dim_entries L2 "s" d3
    obtain ⟨L4, hL4⟩ : ∃ L4 : List String,
        L4 = if d4 = 0 then L3 else L3 ++ [unit_info.entry_spec "A" d4] :=
      ⟨_, rfl⟩
    have h4 : unit_info.emit_dim (" ".intercalate L3) "A" d4 L3.isEmpty =
        (" ".intercalate L4, L4.isEmpty) := by
      rw [hL4]
      exact unit_info.emit_dim_entries L3 "A" d4
    obtain ⟨L5, hL5⟩ : ∃ L5 : List String,
        L5 = if d5 = 0 then L4 else L4 ++ [unit_info.entry_spec "K" d5] :=
      ⟨_, rfl⟩
    have h5 : unit_info.emit_dim (" ".intercalate L4) "K" d5 L4.isEmpty =
        (" ".intercalate L5, L5.isEmpty) := by
      rw [hL5]
      exact unit_info.emit_dim_entries L4 "K" d5
    obtain ⟨L6, hL6⟩ : ∃ L6 : List String,
        L6 = if d6 = 0 then L5 else L5 ++ [unit_info.entry_spec "mol" d6] :=
      ⟨_, rfl⟩
    have h6 : unit_info.emit_dim (" ".intercalate L5) "mol" d6 L5.isEmpty =
        (" ".intercalate L6, L6.isEmpty) := by
      rw [hL6]
      exact unit_info.emit_dim_entries L5 "mol" d6
    obtain ⟨L7, hL7⟩ : ∃ L7 : List String,
        L7 = if d7 = 0 then L6 else L6 ++ [unit_info.entry_spec "cd" d7] :=
      ⟨_, rfl⟩
    have h7 : unit_info.emit_dim (" ".intercalate L6) "cd" d7 L6.isEmpty =
        (" ".intercalate L7, L7.isEmpty) := by
      rw [hL7]
      exact unit_info.emit_dim_entries L6 "cd" d7
    have hs : unit_info.symbol ⟨d1, d2, d3, d4, d5, d6, d7⟩ = " ".intercalate L7 := by
      simp only [unit_info.symbol, h1, h2, h3, h4, h5, h6, h7]
    rw [hs, unit_info.symbol_spec]
    congr 1
    subst hL7 hL6 hL5 hL4 hL3 hL2 hL1
    have hf := unit_info.entries_foldl
      [("m", d1), ("kg", d2), ("s", d3), ("A", d4), ("K", d5), ("mol", d6), ("cd", d7)] []
    simp only [List.foldl, List.nil_append] at hf
    simp only [List.nil_append]
    exact hf

/-- C24: for every dimension vector the symbol built by `unit_info< D >::symbol()`
is the text of the specification: the entries of the non-zero exponents in the
order m, kg, s, A, K, mol, cd, joined by single spaces with none in front or
behind, an entry being the label alone for the exponent 1, the label, "+" and
the exponent when it is greater than 1, and the label and the exponent with
its minus sign when it is negative.  So (2,0,-1) gives "m+2 s-1", (1,1,-2)
gives "m kg s-2", (2,2,-4) gives "m+2 kg+2 s-4", (-1,0,1) gives "m-1 s" and
(0,0,-1,1) gives "s-1 A". -/
theorem C24_unit_symbol_format :
    (∀ D : dimensions, unit_info.symbol D = unit_info.symbol_spec D) ∧
    (∀ (label : String) (exp : Int),
      (exp = 1 → unit_info.entry_spec label exp = label) ∧
      (exp > 1 → unit_info.entry_spec label exp = label ++ "+" ++ toString exp) ∧
      (exp < 0 → unit_info.entry_spec label exp = label ++ toString exp)) ∧
    unit_info.symbol ⟨2, 0, -1, 0, 0, 0, 0⟩ = "m+2 s-1" ∧
    unit_info.symbol ⟨1, 1, -2, 0, 0, 0, 0⟩ = "m kg s-2" ∧
    unit_info.symbol ⟨2, 2, -4, 0, 0, 0, 0⟩ = "m+2 kg+2 s-4" ∧
    unit_info.symbol ⟨-1, 0, 1, 0, 0, 0, 0⟩ = "m-1 s" ∧
    unit_info.symbol ⟨0, 0, -1, 1, 0, 0, 0⟩ = "s-1 A" := by
  refine ⟨?_, ?_, by decide, by decide, by decide, by decide, by decide⟩
  · exact unit_info.symbol_eq_symbol_spec
  · intro label exp
    refine ⟨fun h => by simp [unit_info.entry_spec, h], fun h => ?_, fun h => ?_⟩
    · have h1 : exp ≠ 1 := by omega
      simp [unit_info.entry_spec, h, h1]
    · have h1 : exp ≠ 1 := by omega
      have h2 : ¬ exp > 1 := by omega
      simp [unit_info.entry_spec, h1, h2]

/-- Witness of C24: the entries of m with the exponents 1, 2 and -1 are "m",
"m+2" and "m-1", and the symbol of (2,2,-4) is the text of the specification. -/
theorem C24_unit_symbol_witness :
    unit_info.entry_spec "m" 1 = "m" ∧ unit_info.entry_spec "m" 2 = "m+2" ∧
      unit_info.entry_spec "m" (-1) = "m-1" ∧
      unit_info.symbol ⟨2, 2, -4, 0, 0, 0, 0⟩ = unit_info.symbol_spec ⟨2, 2, -4, 0, 0, 0, 0⟩ :=
  ⟨(C24_unit_symbol_format.2.1 "m" 1).1 rfl,
    ((C24_unit_symbol_format.2.1 "m" 2).2.1 (by decide)).trans (by decide),
    ((C24_unit_symbol_format.2.1 "m" (-1)).2.2 (by decide)).trans (by decide),
    C24_unit_symbol_format.1 _⟩


/-- C37: the exponent vectors of `power`, `product`, `quotient` and `reciprocal`
obey the laws of exponents: the power of a product is the product of the
powers, the product of two powers of `A` is the power with the sum of the
indices, a power of a power is the power with the product of the indices, a
quotient is the product with the reciprocal, and the reciprocal is the power
with index -1. -/
theorem C37_power_homomorphism (A B : dimensions) (M N : Int) :
    detail.power.dims (detail.product.dims A B) N =
        detail.product.dims (detail.power.dims A N) (detail.power.dims B N) ∧
      detail.product.dims (detail.power.dims A M) (detail.power.dims A N) =
        detail.power.dims A (M + N) ∧
      detail.power.dims (detail.power.dims A M) N = detail.power.dims A (M * N) ∧
      detail.quotient.dims A B = detail.product.dims A (detail.reciprocal.dims B) ∧
      detail.reciprocal.dims A = detail.power.dims A (-1) := by
  refine ⟨?_, ?_, ?_, ?_, ?_⟩ <;>
  · simp only [detail.power.dims, detail.product.dims, detail.quotient.dims,
      detail.reciprocal.dims, dimensions.mk.injEq]
    refine ⟨?_, ?_, ?_, ?_, ?_, ?_, ?_⟩ <;> ring

/-- C38: for every dimension vector `A`, every scalar type `T` and every
quantity `q`, the enumerators and the member `type` of `root< A, 0, T >` have no
value, `nth_root< 0 >( q )` is rejected for the zero divisor of `%` and `/` in
their constant expressions, and no object, quantity or scalar, results from
`nth_root< 0 >`. -/
theorem C38_zeroth_root_rejected (τ α : Type) [Pow α α] [One α] [Div α] [IntCast α]
    (A : dimensions) (T : τ) (q : quantity A α) :
    detail.root.all_even_multiples A 0 = .error .division_by_zero_in_constant_expression ∧
      detail.root.dims A 0 = .error .division_by_zero_in_constant_expression ∧
      detail.root.type A 0 T = .error .division_by_zero_in_constant_expression ∧
      q.nth_root 0 = .error .division_by_zero_in_constant_expression ∧
      ∀ v r : value α, v.nth_root 0 ≠ .ok r := by
  refine ⟨detail.root.all_even_multiples_zero A, detail.root.dims_zero A, ?_,
    quantity.nth_root_zero q, ?_⟩
  · simp only [detail.root.type, detail.root.all_even_multiples_zero]
  · intro v r h
    cases v with
    | rep x => simp [value.nth_root] at h
    | quan D p =>
      rw [value.nth_root, quantity.nth_root_zero] at h
      cases h

/-- C35: `prefix_end` is 24 and the array `prefix` has 17 elements; for every
exponent `x` that `fits_eng_notation( x, prefix_start, prefix_end )` accepts,
`x` lies between -24 and 24 and the index `( x - prefix_start ) / 3` lies
between 0 and 16, so that it selects an element of the array; the exponents 0,
3 and -3 select the empty prefix, `k` and `m`. -/
theorem C35_prefix_index_in_bounds (info : unit_info.members) (Dims : dimensions) (x : Int)
    (h : eng_format.fits_eng_notation info Dims x eng_format.construct.prefix_start
      eng_format.construct.prefix_end = true) :
    (eng_format.construct.prefix_end = 24 ∧ eng_format.construct.prefix_.length = 17) ∧
      (-24 ≤ x ∧ x ≤ 24) ∧
      (0 ≤ Int.tdiv (x - eng_format.construct.prefix_start) 3 ∧
        Int.tdiv (x - eng_format.construct.prefix_start) 3 ≤ 16) ∧
      (∃ p, eng_format.construct.prefix_at (Int.tdiv (x - eng_format.construct.prefix_start) 3)
          = some p ∧
        eng_format.construct.prefix_[(Int.tdiv (x - eng_format.construct.prefix_start) 3).toNat]?
          = some p) ∧
      eng_format.construct.prefix_at (Int.tdiv (0 - eng_format.construct.prefix_start) 3)
        = some "" ∧
      eng_format.construct.prefix_at (Int.tdiv (3 - eng_format.construct.prefix_start) 3)
        = some "k" ∧
      eng_format.construct.prefix_at (Int.tdiv (-3 - eng_format.construct.prefix_start) 3)
        = some "m" := by
  have he : eng_format.construct.prefix_end = 24 := by decide
  simp only [eng_format.fits_eng_notation, Bool.and_eq_true, decide_eq_true_eq, he] at h
  obtain ⟨⟨_, hlo⟩, hhi⟩ := h
  have hs : eng_format.construct.prefix_start = -24 := rfl
  rw [hs] at hlo
  have hq : Int.tdiv (x - eng_format.construct.prefix_start) 3 = (x + 24) / 3 := by
    rw [hs, Int.tdiv_eq_ediv (by omega) (by omega)]
    congr 1
  have h0 : 0 ≤ (x + 24) / 3 := by omega
  have h16 : (x + 24) / 3 ≤ 16 := by omega
  refine ⟨⟨he, by decide⟩, ⟨hlo, hhi⟩, ?_, ?_, by decide, by decide, by decide⟩
  · rw [hq]
    exact ⟨h0, h16⟩
  · rw [hq]
    have hn : ((x + 24) / 3).toNat < eng_format.construct.prefix_.length := by
      have : eng_format.construct.prefix_.length = 17 := by decide
      omega
    refine ⟨eng_format.construct.prefix_[((x + 24) / 3).toNat], ?_, ?_⟩
    · rw [eng_format.construct.prefix_at, if_pos h0]
      exact List.getElem?_eq_getElem hn
    · exact List.getElem?_eq_getElem hn

/-- Witness of C35: the exponent 3 of a length, with the primary `unit_info`, is
accepted and selects `k`, the element 9. -/
theorem C35_prefix_index_witness :
    eng_format.fits_eng_notation (unit_info.primary length_d) length_d 3
        eng_format.construct.prefix_start eng_format.construct.prefix_end = true ∧
      Int.tdiv (3 - eng_format.construct.prefix_start) 3 = 9 ∧
      eng_format.construct.prefix_[9]? = some "k" ∧
      (0 ≤ Int.tdiv (3 - eng_format.construct.prefix_start) 3 ∧
        Int.tdiv (3 - eng_format.construct.prefix_start) 3 ≤ 16) :=
  ⟨by decide, by decide, by decide,
    (C35_prefix_index_in_bounds (unit_info.primary length_d) length_d 3 (by decide)).2.2.1⟩


/-- C36: for every index `i` from 0 to 16 other than 6 and 8, the element `i` of
the array `prefix` of the engineering format is a name that the function
`prefix` accepts, with the factor ten to the power `3 * i - 24`; the element 6
is the micro glyph, which `prefix` rejects, whereas it accepts `u` with the
factor of that place; the element 8 is the empty string; and among the elements
other than the empty string the micro glyph is the only one that `prefix`
rejects. -/
theorem C36_prefix_table_agrees (i : Nat) (hi : i ≤ 16) (h6 : i ≠ 6) (h8 : i ≠ 8) :
    (∃ p, eng_format.construct.prefix_[i]? = some p ∧ p ≠ "" ∧ p ≠ "µ" ∧
        prefix_ p = .ok ((10 : ℚ) ^ (3 * (i : Int) - 24))) ∧
      (eng_format.construct.prefix_[6]? = some "µ" ∧
        prefix_ "µ" = .error ⟨"quantity: unrecognized prefix \x27µ\x27"⟩ ∧
        prefix_ "u" = .ok ((10 : ℚ) ^ (3 * (6 : Int) - 24))) ∧
      eng_format.construct.prefix_[8]? = some "" ∧
      ∀ (j : Nat) (p : String), eng_format.construct.prefix_[j]? = some p → p ≠ "" →
        ((∃ err, prefix_ p = .error err) ↔ j = 6) := by
  have hev : ∀ j : Nat, j ≤ 16 → j ≠ 6 → j ≠ 8 →
      ∃ p, eng_format.construct.prefix_[j]? = some p ∧ p ≠ "" ∧ p ≠ "µ" ∧
        prefix_ p = .ok ((10 : ℚ) ^ (3 * (j : Int) - 24)) := by
    intro j hj hj6 hj8
    interval_cases j
    all_goals first
      | exact absurd rfl hj6
      | exact absurd rfl hj8
      | rcases hq : eng_format.construct.prefix_[_]? with _ | p
        · cases hq
        · simp only [eng_format.construct.prefix_, List.getElem?_cons_succ,
            List.getElem?_cons_zero, Option.some.injEq] at hq
          subst hq
          refine ⟨_, rfl, by decide, by decide, ?_⟩
          simp only [prefix_, prefix_.loop, prefix_.table, String.reduceEq, if_true, if_false,
            milli, kilo, micro, mega, nano, giga, pico, tera, femto, peta, atto, exa, zepto,
            zetta, yocto, yotta, hecto, deka, deci, centi]
          norm_num
  have hmu : prefix_ "µ" = .error ⟨"quantity: unrecognized prefix \x27µ\x27"⟩ := by
    rw [prefix_, prefix_.loop_of_not_mem _ _ (by decide)]
    exact congrArg Except.error (congrArg prefix_error.mk (by decide))
  refine ⟨hev i hi h6 h8, ⟨rfl, hmu, ?_⟩, rfl, ?_⟩
  · simp only [prefix_, prefix_.loop, prefix_.table, String.reduceEq, if_true, if_false, micro]
    norm_num
  · intro j p hp hne
    have hj : j < eng_format.construct.prefix_.length := by
      by_contra hcon
      rw [List.getElem?_eq_none (by omega)] at hp
      cases hp
    have hj16 : j ≤ 16 := by
      have : eng_format.construct.prefix_.length = 17 := by decide
      omega
    constructor
    · rintro ⟨err, herr⟩
      by_contra hj6
      have hj8 : j ≠ 8 := by
        rintro rfl
        have h8p : eng_format.construct.prefix_[8]? = some "" := rfl
        rw [h8p] at hp
        exact hne (Option.some.inj hp).symm
      obtain ⟨p1, hp1, _, _, hok⟩ := hev j hj16 hj6 hj8
      rw [hp1] at hp
      cases Option.some.inj hp
      rw [hok] at herr
      cases herr
    · rintro rfl
      have h6p : eng_format.construct.prefix_[6]? = some "µ" := rfl
      rw [h6p] at hp
      cases Option.some.inj hp
      exact ⟨_, hmu⟩

/-- Witness of C36: the element 9 of the array is `k`, which `prefix` maps to
ten to the power 3. -/
theorem C36_prefix_table_witness :
    eng_format.construct.prefix_[9]? = some "k" ∧
      ∃ p, eng_format.construct.prefix_[9]? = some p ∧ p ≠ "" ∧ p ≠ "µ" ∧
        prefix_ p = .ok ((10 : ℚ) ^ (3 * ((9 : Nat) : Int) - 24)) :=
  ⟨rfl, (C36_prefix_table_agrees 9 (by decide) (by decide) (by decide)).1⟩

/-- C31: in exact arithmetic a week is seven days, a standard year 365 days, a
fortnight fourteen days, a day 24 hours, an hour 60 minutes and a minute 60
seconds, each comparison made by `operator==`; all of them are quantities of
`time_interval_d`. -/
theorem C31_time_units_consistent :
    (week.eq (quantity.num_mul 7 day) = true ∧
      year_std.eq (quantity.num_mul 365 day) = true ∧
      fortnight.eq (quantity.num_mul 14 day) = true ∧
      day.eq (quantity.num_mul 24 hour) = true ∧
      hour.eq (quantity.num_mul 60 minute) = true ∧
      minute.eq (quantity.num_mul 60 (second : quantity time_interval_d ℚ)) = true) ∧
    (week.dimension_type = time_interval_d ∧ year_std.dimension_type = time_interval_d ∧
      fortnight.dimension_type = time_interval_d ∧ day.dimension_type = time_interval_d ∧
      hour.dimension_type = time_interval_d ∧ minute.dimension_type = time_interval_d) ∧
    (week.m_value = 604800 ∧ year_std.m_value = 31536000 ∧ fortnight.m_value = 1209600 ∧
      day.m_value = 86400 ∧ hour.m_value = 3600 ∧ minute.m_value = 60) := by
  refine ⟨⟨?_, ?_, ?_, ?_, ?_, ?_⟩, ⟨rfl, rfl, rfl, rfl, rfl, rfl⟩, ?_, ?_, ?_, ?_, ?_, ?_⟩ <;>
  · simp only [quantity.eq, quantity.num_mul, week, year_std, fortnight, day, hour, minute,
      second, beq_iff_eq] <;> norm_num

/-- C39 fails on the constants: `eV()` is the quantity of `energy_d` with the
scalar 1.60217733e-19, `e() * volt()` is the quantity of `energy_d` with the
scalar 1.602176462e-19, and `operator==` of the two is false. -/
theorem C39_electronvolt_constant :
    eV = .ok ⟨1.60217733e-19⟩ ∧ e = .ok ⟨1.602176462e-19⟩ ∧
      (volt : Except compile_error (quantity electric_potential_d ℚ)) = .ok ⟨1⟩ ∧
      quantity.mul (⟨1.602176462e-19⟩ : quantity electric_charge_d ℚ)
          (⟨1⟩ : quantity electric_potential_d ℚ) =
        value.quan energy_d ⟨1.602176462e-19⟩ ∧
      energy_d = ⟨2, 1, -2, 0, 0, 0, 0⟩ ∧
      quantity.eq (⟨1.60217733e-19⟩ : quantity energy_d ℚ) ⟨1.602176462e-19⟩ = false := by
  refine ⟨?_, ?_, volt_eq, ?_, rfl, ?_⟩
  · simp [eV, joule_eq, bind, Except.bind, pure, Except.pure, quantity.num_mul]
  · simp [e, coulomb_eq, bind, Except.bind, pure, Except.pure, quantity.num_mul]
  · simp [quantity.mul, detail.collapse.construct, detail.product.dims, electric_charge_d,
      electric_potential_d, energy_d, dimensionless_d]
  · simp only [quantity.eq, beq_eq_false_iff_ne, ne_eq]
    norm_num


/-- C32: `fits_eng_notation` holds if and only if the `unit_info` in effect is a
single symbol, the dimension is not `mass_d` and the exponent lies between -24
and 24; when it holds, the magnitude is the text of the value alone and the
unit is an element of the array `prefix` followed by the unit symbol; when it
does not hold, the magnitude is the text of the value followed by `e` and the
exponent, and the unit is the unit symbol alone; for `mass_d` it never holds. -/
theorem C32_prefix_iff_fits (info : unit_info.members) (Dims : dimensions) (text : String)
    (x : Int) :
    (eng_format.fits_eng_notation info Dims x eng_format.construct.prefix_start
          eng_format.construct.prefix_end = true ↔
        info.single = true ∧ Dims ≠ mass_d ∧ -24 ≤ x ∧ x ≤ 24) ∧
      (eng_format.fits_eng_notation info Dims x eng_format.construct.prefix_start
          eng_format.construct.prefix_end = true →
        ∃ p, eng_format.construct.prefix_[(Int.tdiv (x - eng_format.construct.prefix_start)
              3).toNat]? = some p ∧
          eng_format.construct.output info Dims text x = some (text, p ++ info.symbol)) ∧
      (eng_format.fits_eng_notation info Dims x eng_format.construct.prefix_start
          eng_format.construct.prefix_end = false →
        eng_format.construct.output info Dims text x =
          some (text ++ "e" ++ toString x, info.symbol)) ∧
      (Dims = mass_d →
        eng_format.fits_eng_notation info Dims x eng_format.construct.prefix_start
            eng_format.construct.prefix_end = false ∧
          eng_format.construct.output info Dims text x =
            some (text ++ "e" ++ toString x, info.symbol)) := by
  have he : eng_format.construct.prefix_end = 24 := by decide
  have hs : eng_format.construct.prefix_start = -24 := rfl
  have hne : Dims.ne mass_d = true ↔ Dims ≠ mass_d := by
    cases Dims
    simp only [dimensions.ne, dimensions.eq, mass_d, Bool.not_eq_true', Bool.and_eq_false_imp,
      Bool.and_eq_true, beq_iff_eq, ne_eq, dimensions.mk.injEq, beq_eq_false_iff_ne]
    tauto
  have hiff : eng_format.fits_eng_notation info Dims x eng_format.construct.prefix_start
        eng_format.construct.prefix_end = true ↔
      info.single = true ∧ Dims ≠ mass_d ∧ -24 ≤ x ∧ x ≤ 24 := by
    simp only [eng_format.fits_eng_notation, Bool.and_eq_true, decide_eq_true_eq, he, hs, hne,
      and_assoc]
  have hno : eng_format.fits_eng_notation info Dims x eng_format.construct.prefix_start
        eng_format.construct.prefix_end = false →
      eng_format.construct.output info Dims text x =
        some (text ++ "e" ++ toString x, info.symbol) := by
    intro h
    simp only [eng_format.construct.output, h, Bool.false_eq_true, if_false, String.empty_append]
  refine ⟨hiff, fun h => ?_, hno, fun hm => ?_⟩
  · obtain ⟨_, _, hlo, hhi⟩ := hiff.1 h
    have hq : Int.tdiv (x - eng_format.construct.prefix_start) 3 = (x + 24) / 3 := by
      rw [hs, Int.tdiv_eq_ediv (by omega) (by omega)]
      congr 1
    have h0 : 0 ≤ (x + 24) / 3 := by omega
    have hn : ((x + 24) / 3).toNat < eng_format.construct.prefix_.length := by
      have : eng_format.construct.prefix_.length = 17 := by decide
      omega
    have hat : eng_format.construct.prefix_[((x + 24) / 3).toNat]? =
        some eng_format.construct.prefix_[((x + 24) / 3).toNat] := List.getElem?_eq_getElem hn
    refine ⟨eng_format.construct.prefix_[((x + 24) / 3).toNat], ?_, ?_⟩
    · rw [hq]
      exact hat
    · simp only [eng_format.construct.output, h, if_true, eng_format.construct.prefix_at, hq,
        if_pos h0, hat]
  · have hf : eng_format.fits_eng_notation info Dims x eng_format.construct.prefix_start
        eng_format.construct.prefix_end = false := by
      rw [← Bool.not_eq_true, hiff]
      exact fun h => h.2.1 hm
    exact ⟨hf, hno hf⟩

/-- Witness of C32: with the primary `unit_info`, a length with the exponent 3
has the unit `km`, with the exponent 27 the magnitude ends in `e27` and the
unit is `m`, and a mass with the exponent 3 has a magnitude that ends in `e3`
and the unit `kg`. -/
theorem C32_prefix_witness :
    eng_format.construct.output (unit_info.primary length_d) length_d "1.00" 3 =
        some ("1.00", "km") ∧
      eng_format.construct.output (unit_info.primary length_d) length_d "1.00" 27 =
        some ("1.00e27", "m") ∧
      eng_format.construct.output (unit_info.primary mass_d) mass_d "1.00" 3 =
        some ("1.00e3", "kg") ∧
      ∃ p, eng_format.construct.prefix_[(Int.tdiv (3 - eng_format.construct.prefix_start)
            3).toNat]? = some p ∧
        eng_format.construct.output (unit_info.primary length_d) length_d "1.00" 3 =
          some ("1.00", p ++ (unit_info.primary length_d).symbol) :=
  ⟨by decide, by decide, by decide,
    (C32_prefix_iff_fits (unit_info.primary length_d) length_d "1.00" 3).2.1 (by decide)⟩


/-- C34: for every decimal exponent `e10` and every mantissa `m` with
`1 <= m <= 10`, lines 148 to 171 of `construct` turn the value `m * 10^e10` and
the exponent `e10` into a value `v` and an exponent `x` such that `x` is a
multiple of 3, `1 <= v < 1000` and `v * 10^x = m * 10^e10`; when `e10 <= 0` is a
multiple of 3, the first step gives `e10 - 3`, the scaled value is then at least
1000, and the correction returns the value `m` and the exponent `e10`. -/
theorem C34_exponent_normalisation (m : ℚ) (e10 digits : Int) (h1 : 1 ≤ m) (h10 : m ≤ 10) :
    (3 ∣ (eng_format.construct.normalise (m * 10 ^ e10) e10 digits).2.1 ∧
      1 ≤ (eng_format.construct.normalise (m * 10 ^ e10) e10 digits).1 ∧
      (eng_format.construct.normalise (m * 10 ^ e10) e10 digits).1 < 1000 ∧
      (eng_format.construct.normalise (m * 10 ^ e10) e10 digits).1 *
          10 ^ (eng_format.construct.normalise (m * 10 ^ e10) e10 digits).2.1 =
        m * 10 ^ e10) ∧
    (e10 ≤ 0 → 3 ∣ e10 →
      Int.tdiv (-e10 + 3) 3 * (-3) = e10 - 3 ∧
        m * 10 ^ e10 * (10 : ℚ) ^ (-(e10 - 3)) ≥ 1000 ∧
        eng_format.construct.normalise (m * 10 ^ e10) e10 digits = (m, e10, digits)) := by
  have h10ne : (10 : ℚ) ≠ 0 := by norm_num
  obtain ⟨k, hk, hx1, hdvd⟩ : ∃ k : Int, (k = 0 ∨ k = 1 ∨ k = 2 ∨ k = 3) ∧
      (if e10 > 0 then Int.tdiv e10 3 * 3 else Int.tdiv (-e10 + 3) 3 * (-3)) = e10 - k ∧
      (3 : Int) ∣ e10 - k := by
    by_cases he : e10 > 0
    · rw [if_pos he, Int.tdiv_eq_ediv (by omega) (by omega)]
      exact ⟨e10 % 3, by omega, by omega, by omega⟩
    · rw [if_neg he, Int.tdiv_eq_ediv (by omega) (by omega)]
      exact ⟨e10 + (-e10 + 3) / 3 * 3, by omega, by omega, by omega⟩
  have hv : m * 10 ^ e10 * (10 : ℚ) ^ (-(e10 - k)) = m * 10 ^ k := by
    rw [mul_assoc, ← zpow_add₀ h10ne]
    congr 2
    ring
  have hn : eng_format.construct.normalise (m * 10 ^ e10) e10 digits =
      if m * (10 : ℚ) ^ k ≥ 1000 then (m * 10 ^ k / 1000, e10 - k + 3, digits)
      else if m * (10 : ℚ) ^ k ≥ 100 then (m * 10 ^ k, e10 - k, digits - 2)
      else if m * (10 : ℚ) ^ k ≥ 10 then (m * 10 ^ k, e10 - k, digits - 1)
      else (m * 10 ^ k, e10 - k, digits) := by
    simp only [eng_format.construct.normalise, hx1, hv]
  have hfin1 : m * (10 : ℚ) ^ k * 10 ^ (e10 - k) = m * 10 ^ e10 := by
    rw [mul_assoc, ← zpow_add₀ h10ne]
    congr 2
    ring
  have hfin2 : m * (10 : ℚ) ^ k / 1000 * 10 ^ (e10 - k + 3) = m * 10 ^ e10 := by
    rw [zpow_add₀ h10ne, ← hfin1]
    norm_num
    ring
  have hb : 1 ≤ m * (10 : ℚ) ^ k ∧ m * (10 : ℚ) ^ k ≤ 10000 := by
    rcases hk with rfl | rfl | rfl | rfl <;> norm_num <;> constructor <;> linarith
  refine ⟨?_, fun hle h3 => ?_⟩
  · rw [hn]
    split_ifs with c1 c2 c3
    · refine ⟨?_, ?_, ?_, hfin2⟩
      · show (3 : Int) ∣ e10 - k + 3
        omega
      · show 1 ≤ m * (10 : ℚ) ^ k / 1000
        linarith [hb.2]
      · show m * (10 : ℚ) ^ k / 1000 < 1000
        linarith [hb.2]
    · exact ⟨hdvd, hb.1, lt_of_not_ge c1, hfin1⟩
    · exact ⟨hdvd, hb.1, lt_of_not_ge c1, hfin1⟩
    · exact ⟨hdvd, hb.1, lt_of_not_ge c1, hfin1⟩
  · have hx : Int.tdiv (-e10 + 3) 3 * (-3) = e10 - 3 := by
      rw [Int.tdiv_eq_ediv (by omega) (by omega)]
      omega
    have hk3 : k = 3 := by
      rw [if_neg (by omega), hx] at hx1
      omega
    subst hk3
    have h1000 : m * (10 : ℚ) ^ (3 : Int) ≥ 1000 := by
      norm_num
      linarith
    refine ⟨hx, ?_, ?_⟩
    · rw [hv]
      exact h1000
    · rw [hn, if_pos h1000]
      norm_num

/-- Witness of C34: the value 1 with the exponent 0 passes through the exponent
-3 and the value 1000 and comes out as the value 1 with the exponent 0. -/
theorem C34_exponent_normalisation_witness :
    (1 : ℚ) ≤ 1 ∧ (1 : ℚ) ≤ 10 ∧ (0 : Int) ≤ 0 ∧ (3 : Int) ∣ 0 ∧
      Int.tdiv (-0 + 3) 3 * (-3) = (0 : Int) - 3 ∧
      (1 : ℚ) * 10 ^ (0 : Int) * (10 : ℚ) ^ (-((0 : Int) - 3)) ≥ 1000 ∧
      eng_format.construct.normalise (1 * 10 ^ (0 : Int)) 0 3 = (1, 0, 3) :=
  ⟨le_refl 1, by norm_num, le_refl 0, by decide,
    (C34_exponent_normalisation 1 0 3 (le_refl 1) (by norm_num)).2 (le_refl 0) (by decide)⟩


/-! ## The unit symbol determines the dimension -/

/-- The decimal digits that `Nat.toDigitsCore` puts in front of `ds`: there is
at least one, each is a digit, and their value is `n`. -/
theorem decimal_digits_core (fuel n : Nat) (ds : List Char) (h : n < fuel) :
    ∃ pre : List Char, Nat.toDigitsCore 10 fuel n ds = pre ++ ds ∧ pre ≠ [] ∧
      (∀ c ∈ pre, c.isDigit = true) ∧
      pre.foldl (fun a c => 10 * a + (c.toNat - 48)) 0 = n := by
  have hdig : ∀ k : Nat, k < 10 →
      (Nat.digitChar k).isDigit = true ∧ (Nat.digitChar k).toNat - 48 = k := by decide
  induction fuel generalizing n ds with
  | zero => omega
  | succ fuel ih =>
    have hk := hdig (n % 10) (Nat.mod_lt _ (by decide))
    by_cases hq : n / 10 = 0
    · refine ⟨[Nat.digitChar (n % 10)], ?_, by simp, ?_, ?_⟩
      · simp [Nat.toDigitsCore, hq]
      · intro c hc
        rw [List.mem_singleton] at hc
        rw [hc]
        exact hk.1
      · simp only [List.foldl, hk.2]
        omega
    · obtain ⟨pre, hpre, _, hd, hval⟩ := ih (n / 10) (Nat.digitChar (n % 10) :: ds) (by omega)
      refine ⟨pre ++ [Nat.digitChar (n % 10)], ?_, by simp, ?_, ?_⟩
      · simp [Nat.toDigitsCore, hq, hpre]
      · intro c hc
        rw [List.mem_append, List.mem_singleton] at hc
        rcases hc with hc | hc
        · exact hd c hc
        · rw [hc]
          exact hk.1
      · rw [List.foldl_append, hval]
        simp only [List.foldl, hk.2]
        omega

/-- The text of a natural number: a non-empty list of digits whose value is the
number. -/
theorem decimal_digits_repr (n : Nat) :
    (Nat.repr n).data ≠ [] ∧ (∀ c ∈ (Nat.repr n).data, c.isDigit = true) ∧
      (Nat.repr n).data.foldl (fun a c => 10 * a + (c.toNat - 48)) 0 = n := by
  obtain ⟨pre, hpre, hne, hd, hval⟩ := decimal_digits_core (n + 1) n [] (by omega)
  have hdata : (Nat.repr n).data = pre := by
    rw [Nat.repr, Nat.toDigits, hpre, List.append_nil]
    rfl
  rw [hdata]
  exact ⟨hne, hd, hval⟩

/-- The characters that follow the label in an entry of a non-zero exponent:
none for 1, `+` and the digits above 1, `-` and the digits of the absolute
value below 0. -/
theorem unit_info.entry_spec_empty_data (d : Int) (hd : d ≠ 0) :
    (d = 1 ∧ (unit_info.entry_spec "" d).data = []) ∨
      (1 < d ∧ (unit_info.entry_spec "" d).data = '+' :: (Nat.repr d.toNat).data) ∨
      (d < 0 ∧ (unit_info.entry_spec "" d).data = '-' :: (Nat.repr (-d).toNat).data) := by
  by_cases h1 : d = 1
  · left
    refine ⟨h1, ?_⟩
    rw [h1]
    rfl
  · by_cases hg : d > 1
    · right; left
      refine ⟨hg, ?_⟩
      obtain ⟨n, rfl⟩ := Int.eq_ofNat_of_zero_le (by omega : 0 ≤ d)
      simp only [unit_info.entry_spec, if_neg h1, if_pos hg, String.empty_append,
        String.data_append, Int.toNat_ofNat]
      rfl
    · right; right
      have hlt : d < 0 := by omega
      refine ⟨hlt, ?_⟩
      obtain ⟨n, rfl⟩ := Int.eq_negSucc_of_lt_zero hlt
      simp only [unit_info.entry_spec, if_neg h1, if_neg hg, String.empty_append]
      rfl

/-- Each character after the label in an entry is a digit or a sign. -/
theorem unit_info.entry_spec_empty_chars (d : Int) (hd : d ≠ 0) :
    ∀ c ∈ (unit_info.entry_spec "" d).data, c.isDigit = true ∨ c = '+' ∨ c = '-' := by
  intro c hc
  rcases unit_info.entry_spec_empty_data d hd with ⟨_, h⟩ | ⟨_, h⟩ | ⟨_, h⟩
  · rw [h] at hc
    cases hc
  · rw [h, List.mem_cons] at hc
    rcases hc with hc | hc
    · exact Or.inr (Or.inl hc)
    · exact Or.inl ((decimal_digits_repr _).2.1 c hc)
  · rw [h, List.mem_cons] at hc
    rcases hc with hc | hc
    · exact Or.inr (Or.inr hc)
    · exact Or.inl ((decimal_digits_repr _).2.1 c hc)

/-- The characters after the label determine a non-zero exponent. -/
theorem unit_info.entry_spec_empty_inj (d d1 : Int) (hd : d ≠ 0) (hd1 : d1 ≠ 0)
    (h : (unit_info.entry_spec "" d).data = (unit_info.entry_spec "" d1).data) : d = d1 := by
  have hv : ∀ n m : Nat, (Nat.repr n).data = (Nat.repr m).data → n = m := by
    intro n m hnm
    have hn := (decimal_digits_repr n).2.2
    rw [hnm] at hn
    exact hn.symm.trans (decimal_digits_repr m).2.2
  rcases unit_info.entry_spec_empty_data d hd with ⟨a, ha⟩ | ⟨a, ha⟩ | ⟨a, ha⟩ <;>
  rcases unit_info.entry_spec_empty_data d1 hd1 with ⟨b, hb⟩ | ⟨b, hb⟩ | ⟨b, hb⟩ <;>
  rw [ha, hb] at h
  · rw [a, b]
  · cases h
  · cases h
  · cases h
  · have := hv _ _ (List.cons.inj h).2
    omega
  · exact absurd (List.cons.inj h).1 (by decide)
  · cases h
  · exact absurd (List.cons.inj h).1 (by decide)
  · have := hv _ _ (List.cons.inj h).2
    omega

/-- An entry is its label followed by the characters of the exponent. -/
theorem unit_info.entry_spec_data (label : String) (d : Int) :
    (unit_info.entry_spec label d).data = label.data ++ (unit_info.entry_spec "" d).data := by
  simp only [unit_info.entry_spec]
  split_ifs <;> simp [String.data_append]

/-- For one label, the entries of two non-zero exponents differ. -/
theorem unit_info.entry_spec_inj (label : String) (d d1 : Int) (hd : d ≠ 0) (hd1 : d1 ≠ 0)
    (h : unit_info.entry_spec label d = unit_info.entry_spec label d1) : d = d1 := by
  have hdata := congrArg String.data h
  rw [unit_info.entry_spec_data, unit_info.entry_spec_data label d1] at hdata
  exact unit_info.entry_spec_empty_inj d d1 hd hd1 (List.append_cancel_left hdata)

/-- No entry of the seven labels contains a space, and none is empty. -/
theorem unit_info.entry_spec_no_space (label : String) (d : Int) (hd : d ≠ 0)
    (hl : label ∈ ["m", "kg", "s", "A", "K", "mol", "cd"]) :
    ' ' ∉ (unit_info.entry_spec label d).data ∧ unit_info.entry_spec label d ≠ "" := by
  have hsp : ∀ l ∈ ["m", "kg", "s", "A", "K", "mol", "cd"], ' ' ∉ l.data ∧ l.data ≠ [] := by
    decide
  constructor
  · rw [unit_info.entry_spec_data, List.mem_append]
    rintro (h | h)
    · exact (hsp label hl).1 h
    · rcases unit_info.entry_spec_empty_chars d hd ' ' h with h1 | h1 | h1
      · exact absurd h1 (by decide)
      · exact absurd h1 (by decide)
      · exact absurd h1 (by decide)
  · intro h
    have hdata := congrArg String.data h
    rw [unit_info.entry_spec_data] at hdata
    exact (hsp label hl).2 (List.append_eq_nil.1 hdata).1

/-- Entries of two different labels among the seven differ. -/
theorem unit_info.entry_spec_label_ne (l l1 : String) (d d1 : Int) (hd : d ≠ 0) (hd1 : d1 ≠ 0)
    (hl : l ∈ ["m", "kg", "s", "A", "K", "mol", "cd"])
    (hl1 : l1 ∈ ["m", "kg", "s", "A", "K", "mol", "cd"]) (hne : l ≠ l1) :
    unit_info.entry_spec l d ≠ unit_info.entry_spec l1 d1 := by
  intro h
  have hdata := congrArg String.data h
  rw [unit_info.entry_spec_data, unit_info.entry_spec_data l1 d1] at hdata
  have ho : ∀ e : Int, e ≠ 0 → ∀ t : List Char,
      (unit_info.entry_spec "" e).data ≠ 'o' :: t := by
    intro e he t ht
    have hmem : 'o' ∈ (unit_info.entry_spec "" e).data := by
      rw [ht]
      exact List.mem_cons_self _ _
    rcases unit_info.entry_spec_empty_chars e he 'o' hmem with h1 | h1 | h1
    · exact absurd h1 (by decide)
    · exact absurd h1 (by decide)
    · exact absurd h1 (by decide)
  have hhead : l.data.head? = l1.data.head? := by
    have hnil : ∀ l ∈ ["m", "kg", "s", "A", "K", "mol", "cd"], l.data ≠ [] := by decide
    have := congrArg List.head? hdata
    rwa [List.head?_append_of_ne_nil _ (hnil l hl), List.head?_append_of_ne_nil _ (hnil l1 hl1)]
      at this
  simp only [List.mem_cons, List.mem_singleton, List.not_mem_nil, or_false] at hl hl1
  rcases hl with rfl | rfl | rfl | rfl | rfl | rfl | rfl <;>
  rcases hl1 with rfl | rfl | rfl | rfl | rfl | rfl | rfl <;>
  first
    | exact absurd rfl hne
    | exact absurd hhead (by decide)
    | exact ho d hd _ (List.append_cancel_left
        (show ['m'] ++ (unit_info.entry_spec "" d).data =
          ['m'] ++ ('o' :: 'l' :: (unit_info.entry_spec "" d1).data) from hdata))
    | exact ho d1 hd1 _ (List.append_cancel_left
        (show ['m'] ++ (unit_info.entry_spec "" d1).data =
          ['m'] ++ ('o' :: 'l' :: (unit_info.entry_spec "" d).data) from hdata.symm))

theorem String.intercalate_go_data (s acc : String) (L : List String) :
    (String.intercalate.go acc s L).data =
      acc.data ++ (L.map (fun a => s.data ++ a.data)).flatten := by
  induction L generalizing acc with
  | nil => simp [String.intercalate.go]
  | cons a as ih =>
    rw [String.intercalate.go, ih]
    simp [String.data_append, List.append_assoc]

theorem List.flatten_intersperse_cons {β : Type} (sep a : List β) (L : List (List β)) :
    (List.intersperse sep (a :: L)).flatten = a ++ (L.map (fun b => sep ++ b)).flatten := by
  induction L generalizing a with
  | nil => simp
  | cons b bs ih =>
    rw [List.intersperse_cons_cons, List.flatten_cons, List.flatten_cons, ih]
    simp

/-- The characters of a joined text are the lists of characters of its parts,
joined by the characters of the separator. -/
theorem String.intercalate_data (s : String) (L : List String) :
    (s.intercalate L).data = s.data.intercalate (L.map String.data) := by
  cases L with
  | nil => rfl
  | cons a as =>
    rw [String.intercalate, String.intercalate_go_data, List.intercalate, List.map_cons,
      List.flatten_intersperse_cons, List.map_map]
    rfl

/-- Two lists of texts without a space and without an empty text that give the
same text when joined by single spaces are equal. -/
theorem String.intercalate_space_inj (L1 L2 : List String)
    (h1 : ∀ s ∈ L1, ' ' ∉ s.data ∧ s ≠ "") (h2 : ∀ s ∈ L2, ' ' ∉ s.data ∧ s ≠ "")
    (h : " ".intercalate L1 = " ".intercalate L2) : L1 = L2 := by
  have hne : ∀ (a : String) (as : List String), a ≠ "" → " ".intercalate (a :: as) ≠ "" := by
    intro a as ha hcon
    have hd := congrArg String.data hcon
    rw [String.intercalate, String.intercalate_go_data] at hd
    exact ha (String.ext (List.append_eq_nil.1 hd).1)
  have hsplit : ∀ L : List String, (∀ s ∈ L, ' ' ∉ s.data ∧ s ≠ "") → L ≠ [] →
      (" ".intercalate L).data.splitOn ' ' = L.map String.data := by
    intro L hL hnil
    rw [String.intercalate_data]
    refine List.splitOn_intercalate _ ' ' ?_ ?_
    · intro l hl
      obtain ⟨s, hs, rfl⟩ := List.mem_map.1 hl
      exact (hL s hs).1
    · simpa using hnil
  cases L1 with
  | nil =>
    cases L2 with
    | nil => rfl
    | cons b bs => exact absurd h.symm (hne b bs (h2 b (List.mem_cons_self _ _)).2)
  | cons a as =>
    cases L2 with
    | nil => exact absurd h (hne a as (h1 a (List.mem_cons_self _ _)).2)
    | cons b bs =>
      have e1 := hsplit (a :: as) h1 (List.cons_ne_nil _ _)
      have e2 := hsplit (b :: bs) h2 (List.cons_ne_nil _ _)
      rw [h, e2] at e1
      exact (List.map_injective_iff.2 (fun s t hst => String.ext hst) e1).symm

/-- Two lists of labelled exponents with the same labels, all different and
among the seven, that have the same entries of non-zero exponents are equal. -/
theorem unit_info.entries_inj (ps qs : List (String × Int))
    (hlab : ps.map Prod.fst = qs.map Prod.fst) (hnd : (ps.map Prod.fst).Nodup)
    (hmem : ∀ p ∈ ps, p.1 ∈ ["m", "kg", "s", "A", "K", "mol", "cd"])
    (h : (ps.filter (fun e => e.2 ≠ 0)).map (fun e => unit_info.entry_spec e.1 e.2) =
      (qs.filter (fun e => e.2 ≠ 0)).map (fun e => unit_info.entry_spec e.1 e.2)) :
    ps = qs := by
  have hnot : ∀ (l : String) (d : Int) (rs : List (String × Int)), d ≠ 0 →
      l ∈ ["m", "kg", "s", "A", "K", "mol", "cd"] →
      (∀ r ∈ rs, r.1 ∈ ["m", "kg", "s", "A", "K", "mol", "cd"]) → l ∉ rs.map Prod.fst →
      unit_info.entry_spec l d ∉
        (rs.filter (fun e => e.2 ≠ 0)).map (fun e => unit_info.entry_spec e.1 e.2) := by
    intro l d rs hd hl hrs hnin hin
    obtain ⟨r, hr, hre⟩ := List.mem_map.1 hin
    rw [List.mem_filter] at hr
    have hr0 : r.2 ≠ 0 := by simpa using hr.2
    have hrl : l ≠ r.1 := fun hcon => hnin (List.mem_map.2 ⟨r, hr.1, hcon.symm⟩)
    exact unit_info.entry_spec_label_ne l r.1 d r.2 hd hr0 hl (hrs r hr.1) hrl hre.symm
  induction ps generalizing qs with
  | nil =>
    cases qs with
    | nil => rfl
    | cons q qs => simp at hlab
  | cons p ps ih =>
    cases qs with
    | nil => simp at hlab
    | cons q qs =>
      obtain ⟨l, d⟩ := p
      obtain ⟨l1, d1⟩ := q
      simp only [List.map_cons, List.cons.injEq] at hlab
      obtain ⟨rfl, hlab⟩ := hlab
      simp only [List.map_cons, List.nodup_cons] at hnd
      have hl := hmem (l, d) (List.mem_cons_self _ _)
      have hps : ∀ r ∈ ps, r.1 ∈ ["m", "kg", "s", "A", "K", "mol", "cd"] :=
        fun r hr => hmem r (List.mem_cons_of_mem _ hr)
      have hqs : ∀ r ∈ qs, r.1 ∈ ["m", "kg", "s", "A", "K", "mol", "cd"] := by
        intro r hr
        have : r.1 ∈ qs.map Prod.fst := List.mem_map.2 ⟨r, hr, rfl⟩
        rw [← hlab] at this
        obtain ⟨r1, hr1, he⟩ := List.mem_map.1 this
        rw [← he]
        exact hps r1 hr1
      by_cases hd : d = 0 <;> by_cases hd1 : d1 = 0
      · subst hd hd1
        have h3 : (ps.filter (fun e => e.2 ≠ 0)).map (fun e => unit_info.entry_spec e.1 e.2) =
            (qs.filter (fun e => e.2 ≠ 0)).map (fun e => unit_info.entry_spec e.1 e.2) := by
          simpa using h
        rw [ih qs hlab hnd.2 hps h3]
      · subst hd
        exfalso
        have h3 : (ps.filter (fun e => e.2 ≠ 0)).map (fun e => unit_info.entry_spec e.1 e.2) =
            unit_info.entry_spec l d1 ::
              (qs.filter (fun e => e.2 ≠ 0)).map (fun e => unit_info.entry_spec e.1 e.2) := by
          simpa [hd1] using h
        refine hnot l d1 ps hd1 hl hps hnd.1 ?_
        rw [h3]
        exact List.mem_cons_self _ _
      · subst hd1
        exfalso
        have h3 : unit_info.entry_spec l d ::
              (ps.filter (fun e => e.2 ≠ 0)).map (fun e => unit_info.entry_spec e.1 e.2) =
            (qs.filter (fun e => e.2 ≠ 0)).map (fun e => unit_info.entry_spec e.1 e.2) := by
          simpa [hd] using h
        refine hnot l d qs hd hl hqs (hlab ▸ hnd.1) ?_
        rw [← h3]
        exact List.mem_cons_self _ _
      · have h3 : unit_info.entry_spec l d ::
              (ps.filter (fun e => e.2 ≠ 0)).map (fun e => unit_info.entry_spec e.1 e.2) =
            unit_info.entry_spec l d1 ::
              (qs.filter (fun e => e.2 ≠ 0)).map (fun e => unit_info.entry_spec e.1 e.2) := by
          simpa [hd, hd1] using h
        obtain ⟨hh, ht⟩ := List.cons.inj h3
        rw [unit_info.entry_spec_inj l d d1 hd hd1 hh, ih qs hlab hnd.2 hps ht]

/-- The entries of the non-zero exponents of a list with labels among the seven
contain no space and none is empty. -/
theorem unit_info.entries_no_space (ps : List (String × Int))
    (hmem : ∀ p ∈ ps, p.1 ∈ ["m", "kg", "s", "A", "K", "mol", "cd"]) :
    ∀ s ∈ (ps.filter (fun e => e.2 ≠ 0)).map (fun e => unit_info.entry_spec e.1 e.2),
      ' ' ∉ s.data ∧ s ≠ "" := by
  intro s hs
  obtain ⟨r, hr, rfl⟩ := List.mem_map.1 hs
  rw [List.mem_filter] at hr
  have hr0 : r.2 ≠ 0 := by simpa using hr.2
  exact unit_info.entry_spec_no_space r.1 r.2 hr0 (hmem r hr.1)

/-- C33: the symbol built by `unit_info< D >::symbol()` determines the dimension
vector: two dimension vectors with the same symbol are equal; and the symbol is
the empty string exactly for the vector whose seven exponents are zero. -/
theorem C33_unit_symbol_injective :
    (∀ D1 D2 : dimensions, unit_info.symbol D1 = unit_info.symbol D2 → D1 = D2) ∧
      (∀ D : dimensions, unit_info.symbol D = "" ↔ D = ⟨0, 0, 0, 0, 0, 0, 0⟩) ∧
      (∀ D : dimensions, unit_info.symbol D = "" ↔ D.is_all_zero = true) := by
  have hinj : ∀ D1 D2 : dimensions, unit_info.symbol D1 = unit_info.symbol D2 → D1 = D2 := by
    intro D1 D2 h
    rw [unit_info.symbol_eq_symbol_spec, unit_info.symbol_eq_symbol_spec D2] at h
    cases D1 with
    | mk a1 a2 a3 a4 a5 a6 a7 =>
      cases D2 with
      | mk b1 b2 b3 b4 b5 b6 b7 =>
        simp only [unit_info.symbol_spec] at h
        have hm : ∀ (c1 c2 c3 c4 c5 c6 c7 : Int),
            ∀ p ∈ [("m", c1), ("kg", c2), ("s", c3), ("A", c4), ("K", c5), ("mol", c6),
              ("cd", c7)], p.1 ∈ ["m", "kg", "s", "A", "K", "mol", "cd"] := by
          intro c1 c2 c3 c4 c5 c6 c7 p hp
          simp only [List.mem_cons, List.mem_singleton, List.not_mem_nil, or_false] at hp
          rcases hp with rfl | rfl | rfl | rfl | rfl | rfl | rfl <;> simp
        have hL := String.intercalate_space_inj _ _
          (unit_info.entries_no_space _ (hm a1 a2 a3 a4 a5 a6 a7))
          (unit_info.entries_no_space _ (hm b1 b2 b3 b4 b5 b6 b7)) h
        have hps := unit_info.entries_inj
          [("m", a1), ("kg", a2), ("s", a3), ("A", a4), ("K", a5), ("mol", a6), ("cd", a7)]
          [("m", b1), ("kg", b2), ("s", b3), ("A", b4), ("K", b5), ("mol", b6), ("cd", b7)]
          rfl (show ["m", "kg", "s", "A", "K", "mol", "cd"].Nodup by decide)
          (hm a1 a2 a3 a4 a5 a6 a7) hL
        simp only [List.cons.injEq, Prod.mk.injEq, true_and, and_true] at hps
        obtain ⟨h1, h2, h3, h4, h5, h6, h7⟩ := hps
        rw [h1, h2, h3, h4, h5, h6, h7]
  have hzero : unit_info.symbol ⟨0, 0, 0, 0, 0, 0, 0⟩ = "" := by decide
  have hiff : ∀ D : dimensions, unit_info.symbol D = "" ↔ D = ⟨0, 0, 0, 0, 0, 0, 0⟩ := by
    intro D
    constructor
    · intro h
      exact hinj D _ (h.trans hzero.symm)
    · intro h
      rw [h]
      exact hzero
  refine ⟨hinj, hiff, fun D => ?_⟩
  rw [hiff D]
  cases D
  simp only [dimensions.is_all_zero, dimensions.mk.injEq, Bool.and_eq_true, beq_iff_eq,
    and_assoc]

/-- Witness of C33: the symbols of (2,0,-1) and of (0,0,0,0,0,1) are `m+2 s-1`
and `mol`, the symbol of a length differs from that of an amount of substance,
and the symbol of the all-zero vector is empty. -/
theorem C33_unit_symbol_witness :
    unit_info.symbol ⟨2, 0, -1, 0, 0, 0, 0⟩ = "m+2 s-1" ∧
      unit_info.symbol ⟨0, 0, 0, 0, 0, 1, 0⟩ = "mol" ∧
      (⟨2, 0, -1, 0, 0, 0, 0⟩ : dimensions) = ⟨2, 0, -1, 0, 0, 0, 0⟩ ∧
      unit_info.symbol ⟨1, 0, 0, 0, 0, 0, 0⟩ ≠ unit_info.symbol ⟨0, 0, 0, 0, 0, 1, 0⟩ ∧
      unit_info.symbol ⟨0, 0, 0, 0, 0, 0, 0⟩ = "" :=
  ⟨by decide, by decide, C33_unit_symbol_injective.1 _ _ rfl,
    fun h => absurd (C33_unit_symbol_injective.1 _ _ h) (by decide),
    (C33_unit_symbol_injective.2.1 _).2 rfl⟩

end PhysUnits
